import Mathlib

/-!
JoyShockLibrary: the per-device protocol driver (`JoyShock.cpp`)

A shallow embedding of the `JoyShock` class: the gyro averaging engine, the
command codec, the SPI flash client, the calibration decoder and the stick
value mapper.

Conventions of the embedding

* `float` values are the finite binary32 numbers, held as rationals (`ℚ`): the
  result of every `float` operation (`+`, `*`, `/`, the conversion of an `int`)
  is the exact result rounded by `round32` (round to nearest, ties to even, 24
  significant bits, gradual underflow below 2^-126), each operation on its own
  (no fused multiply-add, no wider intermediate format).  Infinities and NaN
  are not held: a result beyond `FLT_MAX`, and a division by zero, are outside
  the embedding, and the theorems about `float` results assume bounds that
  exclude them.  The stick value mapper, one quotient of two integers below
  2^16, is kept in exact rationals.
* `int` values are `Int`; C's `/` and `%` on `int` are `Int.tdiv` and `Int.tmod`
  (truncation toward zero).
* A byte buffer (`unsigned char[]`, `uint8_t*`) is a `List Nat`; a store of an
  `int` into a byte keeps it modulo 256.  A read past the end of a list gives 0
  and a write past the end is dropped (the source has undefined behaviour
  there).
* The transport (`hidapi`) is a scripted device: the k-th `hid_read` leaves a
  scripted buffer content and return value, `hid_write` appends the frame to a
  log.  `hidapi` dereferences the handle it is given, so a call with a null
  handle is invalid; the embedding counts such calls in the session
  (`null_handle_calls`) and goes on.
-/

namespace JSL

/-! ## Data model -/

/-- A byte buffer. -/
abbrev Bytes := List Nat

/-! ### Binary32 arithmetic -/

/-- Floor of the base-2 logarithm of `n` by repeated halving (0 for `n < 2`); the
first argument bounds the number of halvings. -/
def log2_fuel : Nat → Nat → Nat
  | 0, _ => 0
  | fuel + 1, n => if 2 ≤ n then log2_fuel fuel (n / 2) + 1 else 0

/-- The integer nearest to `q`, the even one of the two when `q` lies half-way. -/
def round_half_even (q : ℚ) : Int :=
  if q - ⌊q⌋ < 1 / 2 then ⌊q⌋
  else if 1 / 2 < q - ⌊q⌋ then ⌊q⌋ + 1
  else if ⌊q⌋ % 2 = 0 then ⌊q⌋ else ⌊q⌋ + 1

/-- The binade of `v ≠ 0`: the `e` with `2^e ≤ |v| < 2^(e+1)`, found from the
bit lengths of numerator and denominator. -/
def binade (v : ℚ) : Int :=
  if (2 : ℚ) ^ ((log2_fuel v.num.natAbs v.num.natAbs : Int) - (log2_fuel v.den v.den : Int))
      ≤ |v| then
    (log2_fuel v.num.natAbs v.num.natAbs : Int) - (log2_fuel v.den v.den : Int)
  else (log2_fuel v.num.natAbs v.num.natAbs : Int) - (log2_fuel v.den v.den : Int) - 1

/-- The exponent that binary32 gives `v`: its binade, but not below -126 (the
subnormal numbers share the exponent -126). -/
def float_exponent (v : ℚ) : Int := max (binade v) (-126)

/-- Rounding to binary32: the multiple of `2^(e-23)` nearest to `v`, ties to the
even multiple, where `e` is the exponent of `v`.  For a `v` whose rounding is
beyond `FLT_MAX` binary32 has an infinity; the embedding does not hold it. -/
def round32 (v : ℚ) : ℚ :=
  round_half_even (v / 2 ^ (float_exponent v - 23)) * 2 ^ (float_exponent v - 23)

/-- The constant `FLT_MAX`, the largest finite binary32 number. -/
def FLT_MAX : ℚ := (2 ^ 24 - 1) * 2 ^ 104

/-- The rational `x` is a finite binary32 number: rounding leaves it as it is and
its size is at most `FLT_MAX`. -/
def is_binary32 (x : ℚ) : Prop := round32 x = x ∧ |x| ≤ FLT_MAX

/-- The unit roundoff of binary32, 2^-24: the relative error of one rounding of
a number of the normal range is at most this. -/
def float_u : ℚ := 1 / 2 ^ 24

/-- Half the least positive binary32 number, 2^-150: the absolute error of one
rounding of a number below the normal range is at most this. -/
def float_eta : ℚ := 1 / 2 ^ 150

/-! ### The state of the driver -/

/-- The accumulator `GYRO_AVERAGE_WINDOW` (sums of the samples of one window and
their number).  The default value is C's value-initialised `{}`. -/
structure GYRO_AVERAGE_WINDOW where
  x : ℚ := 0
  y : ℚ := 0
  z : ℚ := 0
  numSamples : Int := 0
deriving DecidableEq

/-- What one `hid_read` call leaves behind: its return value (the number of
bytes read, negative on error) and the contents of the caller's buffer after
the call. -/
structure hid_result where
  res : Int
  buf : Bytes

/-- The transport behind an opened `hid_device*`: the scripted outcome of the
k-th `hid_read`, the number of reads done so far, the frames written so far
(oldest first) and the blocking mode. -/
structure hid_device where
  script : Nat → hid_result
  reads : Nat := 0
  written : List Bytes := []
  nonblocking : Bool := false

/-- The fields of `class JoyShock` that the protocol operations use.  `handle`
is `none` for a null `hid_device*`.  The last field is not a member of the
class: it counts the `hidapi` calls (`hid_write`, `hid_read`,
`hid_set_nonblocking`) that the session has made with a null handle. -/
structure JoyShock where
  handle : Option hid_device := none
  bluetooth : Bool := true
  left_right : Int := 0
  is_ds4 : Bool := false
  global_count : Int := 0
  timing_byte : Int := 0
  gyro_average_window_front_index : Int := 0
  gyro_average_window_seconds : Int := 600
  gyro_average_window : List GYRO_AVERAGE_WINDOW := List.replicate 16 {}
  null_handle_calls : Nat := 0

/-- The constant `num_gyro_average_windows`. -/
def num_gyro_average_windows : Int := 16

/-! ## Gyro averaging engine -/

/-- Read `gyro_average_window[i]`. -/
def window_at (ws : List GYRO_AVERAGE_WINDOW) (i : Int) : GYRO_AVERAGE_WINDOW :=
  if 0 ≤ i then ws.getD i.toNat {} else {}

/-- Store `w` into `gyro_average_window[i]`. -/
def window_set (ws : List GYRO_AVERAGE_WINDOW) (i : Int) (w : GYRO_AVERAGE_WINDOW) :
    List GYRO_AVERAGE_WINDOW :=
  if 0 ≤ i then ws.set i.toNat w else ws

/-- The loop of `reset_continuous_calibration`: `gyro_average_window[i] = {}` for
`i` from the given index while `i < num_gyro_average_windows`. -/
def reset_loop : Nat → Int → List GYRO_AVERAGE_WINDOW → List GYRO_AVERAGE_WINDOW
  | 0, _, ws => ws
  | fuel + 1, i, ws =>
    if i < num_gyro_average_windows then reset_loop fuel (i + 1) (window_set ws i {}) else ws

/-- The method `reset_continuous_calibration`. -/
def reset_continuous_calibration (s : JoyShock) : JoyShock :=
  { s with gyro_average_window := reset_loop 16 0 s.gyro_average_window }

/-- The method `get_gyro_average_window_total_samples_for_device`. -/
def get_gyro_average_window_total_samples_for_device (s : JoyShock) : Int :=
  if s.is_ds4 then 250 * s.gyro_average_window_seconds
  else 67 * s.gyro_average_window_seconds

/-- The method `get_gyro_average_window_single_samples_for_device`. -/
def get_gyro_average_window_single_samples_for_device (s : JoyShock) : Int :=
  Int.tdiv (get_gyro_average_window_total_samples_for_device s) (num_gyro_average_windows - 2)

/-- The first half of `push_sensor_samples` (the `// next` block): when the
front window has reached the single-window sample count, step the front index
backward around the ring and clear the window it now points at. -/
def push_next (s : JoyShock) : JoyShock :=
  if (window_at s.gyro_average_window s.gyro_average_window_front_index).numSamples
      ≥ get_gyro_average_window_single_samples_for_device s then
    let front := Int.tmod
      (s.gyro_average_window_front_index + num_gyro_average_windows - 1)
      num_gyro_average_windows
    { s with
      gyro_average_window_front_index := front
      gyro_average_window := window_set s.gyro_average_window front {} }
  else s

/-- The second half of `push_sensor_samples` (the `// accumulate` block): add the
sample to the window at the front index; the three `float` sums are rounded. -/
def push_accumulate (s : JoyShock) (x y z : ℚ) : JoyShock :=
  let w := window_at s.gyro_average_window s.gyro_average_window_front_index
  { s with
    gyro_average_window :=
      window_set s.gyro_average_window s.gyro_average_window_front_index
        { x := round32 (w.x + x), y := round32 (w.y + y), z := round32 (w.z + z),
          numSamples := w.numSamples + 1 } }

/-- The method `push_sensor_samples`. -/
def push_sensor_samples (s : JoyShock) (x y z : ℚ) : JoyShock :=
  push_accumulate (push_next s) x y z

/-- The locals of `get_average_gyro` that its loop updates. -/
structure GyroAcc where
  weight : ℚ := 0
  totalX : ℚ := 0
  totalY : ℚ := 0
  totalZ : ℚ := 0
  samplesWanted : Int
deriving DecidableEq

/-- One pass through the body of the loop of `get_average_gyro`, at loop
counter `i`.  Every `float` operation is rounded: the conversions
`(float)(...)` of the `int` values, the quotients, the product and the sums. -/
def get_average_gyro_body (s : JoyShock) (i : Int) (a : GyroAcc) : GyroAcc :=
  let samplesPerWindow : ℚ :=
    round32 ((get_gyro_average_window_single_samples_for_device s : Int) : ℚ)
  let cycledIndex := Int.tmod (i + s.gyro_average_window_front_index) num_gyro_average_windows
  let w := window_at s.gyro_average_window cycledIndex
  if w.numSamples = 0 then a
  else
    let fNumSamples : ℚ := round32 ((w.numSamples : Int) : ℚ)
    let thisWeight : ℚ :=
      if a.samplesWanted < w.numSamples then
        round32 (round32 ((a.samplesWanted : Int) : ℚ) / round32 ((w.numSamples : Int) : ℚ))
      else round32 (fNumSamples / samplesPerWindow)
    let samplesWanted : Int :=
      if a.samplesWanted < w.numSamples then 0 else a.samplesWanted - w.numSamples
    { weight := round32 (a.weight + thisWeight)
      totalX := round32 (a.totalX + round32 (round32 (w.x / fNumSamples) * thisWeight))
      totalY := round32 (a.totalY + round32 (round32 (w.y / fNumSamples) * thisWeight))
      totalZ := round32 (a.totalZ + round32 (round32 (w.z / fNumSamples) * thisWeight))
      samplesWanted := samplesWanted }

/-- The loop of `get_average_gyro`:
`for (i; i < num_gyro_average_windows && samplesWanted > 0; i++)`; the first
argument bounds the number of passes that are left. -/
def get_average_gyro_loop (s : JoyShock) : Nat → Int → GyroAcc → GyroAcc
  | 0, _, a => a
  | fuel + 1, i, a =>
    if i < num_gyro_average_windows ∧ a.samplesWanted > 0 then
      get_average_gyro_loop s fuel (i + 1) (get_average_gyro_body s i a)
    else a

/-- The method `get_average_gyro`; the references `x`, `y`, `z` come in as
`out` and their values at return are the result. -/
def get_average_gyro (s : JoyShock) (out : ℚ × ℚ × ℚ) : ℚ × ℚ × ℚ :=
  let a := get_average_gyro_loop s 16 0
    { samplesWanted := get_gyro_average_window_total_samples_for_device s }
  if a.weight > 0 then
    (round32 (a.totalX / a.weight), round32 (a.totalY / a.weight),
      round32 (a.totalZ / a.weight))
  else out

/-- The engine after `n` calls `push_sensor_samples(x, y, z)`. -/
def push_n (s : JoyShock) (x y z : ℚ) : Nat → JoyShock
  | 0 => s
  | n + 1 => push_sensor_samples (push_n s x y z n) x y z

/-- A call of the engine from outside: `push_sensor_samples(x, y, z)` or
`reset_continuous_calibration()`. -/
inductive EngineOp where
  | push (x y z : ℚ)
  | reset

/-- The engine after one call. -/
def apply_op (s : JoyShock) : EngineOp → JoyShock
  | EngineOp.push x y z => push_sensor_samples s x y z
  | EngineOp.reset => reset_continuous_calibration s

/-- The engine after a sequence of calls, first call first. -/
def run_ops (s : JoyShock) (ops : List EngineOp) : JoyShock :=
  ops.foldl apply_op s

/-- The front index is inside the ring of 16 windows and every window's sample
count is between 0 and `cap`. -/
def BoundedEngine (cap : Int) (s : JoyShock) : Prop :=
  0 ≤ s.gyro_average_window_front_index ∧ s.gyro_average_window_front_index < 16 ∧
    s.gyro_average_window.length = 16 ∧
    ∀ j : Int, 0 ≤ (window_at s.gyro_average_window j).numSamples ∧
      (window_at s.gyro_average_window j).numSamples ≤ cap

/-! ## Reference weighted mean of the gyro engine (from the specification) -/

/-- The window that the walk visits at step `k`: `k` places after the front
index, around the ring. -/
def walk_window (s : JoyShock) (k : Nat) : GYRO_AVERAGE_WINDOW :=
  window_at s.gyro_average_window
    (Int.tmod ((k : Int) + s.gyro_average_window_front_index) num_gyro_average_windows)

/-- The 16 windows in the order of the walk, starting at the front index. -/
def walk_order (s : JoyShock) : List GYRO_AVERAGE_WINDOW :=
  (List.range 16).map (walk_window s)

/-- The sum of the weights. -/
def weight_sum (l : List (ℚ × GYRO_AVERAGE_WINDOW)) : ℚ :=
  (l.map (fun p => p.1)).sum

/-- The weights of the reference mean as binary32 computes them: the walk of
`reference_weights`, with the counts, the budget and the capacity converted to
binary32 and each quotient rounded. -/
def reference_weights32 (capacity : Int) :
    List GYRO_AVERAGE_WINDOW → Int → List (ℚ × GYRO_AVERAGE_WINDOW)
  | [], _ => []
  | w :: rest, B =>
    if B > 0 then
      if w.numSamples = 0 then reference_weights32 capacity rest B
      else if w.numSamples > B then
        (round32 (round32 ((B : Int) : ℚ) / round32 ((w.numSamples : Int) : ℚ)), w)
          :: reference_weights32 capacity rest 0
      else
        (round32 (round32 ((w.numSamples : Int) : ℚ) / round32 ((capacity : Int) : ℚ)), w)
          :: reference_weights32 capacity rest (B - w.numSamples)
    else []

/-- The binary32 sum of the weights: accumulated from 0 in the order of the
walk, each sum rounded. -/
def weight_sum32 (l : List (ℚ × GYRO_AVERAGE_WINDOW)) : ℚ :=
  l.foldl (fun acc p => round32 (acc + p.1)) 0

/-- The window mean of the coordinate that `coord` selects as binary32 computes
it: the window sum divided by the converted count, rounded. -/
def window_mean32 (coord : GYRO_AVERAGE_WINDOW → ℚ) (w : GYRO_AVERAGE_WINDOW) : ℚ :=
  round32 (coord w / round32 ((w.numSamples : Int) : ℚ))

/-- The binary32 sum over the visited windows of window mean times weight:
accumulated from 0 in the order of the walk, each product and each sum
rounded. -/
def weighted_mean_sum32 (coord : GYRO_AVERAGE_WINDOW → ℚ)
    (l : List (ℚ × GYRO_AVERAGE_WINDOW)) : ℚ :=
  l.foldl (fun acc p => round32 (acc + round32 (window_mean32 coord p.2 * p.1))) 0

/-- The visited windows and their binary32 weights for the engine `s`: budget
`rate * horizon`, capacity `floor(rate * horizon / 14)`. -/
def reference_visit32 (s : JoyShock) : List (ℚ × GYRO_AVERAGE_WINDOW) :=
  reference_weights32 (get_gyro_average_window_single_samples_for_device s)
    (walk_order s) (get_gyro_average_window_total_samples_for_device s)

/-- The reference weighted mean evaluated in binary32: each coordinate is the
binary32 weighted sum divided by the binary32 sum of the weights, rounded; with
no weight at all the prior output `out` stays. -/
def reference_average32 (s : JoyShock) (out : ℚ × ℚ × ℚ) : ℚ × ℚ × ℚ :=
  if weight_sum32 (reference_visit32 s) > 0 then
    (round32 (weighted_mean_sum32 (fun w => w.x) (reference_visit32 s)
        / weight_sum32 (reference_visit32 s)),
     round32 (weighted_mean_sum32 (fun w => w.y) (reference_visit32 s)
        / weight_sum32 (reference_visit32 s)),
     round32 (weighted_mean_sum32 (fun w => w.z) (reference_visit32 s)
        / weight_sum32 (reference_visit32 s)))
  else out

/-- The counts of the windows and the budget are `int` values, the counts are
not negative and the capacity is at least 1. -/
def IntCounts (capacity : Int) (l : List GYRO_AVERAGE_WINDOW) (B : Int) : Prop :=
  (∀ w ∈ l, 0 ≤ w.numSamples ∧ w.numSamples ≤ 2147483647) ∧
    1 ≤ capacity ∧ capacity ≤ 2147483647 ∧ B ≤ 2147483647

/-! ## Windows that hold copies of one sample -/

/-- The sum `S` of a window that holds `n` copies of the sample coordinate `c`,
each addition rounded: it is `n * c` up to the accumulated rounding errors. -/
def NearSum (c S : ℚ) (n : Int) : Prop :=
  |S - (n : ℚ) * c| ≤ (n : ℚ) * (n : ℚ) * float_u * |c| + 2 * (n : ℚ) * float_eta

/-- The window holds `numSamples ≥ 0` copies of the sample `(x, y, z)`, summed
in binary32. -/
def NearWindow (x y z : ℚ) (w : GYRO_AVERAGE_WINDOW) : Prop :=
  0 ≤ w.numSamples ∧ NearSum x w.x w.numSamples ∧ NearSum y w.y w.numSamples ∧
    NearSum z w.z w.numSamples

/-! ## Gyro averaging engine with a record of the pushes -/

/-- Read entry `i` of the record of held samples. -/
def held_at (h : List (List Nat)) (i : Int) : List Nat :=
  if 0 ≤ i then h.getD i.toNat [] else []

/-- Store `v` as entry `i` of the record of held samples. -/
def held_set (h : List (List Nat)) (i : Int) (v : List Nat) : List (List Nat) :=
  if 0 ≤ i then h.set i.toNat v else h

/-- The engine together with a record of which pushes each window holds:
`held[i]` lists the numbers (0, 1, 2, ... in the order of the calls) of the
pushes whose samples are summed in window `i`, and `clock` is the number of
pushes so far. -/
structure TracedEngine where
  engine : JoyShock
  held : List (List Nat) := List.replicate 16 []
  clock : Nat := 0

/-- One `push_sensor_samples` call on the traced engine: the engine does what
the method does; the record is cleared where the method clears a window and
gets the number of this push where the method accumulates. -/
def traced_push (T : TracedEngine) (x y z : ℚ) : TracedEngine :=
  let e := push_sensor_samples T.engine x y z
  let held1 :=
    if (window_at T.engine.gyro_average_window T.engine.gyro_average_window_front_index).numSamples
        ≥ get_gyro_average_window_single_samples_for_device T.engine then
      held_set T.held e.gyro_average_window_front_index []
    else T.held
  { engine := e
    held := held_set held1 e.gyro_average_window_front_index
      (T.clock :: held_at held1 e.gyro_average_window_front_index)
    clock := T.clock + 1 }

/-- The traced engine after pushing the samples of the list, first sample
first. -/
def traced_run (T : TracedEngine) (samples : List (ℚ × ℚ × ℚ)) : TracedEngine :=
  samples.foldl (fun T v => traced_push T v.1 v.2.1 v.2.2) T

/-- The pushes held by the window that `get_average_gyro` visits at step `k` of
its walk (`cycledIndex = (k + front) % 16`). -/
def held_walk (T : TracedEngine) (k : Nat) : List Nat :=
  held_at T.held
    (Int.tmod ((k : Int) + T.engine.gyro_average_window_front_index) num_gyro_average_windows)

/-- The record `held` agrees with the windows `ws` and is ordered along the walk
from the front index `f`: `f` is in the ring, each window's count is the number
of pushes it holds, every held push is older than the clock, and a window
visited earlier in the walk holds only pushes made after those of a window
visited later. -/
def TracedOKRaw (f : Int) (ws : List GYRO_AVERAGE_WINDOW) (held : List (List Nat))
    (clock : Nat) : Prop :=
  0 ≤ f ∧ f < 16 ∧ ws.length = 16 ∧ held.length = 16 ∧
  (∀ j : Int, (window_at ws j).numSamples = (held_at held j).length) ∧
  (∀ j : Int, ∀ a ∈ held_at held j, a < clock) ∧
  (∀ p q : Nat, p < q → q < 16 →
    ∀ a ∈ held_at held ((p + f) % 16), ∀ b ∈ held_at held ((q + f) % 16), b < a)

/-- The record of a traced engine agrees with its engine and is ordered along
the walk. -/
def TracedOK (T : TracedEngine) : Prop :=
  TracedOKRaw T.engine.gyro_average_window_front_index T.engine.gyro_average_window
    T.held T.clock

/-! ## Stick value mapper -/

/-- Modelled from the spec: `clamp` of `tools.cpp`, a file that is not among the
sources; the spec says "clamp raw to [min,max]". -/
def clamp (a lo hi : Nat) : Nat :=
  if a < lo then lo else if a > hi then hi else a

/-- One axis of `CalcAnalogStick2`: the raw value `x` and the entries
`calc[0]`, `calc[1]`, `calc[2]` of its calibration array, all `uint16_t`.  The
differences are taken in `int` (integer promotion) and then converted to
`float`. -/
def CalcAnalogStick2_axis (x calc0 calc1 calc2 : Nat) : ℚ :=
  let x := clamp x calc0 calc2
  if x ≥ calc1 then
    (((x : Int) - (calc1 : Int) : Int) : ℚ) / (((calc2 : Int) - (calc1 : Int) : Int) : ℚ)
  else
    -((((x : Int) - (calc1 : Int) : Int) : ℚ) / (((calc0 : Int) - (calc1 : Int) : Int) : ℚ))

/-- The method `CalcAnalogStick2`; the result is `(pOutX, pOutY)`. -/
def CalcAnalogStick2 (x y : Nat) (x_calc y_calc : List Nat) : ℚ × ℚ :=
  (CalcAnalogStick2_axis x (x_calc.getD 0 0) (x_calc.getD 1 0) (x_calc.getD 2 0),
   CalcAnalogStick2_axis y (y_calc.getD 0 0) (y_calc.getD 1 0) (y_calc.getD 2 0))

/-! ## Calibration decoder (the decoding part of `init_bt`) -/

/-- Read `buf[i]` of a byte buffer. -/
def byte_at (buf : Bytes) (i : Nat) : Nat := buf.getD i 0

/-- Store the `int` value `v` into element `i` of a `uint16_t` array: the value
is kept modulo 2^16. -/
def store16 (arr : List Nat) (i : Nat) (v : Int) : List Nat :=
  arr.set i (v % 65536).toNat

/-- Read element `i` of a `uint16_t` array, promoted to `int`. -/
def load16 (arr : List Nat) (i : Nat) : Int := (arr.getD i 0 : Nat)

/-- The four arrays `stick_cal_x_l`, `stick_cal_y_l`, `stick_cal_x_r`,
`stick_cal_y_r` (`uint16_t[3]`: min, center, max).  The default value is the
state after the `memset` calls of `init_bt`. -/
structure StickCal where
  stick_cal_x_l : List Nat := [0, 0, 0]
  stick_cal_y_l : List Nat := [0, 0, 0]
  stick_cal_x_r : List Nat := [0, 0, 0]
  stick_cal_y_r : List Nat := [0, 0, 0]
deriving DecidableEq

/-- The block `if (this->left_right == 1 || this->left_right == 3) {...}` of
`init_bt`: the left stick from the factory block `f`. -/
def factory_stick_l (left_right : Int) (f : Bytes) (c : StickCal) : StickCal :=
  if left_right = 1 ∨ left_right = 3 then
    let c := { c with
      stick_cal_x_l := store16 c.stick_cal_x_l 1
        ((((byte_at f 4 <<< 8) &&& 0xF00) ||| byte_at f 3 : Nat) : Int) }
    let c := { c with
      stick_cal_y_l := store16 c.stick_cal_y_l 1
        (((byte_at f 5 <<< 4) ||| (byte_at f 4 >>> 4) : Nat) : Int) }
    let c := { c with
      stick_cal_x_l := store16 c.stick_cal_x_l 0
        (load16 c.stick_cal_x_l 1 - ((((byte_at f 7 <<< 8) &&& 0xF00) ||| byte_at f 6 : Nat) : Int)) }
    let c := { c with
      stick_cal_y_l := store16 c.stick_cal_y_l 0
        (load16 c.stick_cal_y_l 1 - (((byte_at f 8 <<< 4) ||| (byte_at f 7 >>> 4) : Nat) : Int)) }
    let c := { c with
      stick_cal_x_l := store16 c.stick_cal_x_l 2
        (load16 c.stick_cal_x_l 1 + ((((byte_at f 1 <<< 8) &&& 0xF00) ||| byte_at f 0 : Nat) : Int)) }
    { c with
      stick_cal_y_l := store16 c.stick_cal_y_l 2
        (load16 c.stick_cal_y_l 1 + (((byte_at f 2 <<< 4) ||| (byte_at f 2 >>> 4) : Nat) : Int)) }
  else c

/-- The block `if (this->left_right == 2 || this->left_right == 3) {...}` of
`init_bt`: the right stick from the factory block `f`. -/
def factory_stick_r (left_right : Int) (f : Bytes) (c : StickCal) : StickCal :=
  if left_right = 2 ∨ left_right = 3 then
    let c := { c with
      stick_cal_x_r := store16 c.stick_cal_x_r 1
        ((((byte_at f 10 <<< 8) &&& 0xF00) ||| byte_at f 9 : Nat) : Int) }
    let c := { c with
      stick_cal_y_r := store16 c.stick_cal_y_r 1
        (((byte_at f 11 <<< 4) ||| (byte_at f 10 >>> 4) : Nat) : Int) }
    let c := { c with
      stick_cal_x_r := store16 c.stick_cal_x_r 0
        (load16 c.stick_cal_x_r 1 - ((((byte_at f 13 <<< 8) &&& 0xF00) ||| byte_at f 12 : Nat) : Int)) }
    let c := { c with
      stick_cal_y_r := store16 c.stick_cal_y_r 0
        (load16 c.stick_cal_y_r 1 - (((byte_at f 14 <<< 4) ||| (byte_at f 13 >>> 4) : Nat) : Int)) }
    let c := { c with
      stick_cal_x_r := store16 c.stick_cal_x_r 2
        (load16 c.stick_cal_x_r 1 + ((((byte_at f 16 <<< 8) &&& 0xF00) ||| byte_at f 15 : Nat) : Int)) }
    { c with
      stick_cal_y_r := store16 c.stick_cal_y_r 2
        (load16 c.stick_cal_y_r 1 + (((byte_at f 17 <<< 4) ||| (byte_at f 16 >>> 4) : Nat) : Int)) }
  else c

/-- The block `if ((user_stick_cal[0] | user_stick_cal[1] << 8) == 0xA1B2) {...}`
of `init_bt`: the left stick from the user block `u`. -/
def user_stick_l (u : Bytes) (c : StickCal) : StickCal :=
  if (byte_at u 0 ||| (byte_at u 1 <<< 8)) = 0xA1B2 then
    let c := { c with
      stick_cal_x_l := store16 c.stick_cal_x_l 1
        ((((byte_at u 6 <<< 8) &&& 0xF00) ||| byte_at u 5 : Nat) : Int) }
    let c := { c with
      stick_cal_y_l := store16 c.stick_cal_y_l 1
        (((byte_at u 7 <<< 4) ||| (byte_at u 6 >>> 4) : Nat) : Int) }
    let c := { c with
      stick_cal_x_l := store16 c.stick_cal_x_l 0
        (load16 c.stick_cal_x_l 1 - ((((byte_at u 9 <<< 8) &&& 0xF00) ||| byte_at u 8 : Nat) : Int)) }
    let c := { c with
      stick_cal_y_l := store16 c.stick_cal_y_l 0
        (load16 c.stick_cal_y_l 1 - (((byte_at u 10 <<< 4) ||| (byte_at u 9 >>> 4) : Nat) : Int)) }
    let c := { c with
      stick_cal_x_l := store16 c.stick_cal_x_l 2
        (load16 c.stick_cal_x_l 1 + ((((byte_at u 3 <<< 8) &&& 0xF00) ||| byte_at u 2 : Nat) : Int)) }
    { c with
      stick_cal_y_l := store16 c.stick_cal_y_l 2
        (load16 c.stick_cal_y_l 1 + (((byte_at u 4 <<< 4) ||| (byte_at u 3 >>> 4) : Nat) : Int)) }
  else c

/-- The block `if ((user_stick_cal[0xB] | user_stick_cal[0xC] << 8) == 0xA1B2) {...}`
of `init_bt`: the right stick from the user block `u`. -/
def user_stick_r (u : Bytes) (c : StickCal) : StickCal :=
  if (byte_at u 0xB ||| (byte_at u 0xC <<< 8)) = 0xA1B2 then
    let c := { c with
      stick_cal_x_r := store16 c.stick_cal_x_r 1
        ((((byte_at u 14 <<< 8) &&& 0xF00) ||| byte_at u 13 : Nat) : Int) }
    let c := { c with
      stick_cal_y_r := store16 c.stick_cal_y_r 1
        (((byte_at u 15 <<< 4) ||| (byte_at u 14 >>> 4) : Nat) : Int) }
    let c := { c with
      stick_cal_x_r := store16 c.stick_cal_x_r 0
        (load16 c.stick_cal_x_r 1 - ((((byte_at u 17 <<< 8) &&& 0xF00) ||| byte_at u 16 : Nat) : Int)) }
    let c := { c with
      stick_cal_y_r := store16 c.stick_cal_y_r 0
        (load16 c.stick_cal_y_r 1 - (((byte_at u 18 <<< 4) ||| (byte_at u 17 >>> 4) : Nat) : Int)) }
    let c := { c with
      stick_cal_x_r := store16 c.stick_cal_x_r 2
        (load16 c.stick_cal_x_r 1 + ((((byte_at u 20 <<< 8) &&& 0xF00) ||| byte_at u 19 : Nat) : Int)) }
    { c with
      stick_cal_y_r := store16 c.stick_cal_y_r 2
        (load16 c.stick_cal_y_r 1 + (((byte_at u 21 <<< 4) ||| (byte_at u 20 >>> 4) : Nat) : Int)) }
  else c

/-- The factory stage of the stick decoding of `init_bt`, from the zeroed
arrays. -/
def init_bt_factory_stick_cal (left_right : Int) (factory_stick_cal : Bytes) : StickCal :=
  factory_stick_r left_right factory_stick_cal (factory_stick_l left_right factory_stick_cal {})

/-- The user stage of the stick decoding of `init_bt`, on the arrays `c`. -/
def init_bt_user_stick_cal (user_stick_cal : Bytes) (c : StickCal) : StickCal :=
  user_stick_r user_stick_cal (user_stick_l user_stick_cal c)

/-- The stick decoding of `init_bt`: the four arrays after the factory stage
and the user stage, from the blocks read from flash. -/
def init_bt_stick_cal (left_right : Int) (factory_stick_cal user_stick_cal : Bytes) : StickCal :=
  init_bt_user_stick_cal user_stick_cal (init_bt_factory_stick_cal left_right factory_stick_cal)

/-- The left-stick max Y of the factory block as the specification gives it:
`max_y = center_y + ((b2<<4)|(b1>>4))` with `center_y = (b5<<4)|(b4>>4)`, modulo
2^16. -/
def spec_factory_max_y_l (b : Bytes) : Nat :=
  ((((byte_at b 5 <<< 4) ||| (byte_at b 4 >>> 4) : Nat) : Int)
    + (((byte_at b 2 <<< 4) ||| (byte_at b 1 >>> 4) : Nat) : Int)).toNat % 65536

/-- A decoded calibration array: three entries, center at most 0xFFF, min equal
to center minus an extent of at most 0xFFF modulo 2^16, max equal to center plus
an extent of at most 0xFFF. -/
def CalOK (arr : List Nat) : Prop :=
  arr.length = 3 ∧ arr.getD 1 0 ≤ 0xFFF ∧
  (∃ e : Nat, e ≤ 0xFFF ∧ ((arr.getD 0 0 : Nat) : Int) = (((arr.getD 1 0 : Nat) : Int) - e) % 65536) ∧
  (∃ e : Nat, e ≤ 0xFFF ∧ arr.getD 2 0 = arr.getD 1 0 + e)

/-- All four calibration arrays are as `CalOK` says. -/
def AllCalOK (c : StickCal) : Prop :=
  CalOK c.stick_cal_x_l ∧ CalOK c.stick_cal_y_l ∧ CalOK c.stick_cal_x_r ∧ CalOK c.stick_cal_y_r

/-- Modelled from the spec: `uint16_to_int16` of `tools.cpp`, a file that is not
among the sources; the spec calls the origins "signed 16-bit values".  The
argument is converted to `uint16_t` (modulo 2^16) and its bits are read as a
two's-complement `int16_t`. -/
def uint16_to_int16 (a : Nat) : Int :=
  if a % 65536 < 32768 then ((a % 65536 : Nat) : Int) else ((a % 65536 : Nat) : Int) - 65536

/-- Store `v` into `sensor_cal[i][j]` (`int16_t sensor_cal[2][3]`). -/
def sensor_cal_set (c : List (List Int)) (i j : Nat) (v : Int) : List (List Int) :=
  c.set i ((c.getD i []).set j v)

/-- The factory stage of the sensor decoding of `init_bt` ("Acc cal origin
position", "Gyro cal origin position"), from the zeroed `sensor_cal`. -/
def init_bt_factory_sensor_cal (f : Bytes) : List (List Int) :=
  let c : List (List Int) := [[0, 0, 0], [0, 0, 0]]
  let c := sensor_cal_set c 0 0 (uint16_to_int16 (byte_at f 0 ||| (byte_at f 1 <<< 8)))
  let c := sensor_cal_set c 0 1 (uint16_to_int16 (byte_at f 2 ||| (byte_at f 3 <<< 8)))
  let c := sensor_cal_set c 0 2 (uint16_to_int16 (byte_at f 4 ||| (byte_at f 5 <<< 8)))
  let c := sensor_cal_set c 1 0 (uint16_to_int16 (byte_at f 0xC ||| (byte_at f 0xD <<< 8)))
  let c := sensor_cal_set c 1 1 (uint16_to_int16 (byte_at f 0xE ||| (byte_at f 0xF <<< 8)))
  sensor_cal_set c 1 2 (uint16_to_int16 (byte_at f 0x10 ||| (byte_at f 0x11 <<< 8)))

/-- The user stage of the sensor decoding of `init_bt`:
`if ((user_sensor_cal[0x0] | user_sensor_cal[0x1] << 8) == 0xA1B2) {...}`. -/
def init_bt_user_sensor_cal (u : Bytes) (c : List (List Int)) : List (List Int) :=
  if (byte_at u 0 ||| (byte_at u 1 <<< 8)) = 0xA1B2 then
    let c := sensor_cal_set c 0 0 (uint16_to_int16 (byte_at u 2 ||| (byte_at u 3 <<< 8)))
    let c := sensor_cal_set c 0 1 (uint16_to_int16 (byte_at u 4 ||| (byte_at u 5 <<< 8)))
    let c := sensor_cal_set c 0 2 (uint16_to_int16 (byte_at u 6 ||| (byte_at u 7 <<< 8)))
    let c := sensor_cal_set c 1 0 (uint16_to_int16 (byte_at u 0xE ||| (byte_at u 0xF <<< 8)))
    let c := sensor_cal_set c 1 1 (uint16_to_int16 (byte_at u 0x10 ||| (byte_at u 0x11 <<< 8)))
    sensor_cal_set c 1 2 (uint16_to_int16 (byte_at u 0x12 ||| (byte_at u 0x13 <<< 8)))
  else c

/-- The sensor decoding of `init_bt`: `sensor_cal` after the factory stage and
the user stage (row 0 the accelerometer origins, row 1 the gyroscope
origins). -/
def init_bt_sensor_cal (factory_sensor_cal user_sensor_cal : Bytes) : List (List Int) :=
  init_bt_user_sensor_cal user_sensor_cal (init_bt_factory_sensor_cal factory_sensor_cal)

/-- The signed (two's-complement) little-endian 16-bit value at bytes `i`,
`i + 1` of a block, as the specification words it. -/
def s16le (b : Bytes) (i : Nat) : Int :=
  if byte_at b i + 256 * byte_at b (i + 1) < 32768
  then ((byte_at b i + 256 * byte_at b (i + 1) : Nat) : Int)
  else ((byte_at b i + 256 * byte_at b (i + 1) : Nat) : Int) - 65536

/-- Every entry of the buffer is a byte. -/
def IsBytes (b : Bytes) : Prop := ∀ v ∈ b, v < 256

instance (b : Bytes) : Decidable (IsBytes b) := by
  unfold IsBytes
  infer_instance

/-! ## Transport (`hidapi`) -/

/-- The call `hid_write(handle, buf, len)`: the first `len` bytes of `buf` go
out as one frame.  The result is the device state after the call and the number
of calls made with a null handle (1 when `handle` is null: nothing can be
written, the call itself is invalid). -/
def hid_write (handle : Option hid_device) (buf : Bytes) (len : Nat) :
    Option hid_device × Nat :=
  match handle with
  | none => (none, 1)
  | some d => (some { d with written := d.written ++ [buf.take len] }, 0)

/-- The call `res = hid_read(handle, buf, ...)`: the device state after the
call, `res`, the buffer after the call, and the number of calls made with a
null handle (1 when `handle` is null: the call is invalid, it is given the
result -1 and leaves the buffer as it was). -/
def hid_read (handle : Option hid_device) (buf : Bytes) :
    Option hid_device × Int × Bytes × Nat :=
  match handle with
  | none => (none, -1, buf, 1)
  | some d =>
    (some { d with reads := d.reads + 1 }, (d.script d.reads).res, (d.script d.reads).buf, 0)

/-- The method `hid_exchange`: `if (!handle) return;`, then one write of `len`
bytes and one read into `buf`.  The result is the device state and the buffer
after the call, and the number of `hidapi` calls made with a null handle. -/
def hid_exchange (handle : Option hid_device) (buf : Bytes) (len : Nat) :
    Option hid_device × Bytes × Nat :=
  if handle.isNone then (handle, buf, 0)
  else
    let w := hid_write handle buf len
    let r := hid_read w.1 buf
    (r.1, r.2.2.1, w.2 + r.2.2.2)

/-- The call `memcpy(dst + off, src, n)`, for `off + n` within `dst` and `n`
within `src`. -/
def memcpy (dst : Bytes) (off : Nat) (src : Bytes) (n : Nat) : Bytes :=
  dst.take off ++ src.take n ++ dst.drop (off + n)

/-- The loop `for (int i = 0; i < n; i++) dst[dst_off + i] = src[src_off + i];`. -/
def copy_bytes (dst : Bytes) (dst_off : Nat) (src : Bytes) (src_off : Nat) (n : Nat) : Bytes :=
  (List.range n).foldl (fun d i => d.set (dst_off + i) (byte_at src (src_off + i))) dst

/-- The value of `*(uint16_t*)&buf[i]` on a little-endian host. -/
def read_u16 (buf : Bytes) (i : Nat) : Nat :=
  byte_at buf i + 256 * byte_at buf (i + 1)

/-- The value of `*(uint32_t*)&buf[i]` on a little-endian host. -/
def read_u32 (buf : Bytes) (i : Nat) : Nat :=
  byte_at buf i + 256 * byte_at buf (i + 1) + 65536 * byte_at buf (i + 2)
    + 16777216 * byte_at buf (i + 3)

/-- Store the `uint32_t` value `v` at `buf[i..i+3]` on a little-endian host. -/
def store_u32 (buf : Bytes) (i : Nat) (v : Nat) : Bytes :=
  (((buf.set i (v % 256)).set (i + 1) (v / 256 % 256)).set (i + 2) (v / 65536 % 256)).set
    (i + 3) (v / 16777216 % 256)

/-- Store the `int` value `v` into the byte `buf[i]`. -/
def store8 (buf : Bytes) (i : Nat) (v : Int) : Bytes :=
  buf.set i (v % 256).toNat

/-! ## Command codec -/

/-- The method `send_command`.  `data` is `none` for a null pointer.  The
result is the session (with the device state after the exchange) and the
caller's buffer `data` after the call. -/
def send_command (s : JoyShock) (command : Int) (data : Option Bytes) (len : Nat) :
    JoyShock × Option Bytes :=
  let buf : Bytes := List.replicate 0x40 0
  let buf :=
    if ¬ s.bluetooth then ((buf.set 0x00 0x80).set 0x01 0x92).set 0x03 0x31
    else buf
  let buf := store8 buf (if s.bluetooth then 0x0 else 0x8) command
  let buf :=
    match data with
    | some d => if len ≠ 0 then memcpy buf (if s.bluetooth then 0x1 else 0x9) d len else buf
    | none => buf
  let r := hid_exchange s.handle buf (len + (if s.bluetooth then 0x1 else 0x9))
  ({ s with handle := r.1, null_handle_calls := s.null_handle_calls + r.2.2 },
    data.map (fun d => memcpy d 0 r.2.1 0x40))

/-! ## SPI flash client

`brcm_hdr` is 10 bytes (`cmd`, `rumble[9]`); `brcm_cmd_01` is laid out with
natural alignment: `subcmd` at offset 0, `offset` at 4, `size` at 8, 12 bytes in
all.  So `pkt` starts at `buf[10]`: `subcmd` is `buf[10]`, `offset` is
`buf[14..17]` and `size` is `buf[18]`, and `sizeof(*hdr) + sizeof(*pkt)` is
22. -/

/-- The increment of `timing_byte` with its wrap:
`timing_byte++; if (timing_byte > 0xF) timing_byte = 0x0;`. -/
def next_timing_byte (t : Int) : Int :=
  if t + 1 > 0xF then 0x0 else t + 1

/-- The loop `for (int i = 11; i < 22; ++i) buf[i] = buf[i + 3];` of
`get_spi_data`, from counter `i`. -/
def shift_loop : Nat → Nat → Bytes → Bytes
  | 0, _, buf => buf
  | fuel + 1, i, buf =>
    if i < 22 then shift_loop fuel (i + 1) (buf.set i (byte_at buf (i + 3))) else buf

/-- The request that one pass of the loop of `get_spi_data` builds in `buf`. -/
def get_spi_data_request (timing_byte : Int) (offset read_len : Nat) : Bytes :=
  let buf : Bytes := List.replicate 0x100 0
  let buf := buf.set 0 1
  let buf := store8 buf 1 timing_byte
  let buf := store8 buf 1 timing_byte
  let buf := buf.set 10 0x10
  let buf := store_u32 buf 14 offset
  let buf := buf.set 18 (read_len % 256)
  shift_loop 11 11 buf

/-- The `while (1)` loop of `get_spi_data`; `none` when the loop is still
running after `fuel` passes.  The result is `res` and `buf` after the matching
read, and the session. -/
def get_spi_data_loop (offset read_len : Nat) : Nat → JoyShock → Option (Int × Bytes × JoyShock)
  | 0, _ => none
  | fuel + 1, s =>
    let buf := get_spi_data_request s.timing_byte offset read_len
    let s := { s with timing_byte := next_timing_byte s.timing_byte }
    let h := hid_write s.handle buf 22
    let r := hid_read h.1 buf
    let s := { s with handle := r.1, null_handle_calls := s.null_handle_calls + h.2 + r.2.2.2 }
    if read_u16 r.2.2.1 0xD = 0x1090 ∧ read_u32 r.2.2.1 0xF = offset then
      some (r.2.1, r.2.2.1, s)
    else get_spi_data_loop offset read_len fuel s

/-- The method `get_spi_data`, with a bound `fuel` on the passes of its loop
(`none` when the bound is reached).  The result is the return value, the
caller's `test_buf` after the call, and the session. -/
def get_spi_data (fuel : Nat) (s : JoyShock) (offset read_len : Nat) (test_buf : Bytes) :
    Option (Int × Bytes × JoyShock) :=
  match get_spi_data_loop offset read_len fuel s with
  | none => none
  | some (res, buf, s) =>
    let test_buf :=
      if res ≥ 0x14 + (read_len : Int) then copy_bytes test_buf 0 buf 0x14 read_len
      else test_buf
    some (0, test_buf, s)

/-- The request that one pass of the loop of `write_spi_data` builds in `buf`. -/
def write_spi_data_request (timing_byte : Int) (offset write_len : Nat) (test_buf : Bytes) :
    Bytes :=
  let buf : Bytes := List.replicate 0x100 0
  let buf := buf.set 0 1
  let buf := store8 buf 1 timing_byte
  let buf := buf.set 10 0x11
  let buf := store_u32 buf 14 offset
  let buf := buf.set 18 (write_len % 256)
  copy_bytes buf 0x10 test_buf 0 write_len

/-- The `while (1)` loop of `write_spi_data` with `error_writing` as
argument; `none` when the loop is still running after `fuel` passes.  The
result is the return value and the session. -/
def write_spi_data_loop (offset write_len : Nat) (test_buf : Bytes) :
    Nat → JoyShock → Int → Option (Int × JoyShock)
  | 0, _, _ => none
  | fuel + 1, s, error_writing =>
    let buf := write_spi_data_request s.timing_byte offset write_len test_buf
    let s := { s with timing_byte := next_timing_byte s.timing_byte }
    let h := hid_write s.handle buf (22 + write_len)
    let r := hid_read h.1 buf
    let s := { s with handle := r.1, null_handle_calls := s.null_handle_calls + h.2 + r.2.2.2 }
    if read_u16 r.2.2.1 0xD = 0x1180 then some (0, s)
    else
      let error_writing := error_writing + 1
      if error_writing = 125 then some (1, s)
      else write_spi_data_loop offset write_len test_buf fuel s error_writing

/-- The method `write_spi_data`, with a bound `fuel` on the passes of its loop
(`none` when the bound is reached). -/
def write_spi_data (fuel : Nat) (s : JoyShock) (offset write_len : Nat) (test_buf : Bytes) :
    Option (Int × JoyShock) :=
  write_spi_data_loop offset write_len test_buf fuel s 0

/-- The session after one pass of an SPI loop on the device `d`: the timing byte
has stepped, `frame` has been written and one scripted read has been
consumed. -/
def after_round_trip (s : JoyShock) (d : hid_device) (frame : Bytes) : JoyShock :=
  { s with
    timing_byte := next_timing_byte s.timing_byte
    handle := some { d with written := d.written ++ [frame], reads := d.reads + 1 } }

/-- The number of `hid_read` calls made on the session's device so far. -/
def reads_done (s : JoyShock) : Nat :=
  match s.handle with
  | none => 0
  | some d => d.reads

/-- The frames written to the session's device so far. -/
def frames_written (s : JoyShock) : List Bytes :=
  match s.handle with
  | none => []
  | some d => d.written

/-! ## Command codec: subcommands, rumble, DualShock 4 output report -/

/-- The update of `global_count` in `send_subcommand`: `++global_count` in the
initialiser of `rumble_base`, then `if (global_count > 0xF) global_count = 0x0;`. -/
def next_global_count (c : Int) : Int :=
  if c + 1 > 0xF then 0x0 else c + 1

/-- The buffer `buf` that `send_subcommand` builds before it calls
`send_command`.  `(++global_count) & 0xF` is the incremented counter modulo 16
(the low four bits of a two's-complement `int`). -/
def send_subcommand_buf (s : JoyShock) (subcommand : Int) (data : Option Bytes) (len : Nat) :
    Bytes :=
  let buf : Bytes := List.replicate 0x40 0
  let rumble_base : Bytes :=
    [((s.global_count + 1) % 16).toNat, 0x00, 0x01, 0x40, 0x40, 0x00, 0x01, 0x40, 0x40]
  let buf := memcpy buf 0 rumble_base 9
  let buf := store8 buf 9 subcommand
  match data with
  | some d => if len ≠ 0 then memcpy buf 10 d len else buf
  | none => buf

/-- The method `send_subcommand`.  The result is the session and the caller's
buffer `data` after the call. -/
def send_subcommand (s : JoyShock) (command subcommand : Int) (data : Option Bytes) (len : Nat) :
    JoyShock × Option Bytes :=
  let buf := send_subcommand_buf s subcommand data len
  let s := { s with global_count := next_global_count s.global_count }
  let r := send_command s command (some buf) (10 + len)
  (r.1, data.map (fun d => memcpy d 0 (r.2.getD buf) 0x40))

/-- The call `hid_set_nonblocking(handle, nonblock)`: the device state after the
call and the number of calls made with a null handle (1 when `handle` is
null). -/
def hid_set_nonblocking (handle : Option hid_device) (nonblock : Bool) :
    Option hid_device × Nat :=
  match handle with
  | none => (none, 1)
  | some d => (some { d with nonblocking := nonblock }, 0)

/-- The buffer `buf` that `rumble` builds before it calls `send_command`.  Of
the 0x400 bytes of the array only the first 0x40 are zeroed by the `memset` and
only those are read afterwards; they are the buffer here. -/
def rumble_buf (s : JoyShock) (frequency intensity : Int) : Bytes :=
  let buf : Bytes := List.replicate 0x40 0
  let buf := buf.set (1 + 0 + intensity).toNat 0x1
  let buf := buf.set (1 + 4 + intensity).toNat 0x1
  if s.left_right = 1 then store8 buf (1 + 0) frequency
  else store8 buf (1 + 4) frequency

/-- The method `rumble`. -/
def rumble (s : JoyShock) (frequency intensity : Int) : JoyShock :=
  let buf := rumble_buf s frequency intensity
  let n := hid_set_nonblocking s.handle true
  let s := { s with handle := n.1, null_handle_calls := s.null_handle_calls + n.2 }
  (send_command s 0x10 (some buf) 0x9).1

/-- The buffer `buf` (40 bytes) that `set_ds4_rumble_light` builds; the
arguments are `unsigned char`. -/
def set_ds4_rumble_light_buf (smallRumble bigRumble colourR colourG colourB : Nat) : Bytes :=
  let buf : Bytes := List.replicate 40 0
  let buf := buf.set 0 0x05
  let buf := buf.set 1 0xff
  let buf := buf.set 4 smallRumble
  let buf := buf.set 5 bigRumble
  let buf := buf.set 6 colourR
  let buf := buf.set 7 colourG
  let buf := buf.set 8 colourB
  let buf := buf.set 9 0xff
  buf.set 10 0x00

/-- The method `set_ds4_rumble_light`. -/
def set_ds4_rumble_light (s : JoyShock) (smallRumble bigRumble colourR colourG colourB : Nat) :
    JoyShock :=
  let w := hid_write s.handle
    (set_ds4_rumble_light_buf smallRumble bigRumble colourR colourG colourB) 31
  { s with handle := w.1, null_handle_calls := s.null_handle_calls + w.2 }

/-- The request frame of an SPI read as the layout of `brcm_hdr` and
`brcm_cmd_01` and the 3-byte shift give it: command 0x01, the timing byte,
eight zero bytes, subcommand 0x10, the offset in little-endian order, the read
length, six zero bytes. -/
def expected_read_request (t offset read_len : Nat) : Bytes :=
  [0x01, t, 0, 0, 0, 0, 0, 0, 0, 0, 0x10,
    offset % 256, offset / 256 % 256, offset / 65536 % 256, offset / 16777216,
    read_len, 0, 0, 0, 0, 0, 0]

/-! ## Simulated transports used in the examples -/

/-- A reply buffer of 49 bytes that is zero except for the little-endian
`uint16` `sig` at offset 0xD, the little-endian `uint32` `offset` at 0xF and the
bytes `data` from offset 0x14 on. -/
def spi_reply (sig offset : Nat) (data : Bytes) : Bytes :=
  memcpy (store_u32 (((List.replicate 49 0).set 0xD (sig % 256)).set 0xE (sig / 256 % 256))
    0xF offset) 0x14 data data.length

/-- A device whose reads number `0 .. n-1` return an unrelated input report and
whose later reads return `reply` (49 bytes read each time). -/
def device_matching_after (n : Nat) (reply : Bytes) : hid_device :=
  { script := fun k => if k < n then ⟨49, List.replicate 49 0⟩ else ⟨49, reply⟩ }

/-- A device that never returns anything but an unrelated input report. -/
def device_never_matching : hid_device :=
  { script := fun _ => ⟨49, List.replicate 49 0⟩ }

/-! ## Theorems -/

theorem window_at_window_set (ws : List GYRO_AVERAGE_WINDOW) (i j : Int)
    (w : GYRO_AVERAGE_WINDOW) :
    window_at (window_set ws i w) j =
      if i = j ∧ 0 ≤ i ∧ i.toNat < ws.length then w else window_at ws j := by
  unfold window_at window_set
  by_cases hi : 0 ≤ i
  · by_cases hj : 0 ≤ j
    · simp only [hi, hj, if_true, List.getD_eq_getElem?_getD, List.getElem?_set]
      by_cases hij : i = j
      · subst hij
        by_cases hl : i.toNat < ws.length
        · simp [hl]
        · have hl2 : ws.length ≤ i.toNat := Nat.le_of_not_lt hl
          simp [hl, List.getElem?_eq_none hl2]
      · have hne : i.toNat ≠ j.toNat := by omega
        simp [hij, hne]
    · have hij : i ≠ j := by omega
      simp [hi, hj, hij]
  · simp [hi]

theorem window_set_length (ws : List GYRO_AVERAGE_WINDOW) (i : Int) (w : GYRO_AVERAGE_WINDOW) :
    (window_set ws i w).length = ws.length := by
  unfold window_set
  split <;> simp

theorem single_pos_of_default (s : JoyShock) (h : s.gyro_average_window_seconds = 600) :
    0 < get_gyro_average_window_total_samples_for_device s ∧
      0 < get_gyro_average_window_single_samples_for_device s := by
  unfold get_gyro_average_window_single_samples_for_device
    get_gyro_average_window_total_samples_for_device num_gyro_average_windows
  rw [h]
  cases s.is_ds4 <;> simp <;> decide

theorem window_at_window_set_self (ws : List GYRO_AVERAGE_WINDOW) (j : Int)
    (w : GYRO_AVERAGE_WINDOW) (h0 : 0 ≤ j) (hl : j.toNat < ws.length) :
    window_at (window_set ws j w) j = w := by
  rw [window_at_window_set]
  simp [h0, hl]

theorem push_config (s : JoyShock) (x y z : ℚ) :
    (push_sensor_samples s x y z).is_ds4 = s.is_ds4 ∧
      (push_sensor_samples s x y z).gyro_average_window_seconds
        = s.gyro_average_window_seconds := by
  unfold push_sensor_samples push_accumulate push_next
  split <;> exact ⟨rfl, rfl⟩

theorem push_n_config (s : JoyShock) (x y z : ℚ) (n : Nat) :
    (push_n s x y z n).is_ds4 = s.is_ds4 ∧
      (push_n s x y z n).gyro_average_window_seconds = s.gyro_average_window_seconds := by
  induction n with
  | zero => exact ⟨rfl, rfl⟩
  | succ k ih =>
    obtain ⟨h1, h2⟩ := push_config (push_n s x y z k) x y z
    exact ⟨h1.trans ih.1, h2.trans ih.2⟩

theorem push_n_default_pos (s : JoyShock) (x y z : ℚ) (n : Nat)
    (hsec : s.gyro_average_window_seconds = 600) :
    0 < get_gyro_average_window_total_samples_for_device (push_n s x y z n) ∧
      0 < get_gyro_average_window_single_samples_for_device (push_n s x y z n) :=
  single_pos_of_default _ ((push_n_config s x y z n).2.trans hsec)

/-! ### Stick value mapper -/

theorem axis_center (mn c mx : Nat) (h1 : mn < c) (h2 : c < mx) :
    CalcAnalogStick2_axis c mn c mx = 0 := by
  have hc : clamp c mn mx = c := by unfold clamp; split_ifs <;> omega
  simp [CalcAnalogStick2_axis, hc]

theorem axis_high (x mn c mx : Nat) (h1 : mn < c) (h2 : c < mx) (hx : mx ≤ x) :
    CalcAnalogStick2_axis x mn c mx = 1 := by
  have hc : clamp x mn mx = mx := by unfold clamp; split_ifs <;> omega
  have hle : c ≤ mx := by omega
  have hne : ((mx : ℚ) - (c : ℚ)) ≠ 0 := by
    have : (c : ℚ) < (mx : ℚ) := by exact_mod_cast h2
    linarith
  simp only [CalcAnalogStick2_axis, hc, ge_iff_le, hle, if_true]
  push_cast
  exact div_self hne

theorem axis_low (x mn c mx : Nat) (h1 : mn < c) (h2 : c < mx) (hx : x ≤ mn) :
    CalcAnalogStick2_axis x mn c mx = -1 := by
  have hc : clamp x mn mx = mn := by unfold clamp; split_ifs <;> omega
  have hle : ¬ c ≤ mn := by omega
  have hne : ((mn : ℚ) - (c : ℚ)) ≠ 0 := by
    have : (mn : ℚ) < (c : ℚ) := by exact_mod_cast h1
    linarith
  simp only [CalcAnalogStick2_axis, hc, ge_iff_le, hle, if_false]
  push_cast
  rw [div_self hne]

theorem axis_bounds (x mn c mx : Nat) (h1 : mn < c) (h2 : c < mx) :
    -1 ≤ CalcAnalogStick2_axis x mn c mx ∧ CalcAnalogStick2_axis x mn c mx ≤ 1 := by
  have hlo : mn ≤ clamp x mn mx := by unfold clamp; split_ifs <;> omega
  have hhi : clamp x mn mx ≤ mx := by unfold clamp; split_ifs <;> omega
  simp only [CalcAnalogStick2_axis]
  generalize clamp x mn mx = v at hlo hhi
  have hq1 : (mn : ℚ) < (c : ℚ) := by exact_mod_cast h1
  have hq2 : (c : ℚ) < (mx : ℚ) := by exact_mod_cast h2
  have hq3 : (mn : ℚ) ≤ (v : ℚ) := by exact_mod_cast hlo
  have hq4 : (v : ℚ) ≤ (mx : ℚ) := by exact_mod_cast hhi
  split
  · rename_i hge
    have hq5 : (c : ℚ) ≤ (v : ℚ) := by exact_mod_cast hge
    push_cast
    have hd : (0 : ℚ) < (mx : ℚ) - (c : ℚ) := by linarith
    constructor
    · have : (0 : ℚ) ≤ ((v : ℚ) - (c : ℚ)) / ((mx : ℚ) - (c : ℚ)) :=
        div_nonneg (by linarith) (le_of_lt hd)
      linarith
    · rw [div_le_one hd]; linarith
  · rename_i hlt
    have hq5 : (v : ℚ) < (c : ℚ) := by
      have : v < c := by omega
      exact_mod_cast this
    push_cast
    have hd : (0 : ℚ) < (c : ℚ) - (mn : ℚ) := by linarith
    have heq : ((v : ℚ) - (c : ℚ)) / ((mn : ℚ) - (c : ℚ))
        = ((c : ℚ) - (v : ℚ)) / ((c : ℚ) - (mn : ℚ)) := by
      rw [← neg_sub (c : ℚ) (v : ℚ), ← neg_sub (c : ℚ) (mn : ℚ), neg_div_neg_eq]
    rw [heq]
    constructor
    · have : ((c : ℚ) - (v : ℚ)) / ((c : ℚ) - (mn : ℚ)) ≤ 1 := by
        rw [div_le_one hd]; linarith
      linarith
    · have : (0 : ℚ) ≤ ((c : ℚ) - (v : ℚ)) / ((c : ℚ) - (mn : ℚ)) :=
        div_nonneg (by linarith) (le_of_lt hd)
      linarith

/-- C2: for calibration triples `(min, center, max)` with `min < center < max`
(ticks are natural numbers here, the 16-bit values of the source among them),
`CalcAnalogStick2` maps raw = center to 0, raw = max to 1 and raw = min to -1,
on the X axis and on the Y axis (whatever the raw value of the other axis
is). -/
theorem c2_stick_center_max_min (mnx cx mxx mny cy mxy : Nat)
    (hx1 : mnx < cx) (hx2 : cx < mxx) (hy1 : mny < cy) (hy2 : cy < mxy) :
    (∀ y, (CalcAnalogStick2 cx y [mnx, cx, mxx] [mny, cy, mxy]).1 = 0) ∧
    (∀ y, (CalcAnalogStick2 mxx y [mnx, cx, mxx] [mny, cy, mxy]).1 = 1) ∧
    (∀ y, (CalcAnalogStick2 mnx y [mnx, cx, mxx] [mny, cy, mxy]).1 = -1) ∧
    (∀ x, (CalcAnalogStick2 x cy [mnx, cx, mxx] [mny, cy, mxy]).2 = 0) ∧
    (∀ x, (CalcAnalogStick2 x mxy [mnx, cx, mxx] [mny, cy, mxy]).2 = 1) ∧
    (∀ x, (CalcAnalogStick2 x mny [mnx, cx, mxx] [mny, cy, mxy]).2 = -1) := by
  refine ⟨?_, ?_, ?_, ?_, ?_, ?_⟩ <;> intro v
  · exact axis_center mnx cx mxx hx1 hx2
  · exact axis_high mxx mnx cx mxx hx1 hx2 (le_refl _)
  · exact axis_low mnx mnx cx mxx hx1 hx2 (le_refl _)
  · exact axis_center mny cy mxy hy1 hy2
  · exact axis_high mxy mny cy mxy hy1 hy2 (le_refl _)
  · exact axis_low mny mny cy mxy hy1 hy2 (le_refl _)

/-- Witness of C2: X calibrated to (500, 2000, 3500), Y to (600, 2100, 3400). -/
theorem c2_stick_center_max_min_witness :
    (500 < 2000 ∧ 2000 < 3500 ∧ 600 < 2100 ∧ 2100 < 3400) ∧
    (CalcAnalogStick2 3500 7 [500, 2000, 3500] [600, 2100, 3400]).1 = 1 :=
  ⟨by decide,
    (c2_stick_center_max_min 500 2000 3500 600 2100 3400 (by decide) (by decide)
      (by decide) (by decide)).2.1 7⟩

/-- C3: for calibration triples with `min < center < max` and every raw value
(natural numbers, the 16-bit values of the source among them), both outputs of
`CalcAnalogStick2` lie in [-1, 1]; a raw value below min gives exactly -1 and a
raw value above max gives exactly 1. -/
theorem c3_stick_saturates (x y mnx cx mxx mny cy mxy : Nat)
    (hx1 : mnx < cx) (hx2 : cx < mxx) (hy1 : mny < cy) (hy2 : cy < mxy) :
    (-1 ≤ (CalcAnalogStick2 x y [mnx, cx, mxx] [mny, cy, mxy]).1 ∧
      (CalcAnalogStick2 x y [mnx, cx, mxx] [mny, cy, mxy]).1 ≤ 1) ∧
    (-1 ≤ (CalcAnalogStick2 x y [mnx, cx, mxx] [mny, cy, mxy]).2 ∧
      (CalcAnalogStick2 x y [mnx, cx, mxx] [mny, cy, mxy]).2 ≤ 1) ∧
    (x < mnx → (CalcAnalogStick2 x y [mnx, cx, mxx] [mny, cy, mxy]).1 = -1) ∧
    (mxx < x → (CalcAnalogStick2 x y [mnx, cx, mxx] [mny, cy, mxy]).1 = 1) ∧
    (y < mny → (CalcAnalogStick2 x y [mnx, cx, mxx] [mny, cy, mxy]).2 = -1) ∧
    (mxy < y → (CalcAnalogStick2 x y [mnx, cx, mxx] [mny, cy, mxy]).2 = 1) := by
  refine ⟨axis_bounds x mnx cx mxx hx1 hx2, axis_bounds y mny cy mxy hy1 hy2, ?_, ?_, ?_, ?_⟩
  · intro h; exact axis_low x mnx cx mxx hx1 hx2 (le_of_lt h)
  · intro h; exact axis_high x mnx cx mxx hx1 hx2 (le_of_lt h)
  · intro h; exact axis_low y mny cy mxy hy1 hy2 (le_of_lt h)
  · intro h; exact axis_high y mny cy mxy hy1 hy2 (le_of_lt h)

/-- Witness of C3: raw X = 100 is below min 500 and raw Y = 4000 is above max
3400. -/
theorem c3_stick_saturates_witness :
    (500 < 2000 ∧ 2000 < 3500 ∧ 600 < 2100 ∧ 2100 < 3400 ∧ 100 < 500 ∧ 3400 < 4000) ∧
    (CalcAnalogStick2 100 4000 [500, 2000, 3500] [600, 2100, 3400]).1 = -1 ∧
    (CalcAnalogStick2 100 4000 [500, 2000, 3500] [600, 2100, 3400]).2 = 1 :=
  ⟨by decide,
    (c3_stick_saturates 100 4000 500 2000 3500 600 2100 3400 (by decide) (by decide)
      (by decide) (by decide)).2.2.1 (by decide),
    (c3_stick_saturates 100 4000 500 2000 3500 600 2100 3400 (by decide) (by decide)
      (by decide) (by decide)).2.2.2.2.2 (by decide)⟩

/-! ### Calibration decoder -/

theorem byte_at_lt (b : Bytes) (hb : IsBytes b) (i : Nat) : byte_at b i < 256 := by
  unfold byte_at
  rw [List.getD_eq_getElem?_getD]
  by_cases h : i < b.length
  · rw [List.getElem?_eq_getElem h]
    exact hb _ (List.getElem_mem h)
  · rw [List.getElem?_eq_none (Nat.le_of_not_lt h)]
    decide

theorem lor_shift8 (a b : Nat) (ha : a < 256) : a ||| (b <<< 8) = a + 256 * b := by
  have h := Nat.mul_add_lt_is_or (show a < 2 ^ 8 by simpa using ha) b
  rw [Nat.lor_comm, Nat.shiftLeft_eq, Nat.mul_comm b (2 ^ 8), ← h]
  norm_num
  omega

theorem marker_iff (a b : Nat) (ha : a < 256) :
    (a ||| (b <<< 8)) = 0xA1B2 ↔ (a = 0xB2 ∧ b = 0xA1) := by
  rw [lor_shift8 a b ha]
  omega

theorem store16_length (arr : List Nat) (i : Nat) (v : Int) :
    (store16 arr i v).length = arr.length := by
  simp [store16]

theorem factory_stage_lengths (lr : Int) (f : Bytes) :
    (init_bt_factory_stick_cal lr f).stick_cal_x_l.length = 3 ∧
    (init_bt_factory_stick_cal lr f).stick_cal_y_l.length = 3 ∧
    (init_bt_factory_stick_cal lr f).stick_cal_x_r.length = 3 ∧
    (init_bt_factory_stick_cal lr f).stick_cal_y_r.length = 3 := by
  unfold init_bt_factory_stick_cal factory_stick_r factory_stick_l
  split <;> split <;> simp [store16_length]

theorem list3 (l : List Nat) (h : l.length = 3) : ∃ a b c, l = [a, b, c] := by
  match l, h with
  | [a, b, c], _ => exact ⟨a, b, c, rfl⟩

theorem user_stick_l_frame (u : Bytes) (c : StickCal) :
    (user_stick_l u c).stick_cal_x_r = c.stick_cal_x_r ∧
      (user_stick_l u c).stick_cal_y_r = c.stick_cal_y_r := by
  unfold user_stick_l
  split <;> exact ⟨rfl, rfl⟩

theorem user_stick_r_frame (u : Bytes) (c : StickCal) :
    (user_stick_r u c).stick_cal_x_l = c.stick_cal_x_l ∧
      (user_stick_r u c).stick_cal_y_l = c.stick_cal_y_l := by
  unfold user_stick_r
  split <;> exact ⟨rfl, rfl⟩

theorem user_stick_l_overwrites (u : Bytes) (c d : StickCal)
    (hm : (byte_at u 0 ||| (byte_at u 1 <<< 8)) = 0xA1B2)
    (hcx : c.stick_cal_x_l.length = 3) (hcy : c.stick_cal_y_l.length = 3)
    (hdx : d.stick_cal_x_l.length = 3) (hdy : d.stick_cal_y_l.length = 3) :
    (user_stick_l u c).stick_cal_x_l = (user_stick_l u d).stick_cal_x_l ∧
      (user_stick_l u c).stick_cal_y_l = (user_stick_l u d).stick_cal_y_l := by
  obtain ⟨a1, a2, a3, h1⟩ := list3 _ hcx
  obtain ⟨b1, b2, b3, h2⟩ := list3 _ hcy
  obtain ⟨a1', a2', a3', h3⟩ := list3 _ hdx
  obtain ⟨b1', b2', b3', h4⟩ := list3 _ hdy
  simp only [user_stick_l, hm, if_true, h1, h2, h3, h4, store16, load16]
  simp

theorem user_stick_r_overwrites (u : Bytes) (c d : StickCal)
    (hm : (byte_at u 0xB ||| (byte_at u 0xC <<< 8)) = 0xA1B2)
    (hcx : c.stick_cal_x_r.length = 3) (hcy : c.stick_cal_y_r.length = 3)
    (hdx : d.stick_cal_x_r.length = 3) (hdy : d.stick_cal_y_r.length = 3) :
    (user_stick_r u c).stick_cal_x_r = (user_stick_r u d).stick_cal_x_r ∧
      (user_stick_r u c).stick_cal_y_r = (user_stick_r u d).stick_cal_y_r := by
  obtain ⟨a1, a2, a3, h1⟩ := list3 _ hcx
  obtain ⟨b1, b2, b3, h2⟩ := list3 _ hcy
  obtain ⟨a1', a2', a3', h3⟩ := list3 _ hdx
  obtain ⟨b1', b2', b3', h4⟩ := list3 _ hdy
  simp only [user_stick_r, hm, if_true, h1, h2, h3, h4, store16, load16]
  simp

/-- C4: in the stick decoding of `init_bt`, for every device kind, factory block
`f` and user block `u` of bytes: if the bytes of `u` at offsets 0, 1 are
0xB2, 0xA1 the left stick's arrays are those the user stage decodes from `u`
alone (the right-hand side does not mention `f`), otherwise they are those of
the factory stage (which does not mention `u`); the same for the right stick
with the marker at offsets 0xB, 0xC. -/
theorem c4_user_marker_selects_block (lr : Int) (f u : Bytes) (hu : IsBytes u) :
    ((byte_at u 0 = 0xB2 ∧ byte_at u 1 = 0xA1) →
      (init_bt_stick_cal lr f u).stick_cal_x_l = (init_bt_user_stick_cal u {}).stick_cal_x_l ∧
      (init_bt_stick_cal lr f u).stick_cal_y_l = (init_bt_user_stick_cal u {}).stick_cal_y_l) ∧
    (¬ (byte_at u 0 = 0xB2 ∧ byte_at u 1 = 0xA1) →
      (init_bt_stick_cal lr f u).stick_cal_x_l = (init_bt_factory_stick_cal lr f).stick_cal_x_l ∧
      (init_bt_stick_cal lr f u).stick_cal_y_l = (init_bt_factory_stick_cal lr f).stick_cal_y_l) ∧
    ((byte_at u 0xB = 0xB2 ∧ byte_at u 0xC = 0xA1) →
      (init_bt_stick_cal lr f u).stick_cal_x_r = (init_bt_user_stick_cal u {}).stick_cal_x_r ∧
      (init_bt_stick_cal lr f u).stick_cal_y_r = (init_bt_user_stick_cal u {}).stick_cal_y_r) ∧
    (¬ (byte_at u 0xB = 0xB2 ∧ byte_at u 0xC = 0xA1) →
      (init_bt_stick_cal lr f u).stick_cal_x_r = (init_bt_factory_stick_cal lr f).stick_cal_x_r ∧
      (init_bt_stick_cal lr f u).stick_cal_y_r = (init_bt_factory_stick_cal lr f).stick_cal_y_r) := by
  obtain ⟨hxl, hyl, hxr, hyr⟩ := factory_stage_lengths lr f
  have hml := marker_iff (byte_at u 0) (byte_at u 1) (byte_at_lt u hu 0)
  have hmr := marker_iff (byte_at u 0xB) (byte_at u 0xC) (byte_at_lt u hu 0xB)
  unfold init_bt_stick_cal init_bt_user_stick_cal
  refine ⟨?_, ?_, ?_, ?_⟩
  · intro h
    have hm := hml.mpr h
    obtain ⟨e1, e2⟩ := user_stick_l_overwrites u (init_bt_factory_stick_cal lr f) {} hm
      hxl hyl rfl rfl
    obtain ⟨r1, r2⟩ := user_stick_r_frame u (user_stick_l u (init_bt_factory_stick_cal lr f))
    obtain ⟨r3, r4⟩ := user_stick_r_frame u (user_stick_l u {})
    exact ⟨by rw [r1, r3, e1], by rw [r2, r4, e2]⟩
  · intro h
    have hm : ¬ (byte_at u 0 ||| (byte_at u 1 <<< 8)) = 0xA1B2 := fun hc => h (hml.mp hc)
    obtain ⟨r1, r2⟩ := user_stick_r_frame u (user_stick_l u (init_bt_factory_stick_cal lr f))
    rw [r1, r2]
    unfold user_stick_l
    rw [if_neg hm]
    exact ⟨rfl, rfl⟩
  · intro h
    have hm := hmr.mpr h
    obtain ⟨f1, f2⟩ := user_stick_l_frame u (init_bt_factory_stick_cal lr f)
    obtain ⟨f3, f4⟩ := user_stick_l_frame u {}
    exact user_stick_r_overwrites u _ _ hm (by rw [f1]; exact hxr) (by rw [f2]; exact hyr)
      (by rw [f3]; rfl) (by rw [f4]; rfl)
  · intro h
    have hm : ¬ (byte_at u 0xB ||| (byte_at u 0xC <<< 8)) = 0xA1B2 := fun hc => h (hmr.mp hc)
    obtain ⟨f1, f2⟩ := user_stick_l_frame u (init_bt_factory_stick_cal lr f)
    unfold user_stick_r
    rw [if_neg hm]
    exact ⟨f1, f2⟩

/-- Witness of C4: a Pro Controller whose user block carries the left marker
only; the left stick comes from the user block, the right stick from the
factory block. -/
theorem c4_user_marker_selects_block_witness :
    (IsBytes [0xB2, 0xA1, 0xD0, 0x35, 0x5C, 0xF0, 0x07, 0x80, 0xE0, 0x05, 0x5D, 0xFF, 0xFF,
        0, 0, 0, 0, 0, 0, 0, 0, 0] ∧
      (byte_at [0xB2, 0xA1, 0xD0, 0x35, 0x5C, 0xF0, 0x07, 0x80, 0xE0, 0x05, 0x5D, 0xFF, 0xFF,
        0, 0, 0, 0, 0, 0, 0, 0, 0] 0 = 0xB2 ∧
       byte_at [0xB2, 0xA1, 0xD0, 0x35, 0x5C, 0xF0, 0x07, 0x80, 0xE0, 0x05, 0x5D, 0xFF, 0xFF,
        0, 0, 0, 0, 0, 0, 0, 0, 0] 1 = 0xA1)) ∧
    ((init_bt_stick_cal 3
        [0xC0, 0x25, 0x5B, 0xE0, 0x17, 0x7F, 0xD0, 0x15, 0x5C,
         0xE8, 0x27, 0x80, 0xB0, 0x35, 0x5E, 0xA0, 0x45, 0x5A]
        [0xB2, 0xA1, 0xD0, 0x35, 0x5C, 0xF0, 0x07, 0x80, 0xE0, 0x05, 0x5D, 0xFF, 0xFF,
         0, 0, 0, 0, 0, 0, 0, 0, 0]).stick_cal_x_l
      = (init_bt_user_stick_cal
        [0xB2, 0xA1, 0xD0, 0x35, 0x5C, 0xF0, 0x07, 0x80, 0xE0, 0x05, 0x5D, 0xFF, 0xFF,
         0, 0, 0, 0, 0, 0, 0, 0, 0] {}).stick_cal_x_l ∧
     (init_bt_stick_cal 3
        [0xC0, 0x25, 0x5B, 0xE0, 0x17, 0x7F, 0xD0, 0x15, 0x5C,
         0xE8, 0x27, 0x80, 0xB0, 0x35, 0x5E, 0xA0, 0x45, 0x5A]
        [0xB2, 0xA1, 0xD0, 0x35, 0x5C, 0xF0, 0x07, 0x80, 0xE0, 0x05, 0x5D, 0xFF, 0xFF,
         0, 0, 0, 0, 0, 0, 0, 0, 0]).stick_cal_y_l
      = (init_bt_user_stick_cal
        [0xB2, 0xA1, 0xD0, 0x35, 0x5C, 0xF0, 0x07, 0x80, 0xE0, 0x05, 0x5D, 0xFF, 0xFF,
         0, 0, 0, 0, 0, 0, 0, 0, 0] {}).stick_cal_y_l) :=
  ⟨⟨by decide, by decide⟩,
    (c4_user_marker_selects_block 3
      [0xC0, 0x25, 0x5B, 0xE0, 0x17, 0x7F, 0xD0, 0x15, 0x5C,
       0xE8, 0x27, 0x80, 0xB0, 0x35, 0x5E, 0xA0, 0x45, 0x5A]
      [0xB2, 0xA1, 0xD0, 0x35, 0x5C, 0xF0, 0x07, 0x80, 0xE0, 0x05, 0x5D, 0xFF, 0xFF,
       0, 0, 0, 0, 0, 0, 0, 0, 0] (by decide)).1 (by decide)⟩

/-- What the code stores as the left stick's factory max Y for a left Joy-Con or
Pro Controller without user marker: `center_y + ((b2<<4)|(b2>>4))`, the high
nibble of byte 2 where the right stick and the user block use the neighbouring
byte. -/
theorem factory_max_y_l_code (lr : Int) (f u : Bytes) (hlr : lr = 1 ∨ lr = 3)
    (hm : ¬ (byte_at u 0 ||| (byte_at u 1 <<< 8)) = 0xA1B2) :
    (init_bt_stick_cal lr f u).stick_cal_y_l.getD 2 0 =
      (((((byte_at f 5 <<< 4) ||| (byte_at f 4 >>> 4) : Nat) : Int) % 65536).toNat
        + ((byte_at f 2 <<< 4) ||| (byte_at f 2 >>> 4))) % 65536 := by
  unfold init_bt_stick_cal init_bt_user_stick_cal
  rw [(user_stick_r_frame u _).2]
  unfold user_stick_l
  rw [if_neg hm]
  unfold init_bt_factory_stick_cal factory_stick_r
  have : (factory_stick_l lr f {}).stick_cal_y_l.getD 2 0 =
      (((((byte_at f 5 <<< 4) ||| (byte_at f 4 >>> 4) : Nat) : Int) % 65536).toNat
        + ((byte_at f 2 <<< 4) ||| (byte_at f 2 >>> 4))) % 65536 := by
    simp only [factory_stick_l, hlr, if_true, store16, load16]
    simp
    omega
  split <;> exact this

/-- C5 (the code departs from the claim): for the left Joy-Con factory block
D0 35 5C F0 07 80 E0 05 5D ... with no user marker the code stores max_y = 3525
(0xDC5), where the claimed `center_y + ((b2<<4)|(b1>>4))` is 3523 (0xDC3); the
other five values are as claimed. -/
theorem c5_factory_left_max_y_wrong_byte :
    (init_bt_stick_cal 1
        [0xD0, 0x35, 0x5C, 0xF0, 0x07, 0x80, 0xE0, 0x05, 0x5D, 0, 0, 0, 0, 0, 0, 0, 0, 0]
        [0xFF, 0xFF, 0xFF, 0xFF, 0xFF, 0xFF, 0xFF, 0xFF, 0xFF, 0xFF, 0xFF,
         0xFF, 0xFF, 0xFF, 0xFF, 0xFF, 0xFF, 0xFF, 0xFF, 0xFF, 0xFF, 0xFF]).stick_cal_y_l.getD 2 0
      = 3525 ∧
    spec_factory_max_y_l
        [0xD0, 0x35, 0x5C, 0xF0, 0x07, 0x80, 0xE0, 0x05, 0x5D, 0, 0, 0, 0, 0, 0, 0, 0, 0]
      = 3523 ∧
    (init_bt_stick_cal 1
        [0xD0, 0x35, 0x5C, 0xF0, 0x07, 0x80, 0xE0, 0x05, 0x5D, 0, 0, 0, 0, 0, 0, 0, 0, 0]
        [0xFF, 0xFF, 0xFF, 0xFF, 0xFF, 0xFF, 0xFF, 0xFF, 0xFF, 0xFF, 0xFF,
         0xFF, 0xFF, 0xFF, 0xFF, 0xFF, 0xFF, 0xFF, 0xFF, 0xFF, 0xFF, 0xFF])
      = { stick_cal_x_l := [0x7F0 - 0x5E0, 0x7F0, 0x7F0 + 0x5D0],
          stick_cal_y_l := [0x800 - 0x5D0, 0x800, 3525] } := by
  decide

theorem uint16_to_int16_le (b : Bytes) (hb : IsBytes b) (i j : Nat) (hj : j = i + 1) :
    uint16_to_int16 (byte_at b i ||| (byte_at b j <<< 8)) = s16le b i := by
  subst hj
  have h0 := byte_at_lt b hb i
  have h1 := byte_at_lt b hb (i + 1)
  rw [lor_shift8 _ _ h0]
  have hlt : byte_at b i + 256 * byte_at b (i + 1) < 65536 := by omega
  unfold uint16_to_int16 s16le
  rw [Nat.mod_eq_of_lt hlt]

/-- C6: in the sensor decoding of `init_bt`, for blocks of bytes, the three
accelerometer origins (row 0) and the three gyroscope origins (row 1) are the
signed little-endian 16-bit values of the user block at bytes 2, 4, 6 and 0xE,
0x10, 0x12 when the user block starts with the bytes 0xB2, 0xA1, and those of
the factory block at bytes 0, 2, 4 and 0xC, 0xE, 0x10 with any other marker. -/
theorem c6_sensor_origins (f u : Bytes) (hf : IsBytes f) (hu : IsBytes u) :
    init_bt_sensor_cal f u =
      if byte_at u 0 = 0xB2 ∧ byte_at u 1 = 0xA1 then
        [[s16le u 2, s16le u 4, s16le u 6], [s16le u 0xE, s16le u 0x10, s16le u 0x12]]
      else
        [[s16le f 0, s16le f 2, s16le f 4], [s16le f 0xC, s16le f 0xE, s16le f 0x10]] := by
  have hm := marker_iff (byte_at u 0) (byte_at u 1) (byte_at_lt u hu 0)
  unfold init_bt_sensor_cal init_bt_user_sensor_cal init_bt_factory_sensor_cal
  by_cases h : byte_at u 0 = 0xB2 ∧ byte_at u 1 = 0xA1
  · rw [if_pos (hm.mpr h), if_pos h]
    simp only [sensor_cal_set, uint16_to_int16_le f hf _ _ rfl, uint16_to_int16_le u hu _ _ rfl]
    simp
  · rw [if_neg (fun hc => h (hm.mp hc)), if_neg h]
    simp only [sensor_cal_set, uint16_to_int16_le f hf _ _ rfl]
    simp

/-- Witness of C6: a factory block with accelerometer origin X = 0xFFB0 (-80) and
a user block without marker. -/
theorem c6_sensor_origins_witness :
    (IsBytes [0xB0, 0xFF, 0x10, 0x00, 0x00, 0x10, 0, 0x40, 0, 0x40, 0, 0x40,
        0x0E, 0x00, 0xFD, 0xFF, 0xD0, 0xFF, 0x3B, 0x34, 0x3B, 0x34, 0x3B, 0x34] ∧
      IsBytes [0xFF, 0xFF, 0xFF, 0xFF, 0xFF, 0xFF, 0xFF, 0xFF, 0xFF, 0xFF, 0xFF, 0xFF, 0xFF,
        0xFF, 0xFF, 0xFF, 0xFF, 0xFF, 0xFF, 0xFF, 0xFF, 0xFF, 0xFF, 0xFF, 0xFF, 0xFF]) ∧
    init_bt_sensor_cal
        [0xB0, 0xFF, 0x10, 0x00, 0x00, 0x10, 0, 0x40, 0, 0x40, 0, 0x40,
          0x0E, 0x00, 0xFD, 0xFF, 0xD0, 0xFF, 0x3B, 0x34, 0x3B, 0x34, 0x3B, 0x34]
        [0xFF, 0xFF, 0xFF, 0xFF, 0xFF, 0xFF, 0xFF, 0xFF, 0xFF, 0xFF, 0xFF, 0xFF, 0xFF,
          0xFF, 0xFF, 0xFF, 0xFF, 0xFF, 0xFF, 0xFF, 0xFF, 0xFF, 0xFF, 0xFF, 0xFF, 0xFF]
      = [[-80, 16, 4096], [14, -3, -48]] :=
  ⟨⟨by decide, by decide⟩,
    (c6_sensor_origins
      [0xB0, 0xFF, 0x10, 0x00, 0x00, 0x10, 0, 0x40, 0, 0x40, 0, 0x40,
        0x0E, 0x00, 0xFD, 0xFF, 0xD0, 0xFF, 0x3B, 0x34, 0x3B, 0x34, 0x3B, 0x34]
      [0xFF, 0xFF, 0xFF, 0xFF, 0xFF, 0xFF, 0xFF, 0xFF, 0xFF, 0xFF, 0xFF, 0xFF, 0xFF,
        0xFF, 0xFF, 0xFF, 0xFF, 0xFF, 0xFF, 0xFF, 0xFF, 0xFF, 0xFF, 0xFF, 0xFF, 0xFF]
      (by decide) (by decide)).trans (by decide)⟩

/-! ### SPI flash client -/

theorem write_loop_step (offset write_len : Nat) (test_buf : Bytes) (fuel : Nat) (s : JoyShock)
    (e : Int) (d : hid_device) (h : s.handle = some d) :
    write_spi_data_loop offset write_len test_buf (fuel + 1) s e =
      if read_u16 (d.script d.reads).buf 0xD = 0x1180 then
        some (0, after_round_trip s d
          ((write_spi_data_request s.timing_byte offset write_len test_buf).take (22 + write_len)))
      else if e + 1 = 125 then
        some (1, after_round_trip s d
          ((write_spi_data_request s.timing_byte offset write_len test_buf).take (22 + write_len)))
      else
        write_spi_data_loop offset write_len test_buf fuel (after_round_trip s d
          ((write_spi_data_request s.timing_byte offset write_len test_buf).take (22 + write_len)))
          (e + 1) := by
  simp only [write_spi_data_loop, hid_write, hid_read, h, after_round_trip, Nat.add_zero]

theorem write_loop_first_match (offset write_len : Nat) (test_buf : Bytes) :
    ∀ (k fuel : Nat) (s : JoyShock) (d : hid_device) (e : Int),
      s.handle = some d → e + k < 125 → k < fuel →
      (∀ j, j < k → read_u16 (d.script (d.reads + j)).buf 0xD ≠ 0x1180) →
      read_u16 (d.script (d.reads + k)).buf 0xD = 0x1180 →
      ∃ s' d', write_spi_data_loop offset write_len test_buf fuel s e = some (0, s') ∧
        s'.handle = some d' ∧ d'.script = d.script ∧ d'.reads = d.reads + (k + 1) ∧
        d'.written.length = d.written.length + (k + 1) := by
  intro k
  induction k with
  | zero =>
    intro fuel s d e h _ hf _ hm
    obtain ⟨f, rfl⟩ : ∃ f, fuel = f + 1 := ⟨fuel - 1, by omega⟩
    rw [write_loop_step offset write_len test_buf f s e d h]
    rw [if_pos (by simpa using hm)]
    exact ⟨_, _, rfl, rfl, rfl, rfl, by simp⟩
  | succ k ih =>
    intro fuel s d e h he hf hno hm
    obtain ⟨f, rfl⟩ : ∃ f, fuel = f + 1 := ⟨fuel - 1, by omega⟩
    rw [write_loop_step offset write_len test_buf f s e d h]
    have h0 := hno 0 (by omega)
    rw [if_neg (by simpa using h0), if_neg (by push_cast at he; omega)]
    obtain ⟨s', d', hr, hh, hs, hrd, hw⟩ := ih f
      (after_round_trip s d
        ((write_spi_data_request s.timing_byte offset write_len test_buf).take (22 + write_len)))
      _ (e + 1) rfl (by push_cast at he ⊢; omega) (by omega)
      (fun j hj => by
        have := hno (j + 1) (by omega)
        simpa [Nat.add_assoc, Nat.add_comm 1 j] using this)
      (by simpa [Nat.add_assoc, Nat.add_comm 1 k] using hm)
    refine ⟨s', d', hr, hh, hs, ?_, ?_⟩
    · rw [hrd]; show d.reads + 1 + (_ + 1) = _; omega
    · rw [hw]; simp only [List.length_append, List.length_singleton]; omega

theorem write_loop_no_match (offset write_len : Nat) (test_buf : Bytes) :
    ∀ (n fuel : Nat) (s : JoyShock) (d : hid_device) (e : Int),
      s.handle = some d → e + (n + 1) = 125 → n < fuel →
      (∀ j, j < n + 1 → read_u16 (d.script (d.reads + j)).buf 0xD ≠ 0x1180) →
      ∃ s' d', write_spi_data_loop offset write_len test_buf fuel s e = some (1, s') ∧
        s'.handle = some d' ∧ d'.script = d.script ∧ d'.reads = d.reads + (n + 1) ∧
        d'.written.length = d.written.length + (n + 1) := by
  intro n
  induction n with
  | zero =>
    intro fuel s d e h he hf hno
    obtain ⟨f, rfl⟩ : ∃ f, fuel = f + 1 := ⟨fuel - 1, by omega⟩
    rw [write_loop_step offset write_len test_buf f s e d h]
    have h0 := hno 0 (by omega)
    rw [if_neg (by simpa using h0), if_pos (by push_cast at he; omega)]
    exact ⟨_, _, rfl, rfl, rfl, rfl, by simp⟩
  | succ n ih =>
    intro fuel s d e h he hf hno
    obtain ⟨f, rfl⟩ : ∃ f, fuel = f + 1 := ⟨fuel - 1, by omega⟩
    rw [write_loop_step offset write_len test_buf f s e d h]
    have h0 := hno 0 (by omega)
    rw [if_neg (by simpa using h0), if_neg (by push_cast at he; omega)]
    obtain ⟨s', d', hr, hh, hs, hrd, hw⟩ := ih f
      (after_round_trip s d
        ((write_spi_data_request s.timing_byte offset write_len test_buf).take (22 + write_len)))
      _ (e + 1) rfl (by push_cast at he ⊢; omega) (by omega)
      (fun j hj => by
        have := hno (j + 1) (by omega)
        simpa [Nat.add_assoc, Nat.add_comm 1 j] using this)
    refine ⟨s', d', hr, hh, hs, ?_, ?_⟩
    · rw [hrd]; show d.reads + 1 + (_ + 1) = _; omega
    · rw [hw]; simp only [List.length_append, List.length_singleton]; omega

/-- C7: on an open device, `write_spi_data` (with room for at least 125 passes
of its loop) returns 0 if and only if one of the first 125 responses has the
little-endian `uint16` 0x1180 at offset 0xD, and returns 1 otherwise; it makes
at least one and at most 125 write/read round trips, as many writes as reads.
If the first match is response number `k + 1 ≤ 125` it returns 0 after `k + 1`
round trips (124 mismatches and a match on attempt 125 succeed); if the first
125 responses mismatch (so also when 126 do) it returns 1 after 125 round
trips. -/
theorem c7_write_spi_data_retry (s : JoyShock) (d : hid_device) (offset write_len : Nat)
    (test_buf : Bytes) (fuel : Nat) (h : s.handle = some d) (hfuel : 125 ≤ fuel) :
    ∃ r s' d', write_spi_data fuel s offset write_len test_buf = some (r, s') ∧
      s'.handle = some d' ∧
      (r = 0 ↔ ∃ k, k < 125 ∧ read_u16 (d.script (d.reads + k)).buf 0xD = 0x1180) ∧
      (r = 1 ↔ ¬ ∃ k, k < 125 ∧ read_u16 (d.script (d.reads + k)).buf 0xD = 0x1180) ∧
      d.reads + 1 ≤ d'.reads ∧ d'.reads ≤ d.reads + 125 ∧
      d'.written.length = d.written.length + (d'.reads - d.reads) ∧
      (∀ k, k < 125 →
        (∀ j, j < k → read_u16 (d.script (d.reads + j)).buf 0xD ≠ 0x1180) →
        read_u16 (d.script (d.reads + k)).buf 0xD = 0x1180 →
        r = 0 ∧ d'.reads = d.reads + (k + 1)) ∧
      ((∀ j, j < 125 → read_u16 (d.script (d.reads + j)).buf 0xD ≠ 0x1180) →
        r = 1 ∧ d'.reads = d.reads + 125) := by
  unfold write_spi_data
  by_cases hex : ∃ k, k < 125 ∧ read_u16 (d.script (d.reads + k)).buf 0xD = 0x1180
  · have hk := Nat.find_spec hex
    have hmin : ∀ j, j < Nat.find hex → read_u16 (d.script (d.reads + j)).buf 0xD ≠ 0x1180 := by
      intro j hj hc
      exact Nat.find_min hex hj ⟨by omega, hc⟩
    obtain ⟨s', d', hr, hh, _, hrd, hw⟩ := write_loop_first_match offset write_len test_buf
      (Nat.find hex) fuel s d 0 h (by have := hk.1; omega) (by omega) hmin hk.2
    refine ⟨0, s', d', hr, hh, ?_, ?_, by omega, by omega, by omega, ?_, ?_⟩
    · exact ⟨fun _ => hex, fun _ => rfl⟩
    · exact ⟨fun hc => absurd hc (by decide), fun hc => absurd hex hc⟩
    · intro k hk125 hno hm
      refine ⟨rfl, ?_⟩
      have h1 : Nat.find hex ≤ k := Nat.find_min' hex ⟨hk125, hm⟩
      have h2 : ¬ Nat.find hex < k := fun hlt => hno _ hlt hk.2
      have : Nat.find hex = k := by omega
      rw [hrd, this]
    · intro hno
      exact absurd hk.2 (hno _ hk.1)
  · have hno : ∀ j, j < 124 + 1 → read_u16 (d.script (d.reads + j)).buf 0xD ≠ 0x1180 :=
      fun j hj hc => hex ⟨j, hj, hc⟩
    obtain ⟨s', d', hr, hh, _, hrd, hw⟩ := write_loop_no_match offset write_len test_buf
      124 fuel s d 0 h (by norm_num) (by omega) hno
    refine ⟨1, s', d', hr, hh, ?_, ?_, by omega, by omega, by omega, ?_, ?_⟩
    · exact ⟨fun hc => absurd hc (by decide), fun hc => absurd hc hex⟩
    · exact ⟨fun _ => hex, fun _ => rfl⟩
    · intro k hk125 _ hm
      exact absurd ⟨k, hk125, hm⟩ hex
    · intro _
      exact ⟨rfl, hrd⟩

/-- Witness of C7: a device that answers 0x1180 from the 125th read on; the
write of two bytes at 0x8010 is acknowledged. -/
theorem c7_write_spi_data_retry_witness :
    (({ handle := some (device_matching_after 124 (spi_reply 0x1180 0 [])) } : JoyShock).handle
        = some (device_matching_after 124 (spi_reply 0x1180 0 [])) ∧ 125 ≤ 125) ∧
    ∃ s', write_spi_data 125
      { handle := some (device_matching_after 124 (spi_reply 0x1180 0 [])) } 0x8010 2 [0xB2, 0xA1]
      = some (0, s') := by
  refine ⟨⟨rfl, by decide⟩, ?_⟩
  obtain ⟨r, s', d', hr, _, _, _, _, _, _, hfirst, _⟩ := c7_write_spi_data_retry
    { handle := some (device_matching_after 124 (spi_reply 0x1180 0 [])) }
    (device_matching_after 124 (spi_reply 0x1180 0 [])) 0x8010 2 [0xB2, 0xA1] 125 rfl (by decide)
  have h0 : r = 0 := (hfirst 124 (by decide) (by decide) (by decide)).1
  exact ⟨s', by rw [hr, h0]⟩

theorem byte_at_set (l : Bytes) (i j v : Nat) :
    byte_at (l.set i v) j = if i = j ∧ i < l.length then v else byte_at l j := by
  unfold byte_at
  simp only [List.getD_eq_getElem?_getD, List.getElem?_set]
  by_cases hij : i = j
  · subst hij
    by_cases hl : i < l.length
    · simp [hl]
    · simp [hl, List.getElem?_eq_none (Nat.le_of_not_lt hl)]
  · simp [hij]

theorem copy_bytes_succ (dst : Bytes) (o : Nat) (src : Bytes) (so n : Nat) :
    copy_bytes dst o src so (n + 1)
      = (copy_bytes dst o src so n).set (o + n) (byte_at src (so + n)) := by
  simp [copy_bytes, List.range_succ, List.foldl_append]

theorem copy_bytes_length (dst : Bytes) (o : Nat) (src : Bytes) (so n : Nat) :
    (copy_bytes dst o src so n).length = dst.length := by
  induction n with
  | zero => simp [copy_bytes]
  | succ n ih => rw [copy_bytes_succ, List.length_set, ih]

theorem byte_at_copy_bytes (dst : Bytes) (o : Nat) (src : Bytes) (so n j : Nat) :
    byte_at (copy_bytes dst o src so n) j =
      if o ≤ j ∧ j < o + n ∧ j < dst.length then byte_at src (so + (j - o))
      else byte_at dst j := by
  induction n with
  | zero =>
    have : ¬ (o ≤ j ∧ j < o + 0 ∧ j < dst.length) := by omega
    rw [if_neg this]
    simp [copy_bytes]
  | succ n ih =>
    rw [copy_bytes_succ, byte_at_set, copy_bytes_length, ih]
    by_cases h1 : o + n = j ∧ o + n < dst.length
    · rw [if_pos h1, if_pos (by omega)]
      congr 1
      omega
    · rw [if_neg h1]
      by_cases h2 : o ≤ j ∧ j < o + n ∧ j < dst.length
      · rw [if_pos h2, if_pos (by omega)]
      · rw [if_neg h2, if_neg (by omega)]

theorem get_loop_step (offset read_len : Nat) (fuel : Nat) (s : JoyShock) (d : hid_device)
    (h : s.handle = some d) :
    get_spi_data_loop offset read_len (fuel + 1) s =
      if read_u16 (d.script d.reads).buf 0xD = 0x1090 ∧
          read_u32 (d.script d.reads).buf 0xF = offset then
        some ((d.script d.reads).res, (d.script d.reads).buf, after_round_trip s d
          ((get_spi_data_request s.timing_byte offset read_len).take 22))
      else
        get_spi_data_loop offset read_len fuel (after_round_trip s d
          ((get_spi_data_request s.timing_byte offset read_len).take 22)) := by
  simp only [get_spi_data_loop, hid_write, hid_read, h, after_round_trip, Nat.add_zero]

theorem get_loop_first_match (offset read_len : Nat) :
    ∀ (k fuel : Nat) (s : JoyShock) (d : hid_device),
      s.handle = some d → k < fuel →
      (∀ j, j < k → ¬ (read_u16 (d.script (d.reads + j)).buf 0xD = 0x1090 ∧
        read_u32 (d.script (d.reads + j)).buf 0xF = offset)) →
      (read_u16 (d.script (d.reads + k)).buf 0xD = 0x1090 ∧
        read_u32 (d.script (d.reads + k)).buf 0xF = offset) →
      ∃ s' d', get_spi_data_loop offset read_len fuel s
          = some ((d.script (d.reads + k)).res, (d.script (d.reads + k)).buf, s') ∧
        s'.handle = some d' ∧ d'.script = d.script ∧ d'.reads = d.reads + (k + 1) ∧
        d'.written.length = d.written.length + (k + 1) := by
  intro k
  induction k with
  | zero =>
    intro fuel s d h hf _ hm
    obtain ⟨f, rfl⟩ : ∃ f, fuel = f + 1 := ⟨fuel - 1, by omega⟩
    rw [get_loop_step offset read_len f s d h]
    rw [if_pos (by simpa using hm)]
    exact ⟨_, _, rfl, rfl, rfl, rfl, by simp⟩
  | succ k ih =>
    intro fuel s d h hf hno hm
    obtain ⟨f, rfl⟩ : ∃ f, fuel = f + 1 := ⟨fuel - 1, by omega⟩
    rw [get_loop_step offset read_len f s d h]
    have h0 := hno 0 (by omega)
    rw [if_neg (by simpa using h0)]
    obtain ⟨s', d', hr, hh, hs, hrd, hw⟩ := ih f
      (after_round_trip s d ((get_spi_data_request s.timing_byte offset read_len).take 22))
      _ rfl (by omega)
      (fun j hj => by
        have := hno (j + 1) (by omega)
        simpa [Nat.add_assoc, Nat.add_comm 1 j] using this)
      (by simpa [Nat.add_assoc, Nat.add_comm 1 k] using hm)
    refine ⟨s', d', ?_, hh, hs, ?_, ?_⟩
    · rw [hr]
      simp [Nat.add_assoc, Nat.add_comm 1 k]
    · rw [hrd]; show d.reads + 1 + (_ + 1) = _; omega
    · rw [hw]; simp only [List.length_append, List.length_singleton]; omega

theorem get_loop_no_match (offset read_len : Nat) :
    ∀ (fuel : Nat) (s : JoyShock) (d : hid_device),
      s.handle = some d →
      (∀ j, j < fuel → ¬ (read_u16 (d.script (d.reads + j)).buf 0xD = 0x1090 ∧
        read_u32 (d.script (d.reads + j)).buf 0xF = offset)) →
      get_spi_data_loop offset read_len fuel s = none := by
  intro fuel
  induction fuel with
  | zero => intro s d _ _; rfl
  | succ f ih =>
    intro s d h hno
    rw [get_loop_step offset read_len f s d h]
    have h0 := hno 0 (by omega)
    rw [if_neg (by simpa using h0)]
    exact ih _ _ rfl (fun j hj => by
      have := hno (j + 1) (by omega)
      simpa [Nat.add_assoc, Nat.add_comm 1 j] using this)

/-- C8: on an open device, if response number `k + 1` is the first whose
little-endian `uint16` at 0xD is 0x1090 and whose little-endian `uint32` at 0xF
is the requested offset, `get_spi_data` returns (with room for more than `k`
passes) after exactly `k + 1` writes and `k + 1` reads; and as long as no
response has matched it has not returned: with room for `fuel` passes and
`fuel` mismatching responses it is still in its loop, whatever `fuel` is. -/
theorem c8_get_spi_data_round_trips (s : JoyShock) (d : hid_device) (offset read_len : Nat)
    (test_buf : Bytes) (h : s.handle = some d) :
    (∀ k fuel, k < fuel →
      (∀ j, j < k → ¬ (read_u16 (d.script (d.reads + j)).buf 0xD = 0x1090 ∧
        read_u32 (d.script (d.reads + j)).buf 0xF = offset)) →
      (read_u16 (d.script (d.reads + k)).buf 0xD = 0x1090 ∧
        read_u32 (d.script (d.reads + k)).buf 0xF = offset) →
      ∃ out s' d', get_spi_data fuel s offset read_len test_buf = some (0, out, s') ∧
        s'.handle = some d' ∧ d'.reads = d.reads + (k + 1) ∧
        d'.written.length = d.written.length + (k + 1)) ∧
    (∀ fuel,
      (∀ j, j < fuel → ¬ (read_u16 (d.script (d.reads + j)).buf 0xD = 0x1090 ∧
        read_u32 (d.script (d.reads + j)).buf 0xF = offset)) →
      get_spi_data fuel s offset read_len test_buf = none) := by
  constructor
  · intro k fuel hk hno hm
    obtain ⟨s', d', hr, hh, _, hrd, hw⟩ :=
      get_loop_first_match offset read_len k fuel s d h hk hno hm
    unfold get_spi_data
    rw [hr]
    exact ⟨_, s', d', rfl, hh, hrd, hw⟩
  · intro fuel hno
    unfold get_spi_data
    rw [get_loop_no_match offset read_len fuel s d h hno]

/-- Witness of C8: a device whose fourth response is the matching one; the read
of 3 bytes at 0x6020 returns after 4 round trips. -/
theorem c8_get_spi_data_round_trips_witness :
    (({ handle := some (device_matching_after 3 (spi_reply 0x1090 0x6020 [1, 2, 3])) }
        : JoyShock).handle
      = some (device_matching_after 3 (spi_reply 0x1090 0x6020 [1, 2, 3]))) ∧
    ∃ out s' d', get_spi_data 10
        { handle := some (device_matching_after 3 (spi_reply 0x1090 0x6020 [1, 2, 3])) }
        0x6020 3 [0, 0, 0, 0] = some (0, out, s') ∧
      s'.handle = some d' ∧ d'.reads = 0 + (3 + 1) ∧ d'.written.length = 0 + (3 + 1) :=
  ⟨rfl, (c8_get_spi_data_round_trips
    { handle := some (device_matching_after 3 (spi_reply 0x1090 0x6020 [1, 2, 3])) }
    (device_matching_after 3 (spi_reply 0x1090 0x6020 [1, 2, 3])) 0x6020 3 [0, 0, 0, 0] rfl).1
    3 10 (by decide) (by decide) (by decide)⟩

/-- C9 as stated fails: the first response matches (0x1090 at 0xD, offset 0x6020
at 0xF) and carries the byte 1 at offset 0x14, but `hid_read` returned 49 bytes,
fewer than 0x14 + 0x20, so for the requested length 0x20 nothing is copied and
`out[0]` keeps its old value 0. -/
theorem c9_short_read_copies_nothing :
    read_u16 (spi_reply 0x1090 0x6020 [1, 2, 3]) 0xD = 0x1090 ∧
    read_u32 (spi_reply 0x1090 0x6020 [1, 2, 3]) 0xF = 0x6020 ∧
    byte_at (spi_reply 0x1090 0x6020 [1, 2, 3]) 0x14 = 1 ∧
    (get_spi_data 1 { handle := some (device_matching_after 0 (spi_reply 0x1090 0x6020 [1, 2, 3])) }
        0x6020 0x20 (List.replicate 0x20 0)).map (fun r => (r.1, r.2.1))
      = some (0, List.replicate 0x20 0) := by
  decide

/-- C9 (amended): when the first matching response is number `k + 1` and the
`hid_read` that delivered it returned at least `0x14 + length` bytes,
`get_spi_data` copies `length` bytes from response offset 0x14 into the output
(`out[i] = response[0x14 + i]` for `i < length`, the rest of the output
untouched); when that read returned fewer bytes the output is left as it
was. -/
theorem c9_get_spi_data_copy (s : JoyShock) (d : hid_device) (offset read_len : Nat)
    (test_buf : Bytes) (k fuel : Nat) (h : s.handle = some d) (hroom : read_len ≤ test_buf.length)
    (hk : k < fuel)
    (hno : ∀ j, j < k → ¬ (read_u16 (d.script (d.reads + j)).buf 0xD = 0x1090 ∧
      read_u32 (d.script (d.reads + j)).buf 0xF = offset))
    (hm : read_u16 (d.script (d.reads + k)).buf 0xD = 0x1090 ∧
      read_u32 (d.script (d.reads + k)).buf 0xF = offset) :
    ∃ out s', get_spi_data fuel s offset read_len test_buf = some (0, out, s') ∧
      out.length = test_buf.length ∧
      ((d.script (d.reads + k)).res ≥ 0x14 + (read_len : Int) →
        (∀ i, i < read_len → byte_at out i = byte_at (d.script (d.reads + k)).buf (0x14 + i)) ∧
        (∀ i, read_len ≤ i → byte_at out i = byte_at test_buf i)) ∧
      ((d.script (d.reads + k)).res < 0x14 + (read_len : Int) → out = test_buf) := by
  obtain ⟨s', d', hr, _, _, _, _⟩ := get_loop_first_match offset read_len k fuel s d h hk hno hm
  unfold get_spi_data
  rw [hr]
  by_cases hres : (d.script (d.reads + k)).res ≥ 0x14 + (read_len : Int)
  · refine ⟨_, s', rfl, ?_, ?_, ?_⟩
    · simp only [hres, if_true, copy_bytes_length]
    · intro _
      simp only [hres, if_true]
      constructor
      · intro i hi
        rw [byte_at_copy_bytes, if_pos (by omega)]
        simp
      · intro i hi
        rw [byte_at_copy_bytes, if_neg (by omega)]
    · intro hlt
      omega
  · refine ⟨_, s', rfl, ?_, ?_, ?_⟩
    · simp only [hres, if_false]
    · intro hge
      exact absurd hge hres
    · intro _
      simp only [hres, if_false]

/-- Witness of C9 (amended): the first response matches and 49 bytes were read,
enough for the 3 requested bytes. -/
theorem c9_get_spi_data_copy_witness :
    (({ handle := some (device_matching_after 0 (spi_reply 0x1090 0x6020 [1, 2, 3])) }
        : JoyShock).handle
      = some (device_matching_after 0 (spi_reply 0x1090 0x6020 [1, 2, 3])) ∧
      3 ≤ [0, 0, 0, 0].length ∧ 0 < 1) ∧
    ∃ out s', get_spi_data 1
        { handle := some (device_matching_after 0 (spi_reply 0x1090 0x6020 [1, 2, 3])) }
        0x6020 3 [0, 0, 0, 0] = some (0, out, s') ∧ byte_at out 2 = 3 := by
  refine ⟨⟨rfl, by decide, by decide⟩, ?_⟩
  obtain ⟨out, s', hr, _, hcopy, _⟩ := c9_get_spi_data_copy
    { handle := some (device_matching_after 0 (spi_reply 0x1090 0x6020 [1, 2, 3])) }
    (device_matching_after 0 (spi_reply 0x1090 0x6020 [1, 2, 3])) 0x6020 3 [0, 0, 0, 0] 0 1
    rfl (by decide) (by decide) (by decide) (by decide)
  refine ⟨out, s', hr, ?_⟩
  rw [(hcopy (by decide)).1 2 (by decide)]
  decide

/-! ### Command codec -/

theorem store8_byte (buf : Bytes) (i c : Nat) (hc : c < 256) :
    store8 buf i (c : Int) = buf.set i c := by
  unfold store8
  have : ((c : Int) % 256).toNat = c := by omega
  rw [this]

theorem take_memcpy (buf : Bytes) (off : Nat) (data : Bytes) (len : Nat)
    (hoff : off ≤ buf.length) (hlen : len ≤ data.length) :
    (memcpy buf off data len).take (len + off) = buf.take off ++ data.take len := by
  unfold memcpy
  apply List.take_left'
  simp only [List.length_append, List.length_take]
  omega

theorem hid_exchange_written (handle : Option hid_device) (d : hid_device)
    (h : handle = some d) (buf : Bytes) (len : Nat) :
    (hid_exchange handle buf len).1
      = some { d with written := d.written ++ [buf.take len], reads := d.reads + 1 } := by
  simp [hid_exchange, hid_write, hid_read, h]

/-- C10: on an open device, for a command byte and a payload of `len` bytes that
fits the 0x40-byte buffer, `send_command` writes exactly one frame: on
Bluetooth the command followed by the payload (`len + 1` bytes), on USB the
bytes 0x80, 0x92, 0, 0x31, 0, 0, 0, 0, the command and then the payload
(`len + 9` bytes). -/
theorem c10_send_command_frame (s : JoyShock) (d : hid_device) (command : Nat) (data : Bytes)
    (len : Nat) (h : s.handle = some d) (hc : command < 256) (hlen : len ≤ data.length)
    (hfit : len + (if s.bluetooth then 0x1 else 0x9) ≤ 0x40) :
    frames_written (send_command s (command : Int) (some data) len).1
      = d.written ++
        [if s.bluetooth then command :: data.take len
         else [0x80, 0x92, 0, 0x31, 0, 0, 0, 0, command] ++ data.take len] ∧
    (if s.bluetooth then command :: data.take len
      else [0x80, 0x92, 0, 0x31, 0, 0, 0, 0, command] ++ data.take len).length
      = len + (if s.bluetooth then 0x1 else 0x9) := by
  have hlt : (data.take len).length = len := by
    rw [List.length_take]; omega
  constructor
  · unfold send_command frames_written
    simp only [store8_byte _ _ _ hc]
    by_cases hb : s.bluetooth = true
    · simp only [hb, if_true, not_true_eq_false, if_false]
      by_cases h0 : len = 0
      · subst h0
        simp only [ne_eq, not_true_eq_false, if_false]
        rw [hid_exchange_written s.handle d h]
        rfl
      · simp only [ne_eq, h0, not_false_eq_true, if_true]
        rw [hid_exchange_written s.handle d h, take_memcpy _ _ _ _ (by simp) hlen]
        rfl
    · simp only [hb, if_false, not_false_eq_true, if_true]
      by_cases h0 : len = 0
      · subst h0
        simp only [ne_eq, not_true_eq_false, if_false]
        rw [hid_exchange_written s.handle d h]
        rfl
      · simp only [ne_eq, h0, not_false_eq_true, if_true]
        rw [hid_exchange_written s.handle d h, take_memcpy _ _ _ _ (by simp) hlen]
        rfl
  · by_cases hb : s.bluetooth = true
    · simp [hb, hlt]
    · simp [hb, hlt]

/-- Witness of C10: the 3-byte payload 1, 2, 3 with command 0x10 on a USB
session. -/
theorem c10_send_command_frame_witness :
    (({ handle := some device_never_matching, bluetooth := false } : JoyShock).handle
        = some device_never_matching ∧ 0x10 < 256 ∧
      3 ≤ ([1, 2, 3] ++ List.replicate 61 0).length ∧ 3 + 0x9 ≤ 0x40) ∧
    frames_written (send_command { handle := some device_never_matching, bluetooth := false }
        0x10 (some ([1, 2, 3] ++ List.replicate 61 0)) 3).1
      = [[0x80, 0x92, 0, 0x31, 0, 0, 0, 0, 0x10, 1, 2, 3]] :=
  ⟨⟨rfl, by decide, by decide, by decide⟩,
    (c10_send_command_frame { handle := some device_never_matching, bluetooth := false }
      device_never_matching 0x10 ([1, 2, 3] ++ List.replicate 61 0) 3 rfl (by decide)
      (by decide) (by decide)).1⟩

/-! ### Subcommands -/

theorem send_command_frames_written (s : JoyShock) (d : hid_device) (command : Nat)
    (data : Bytes) (len : Nat) (h : s.handle = some d) (hc : command < 256)
    (hlen : len ≤ data.length) :
    frames_written (send_command s (command : Int) (some data) len).1
      = d.written ++
        [if s.bluetooth then command :: data.take len
         else [0x80, 0x92, 0, 0x31, 0, 0, 0, 0, command] ++ data.take len] := by
  unfold send_command frames_written
  simp only [store8_byte _ _ _ hc]
  by_cases hb : s.bluetooth = true
  · simp only [hb, if_true, not_true_eq_false, if_false]
    by_cases h0 : len = 0
    · subst h0
      simp only [ne_eq, not_true_eq_false, if_false]
      rw [hid_exchange_written s.handle d h]
      rfl
    · simp only [ne_eq, h0, not_false_eq_true, if_true]
      rw [hid_exchange_written s.handle d h, take_memcpy _ _ _ _ (by simp) hlen]
      rfl
  · simp only [hb, if_false, not_false_eq_true, if_true]
    by_cases h0 : len = 0
    · subst h0
      simp only [ne_eq, not_true_eq_false, if_false]
      rw [hid_exchange_written s.handle d h]
      rfl
    · simp only [ne_eq, h0, not_false_eq_true, if_true]
      rw [hid_exchange_written s.handle d h, take_memcpy _ _ _ _ (by simp) hlen]
      rfl

theorem low_nibble_of_counter (c : Int) (h0 : 0 ≤ c) (h15 : c ≤ 0xF) :
    ((c + 1) % 16).toNat = ((c + 1).toNat &&& 0xF) := by
  obtain ⟨n, rfl⟩ : ∃ n : Nat, c = n := ⟨c.toNat, by omega⟩
  have hn : n ≤ 15 := by omega
  interval_cases n <;> rfl

theorem send_subcommand_buf_take (s : JoyShock) (subcommand : Nat) (data : Bytes) (len : Nat)
    (hsub : subcommand < 256) (hlen : len ≤ data.length) :
    (send_subcommand_buf s (subcommand : Int) (some data) len).take (10 + len)
      = [((s.global_count + 1) % 16).toNat, 0x00, 0x01, 0x40, 0x40, 0x00, 0x01, 0x40, 0x40,
          subcommand] ++ data.take len := by
  unfold send_subcommand_buf
  simp only [store8_byte _ _ _ hsub]
  by_cases h0 : len = 0
  · subst h0
    simp only [ne_eq, not_true_eq_false, if_false]
    rfl
  · simp only [ne_eq, h0, not_false_eq_true, if_true]
    rw [Nat.add_comm 10 len, take_memcpy _ _ _ _ (by simp [memcpy]) hlen]
    rfl

theorem send_subcommand_buf_length (s : JoyShock) (subcommand : Int) (data : Bytes) (len : Nat)
    (hlen : len ≤ data.length) (hfit : 10 + len ≤ 0x40) :
    (send_subcommand_buf s subcommand (some data) len).length = 0x40 := by
  unfold send_subcommand_buf
  by_cases h0 : len = 0
  · subst h0
    simp [memcpy, store8]
  · simp only [ne_eq, h0, not_false_eq_true, if_true]
    simp only [memcpy, store8, List.length_append, List.length_take, List.length_drop,
      List.length_set, List.length_replicate, List.length_cons, List.length_nil]
    omega

/-- C11: for a session whose sequence counter is `c` with `0 ≤ c ≤ 0xF`, every
subcommand byte and every payload of `len ≤ 45` bytes, `send_subcommand` passes
to `send_command` the length `10 + len` and a buffer whose first `10 + len`
bytes are `(c+1) & 0xF`, then 0x00, 0x01, 0x40, 0x40, 0x00, 0x01, 0x40, 0x40,
then the subcommand id, then the caller's payload; on an open device these
bytes go out after the command byte (Bluetooth) or after the USB header. -/
theorem c11_send_subcommand_payload (s : JoyShock) (d : hid_device) (command subcommand : Nat)
    (data : Bytes) (len : Nat) (h : s.handle = some d)
    (hc0 : 0 ≤ s.global_count) (hc15 : s.global_count ≤ 0xF)
    (hcmd : command < 256) (hsub : subcommand < 256)
    (hlen : len ≤ data.length) (hmax : len ≤ 45) :
    (send_subcommand s (command : Int) (subcommand : Int) (some data) len).1
      = (send_command { s with global_count := next_global_count s.global_count } (command : Int)
          (some (send_subcommand_buf s (subcommand : Int) (some data) len)) (10 + len)).1 ∧
    (send_subcommand_buf s (subcommand : Int) (some data) len).take (10 + len)
      = [((s.global_count + 1).toNat &&& 0xF), 0x00, 0x01, 0x40, 0x40, 0x00, 0x01, 0x40, 0x40,
          subcommand] ++ data.take len ∧
    ([((s.global_count + 1).toNat &&& 0xF), 0x00, 0x01, 0x40, 0x40, 0x00, 0x01, 0x40, 0x40,
          subcommand] ++ data.take len).length = 10 + len ∧
    frames_written (send_subcommand s (command : Int) (subcommand : Int) (some data) len).1
      = d.written ++
        [(if s.bluetooth then [command] else [0x80, 0x92, 0, 0x31, 0, 0, 0, 0, command]) ++
          ([((s.global_count + 1).toNat &&& 0xF), 0x00, 0x01, 0x40, 0x40, 0x00, 0x01, 0x40,
            0x40, subcommand] ++ data.take len)] := by
  have hlt : (data.take len).length = len := by
    rw [List.length_take]; omega
  have hbuf := send_subcommand_buf_take s subcommand data len hsub hlen
  rw [low_nibble_of_counter s.global_count hc0 hc15] at hbuf
  refine ⟨rfl, hbuf, ?_, ?_⟩
  · simp only [List.length_append, List.length_cons, List.length_nil, hlt]
  · have hfr := send_command_frames_written
      { s with global_count := next_global_count s.global_count } d command
      (send_subcommand_buf s (subcommand : Int) (some data) len) (10 + len) h hcmd
      (by rw [send_subcommand_buf_length s _ data len hlen (by omega)]; omega)
    have hdef : (send_subcommand s (command : Int) (subcommand : Int) (some data) len).1
        = (send_command { s with global_count := next_global_count s.global_count } (command : Int)
          (some (send_subcommand_buf s (subcommand : Int) (some data) len)) (10 + len)).1 := rfl
    rw [hdef, hfr, hbuf]
    by_cases hb : s.bluetooth = true
    · simp [hb]
    · simp [hb]

/-- Witness of C11: counter 15, subcommand 0x48 with the one-byte payload 0x01
on Bluetooth; the frame starts 01, 00 (the counter has wrapped), and ends 48
01. -/
theorem c11_send_subcommand_payload_witness :
    (({ handle := some device_never_matching, global_count := 15 } : JoyShock).handle
        = some device_never_matching ∧
      (0 : Int) ≤ 15 ∧ (15 : Int) ≤ 0xF ∧ 1 < 256 ∧ 0x48 < 256 ∧
      1 ≤ ([1] ++ List.replicate 63 0).length ∧ 1 ≤ 45) ∧
    frames_written (send_subcommand { handle := some device_never_matching, global_count := 15 }
        1 0x48 (some ([1] ++ List.replicate 63 0)) 1).1
      = [[1, 0, 0x00, 0x01, 0x40, 0x40, 0x00, 0x01, 0x40, 0x40, 0x48, 1]] :=
  ⟨⟨rfl, by decide, by decide, by decide, by decide, by decide, by decide⟩,
    (c11_send_subcommand_payload { handle := some device_never_matching, global_count := 15 }
      device_never_matching 1 0x48 ([1] ++ List.replicate 63 0) 1 rfl (by decide) (by decide)
      (by decide) (by decide) (by decide) (by decide)).2.2.2⟩

/-! ### Rumble -/

theorem rumble_buf_bytes (s : JoyShock) (f i : Nat) (hf : f < 256) (hi : i ≤ 8) :
    (rumble_buf s (f : Int) (i : Int)).length = 0x40 ∧
    byte_at (rumble_buf s (f : Int) (i : Int)) (if s.left_right = 1 then 1 else 5) = f ∧
    (1 + 0 + i ≠ (if s.left_right = 1 then 1 else 5) →
      byte_at (rumble_buf s (f : Int) (i : Int)) (1 + 0 + i) = 1) ∧
    (1 + 4 + i ≠ (if s.left_right = 1 then 1 else 5) →
      byte_at (rumble_buf s (f : Int) (i : Int)) (1 + 4 + i) = 1) := by
  have h1 : (1 + 0 + (i : Int)).toNat = 1 + i := by omega
  have h2 : (1 + 4 + (i : Int)).toNat = 5 + i := by omega
  unfold rumble_buf
  simp only [store8_byte _ _ _ hf, h1, h2]
  by_cases hl : s.left_right = 1
  · simp only [hl, if_true]
    interval_cases i <;> simp [byte_at]
  · simp only [hl, if_false]
    interval_cases i <;> simp [byte_at]

theorem byte_at_take (b : Bytes) (n j : Nat) (hj : j < n) :
    byte_at (b.take n) j = byte_at b j := by
  unfold byte_at
  simp only [List.getD_eq_getElem?_getD]
  rw [List.getElem?_take_of_lt hj]

/-- C12 as stated fails: for a left Joy-Con with frequency 100 and intensity 0
the byte at index 1+0+0 of the payload is the frequency 100, not the amplitude
byte 1 (the frequency is stored last, into the same slot); and with intensity 8
the index 1+4+8 = 13 lies outside the 9 bytes that are sent, which then carry
no amplitude byte at all. -/
theorem c12_rumble_amplitude_not_in_payload :
    byte_at ((rumble_buf { left_right := 1 } 100 0).take 9) (1 + 0 + 0) = 100 ∧
    byte_at ((rumble_buf { left_right := 1 } 100 8).take 9) (1 + 4 + 8) = 0 ∧
    frames_written (rumble { handle := some device_never_matching, left_right := 1 } 100 8)
      = [[0x10, 0, 100, 0, 0, 0, 0, 0, 0, 0]] := by
  decide

/-- C12 (amended): for every frequency in 0..255 and intensity in 0..8, on an
open device `rumble` sends command 0x10 with the first 9 bytes of its buffer as
payload.  The buffer has the frequency at index 1 for a left Joy-Con and at
index 5 otherwise, and the byte 1 at index 1+0+intensity and at index
1+4+intensity wherever that index is not the frequency slot; the payload has
the same bytes at the indices below 9. -/
theorem c12_rumble_payload (s : JoyShock) (d : hid_device) (f i : Nat)
    (h : s.handle = some d) (hf : f < 256) (hi : i ≤ 8) :
    frames_written (rumble s (f : Int) (i : Int))
      = d.written ++
        [(if s.bluetooth then [0x10] else [0x80, 0x92, 0, 0x31, 0, 0, 0, 0, 0x10]) ++
          (rumble_buf s (f : Int) (i : Int)).take 9] ∧
    ((rumble_buf s (f : Int) (i : Int)).take 9).length = 9 ∧
    byte_at ((rumble_buf s (f : Int) (i : Int)).take 9) (if s.left_right = 1 then 1 else 5) = f ∧
    (1 + 0 + i < 9 → 1 + 0 + i ≠ (if s.left_right = 1 then 1 else 5) →
      byte_at ((rumble_buf s (f : Int) (i : Int)).take 9) (1 + 0 + i) = 1) ∧
    (1 + 4 + i < 9 → 1 + 4 + i ≠ (if s.left_right = 1 then 1 else 5) →
      byte_at ((rumble_buf s (f : Int) (i : Int)).take 9) (1 + 4 + i) = 1) ∧
    (1 + 0 + i ≠ (if s.left_right = 1 then 1 else 5) →
      byte_at (rumble_buf s (f : Int) (i : Int)) (1 + 0 + i) = 1) ∧
    (1 + 4 + i ≠ (if s.left_right = 1 then 1 else 5) →
      byte_at (rumble_buf s (f : Int) (i : Int)) (1 + 4 + i) = 1) := by
  obtain ⟨hlen, hfreq, ha1, ha2⟩ := rumble_buf_bytes s f i hf hi
  have hslot : (if s.left_right = 1 then 1 else 5) < 9 := by split <;> decide
  refine ⟨?_, ?_, ?_, ?_, ?_, ha1, ha2⟩
  · have hfr := send_command_frames_written
      { s with
        handle := (hid_set_nonblocking s.handle true).1
        null_handle_calls := s.null_handle_calls + (hid_set_nonblocking s.handle true).2 }
      { d with nonblocking := true } 0x10
      (rumble_buf s (f : Int) (i : Int)) 9 (by simp [hid_set_nonblocking, h]) (by decide)
      (by rw [hlen]; decide)
    have hdef : rumble s (f : Int) (i : Int)
        = (send_command
          { s with
            handle := (hid_set_nonblocking s.handle true).1
            null_handle_calls := s.null_handle_calls + (hid_set_nonblocking s.handle true).2 }
          ((0x10 : Nat) : Int) (some (rumble_buf s (f : Int) (i : Int))) 9).1 := rfl
    rw [hdef, hfr]
    by_cases hb : s.bluetooth = true
    · simp [hb]
    · simp [hb]
  · rw [List.length_take, hlen]; decide
  · rw [byte_at_take _ _ _ hslot]; exact hfreq
  · intro hlt hne
    rw [byte_at_take _ _ _ hlt]; exact ha1 hne
  · intro hlt hne
    rw [byte_at_take _ _ _ hlt]; exact ha2 hne

/-- Witness of C12 (amended): a left Joy-Con on Bluetooth with frequency 100 and
intensity 3 has payload[4] = 1 and payload[1] = 100. -/
theorem c12_rumble_payload_witness :
    (({ handle := some device_never_matching, left_right := 1 } : JoyShock).handle
        = some device_never_matching ∧ 100 < 256 ∧ 3 ≤ 8) ∧
    byte_at ((rumble_buf { handle := some device_never_matching, left_right := 1 }
      ((100 : Nat) : Int) ((3 : Nat) : Int)).take 9) (1 + 0 + 3) = 1 ∧
    byte_at ((rumble_buf { handle := some device_never_matching, left_right := 1 }
      ((100 : Nat) : Int) ((3 : Nat) : Int)).take 9) 1 = 100 :=
  ⟨⟨rfl, by decide, by decide⟩,
    (c12_rumble_payload { handle := some device_never_matching, left_right := 1 }
      device_never_matching 100 3 rfl (by decide) (by decide)).2.2.2.1 (by decide) (by decide),
    (c12_rumble_payload { handle := some device_never_matching, left_right := 1 }
      device_never_matching 100 3 rfl (by decide) (by decide)).2.2.1⟩

/-! ### DualShock 4 output report -/

/-- C13: on an open device, for all byte values `small`, `big`, `r`, `g`, `b`,
`set_ds4_rumble_light` writes exactly one frame of 31 bytes: byte 0 = 0x05,
byte 1 = 0xff, byte 4 = small, byte 5 = big, bytes 6, 7, 8 = r, g, b, byte 9 =
0xff, byte 10 = 0x00 and every other byte 0; it makes no read. -/
theorem c13_ds4_output_report (s : JoyShock) (d : hid_device) (small big r g b : Nat)
    (h : s.handle = some d) :
    frames_written (set_ds4_rumble_light s small big r g b)
      = d.written ++
        [[0x05, 0xff, 0, 0, small, big, r, g, b, 0xff, 0x00, 0, 0, 0, 0, 0, 0, 0, 0, 0, 0, 0, 0,
          0, 0, 0, 0, 0, 0, 0, 0]] ∧
    [0x05, 0xff, 0, 0, small, big, r, g, b, 0xff, 0x00, 0, 0, 0, 0, 0, 0, 0, 0, 0, 0, 0, 0,
      0, 0, 0, 0, 0, 0, 0, 0].length = 31 ∧
    reads_done (set_ds4_rumble_light s small big r g b) = d.reads := by
  refine ⟨?_, rfl, ?_⟩
  · simp only [set_ds4_rumble_light, frames_written, hid_write, h]
    rfl
  · simp only [set_ds4_rumble_light, reads_done, hid_write, h]

/-- Witness of C13: (small, big, r, g, b) = (0, 200, 255, 0, 0) gives a frame
with buf[0] = 0x05, buf[1] = 0xff, buf[5] = 200, buf[6] = 255, buf[9] = 0xff. -/
theorem c13_ds4_output_report_witness :
    (({ handle := some device_never_matching } : JoyShock).handle = some device_never_matching) ∧
    frames_written (set_ds4_rumble_light { handle := some device_never_matching } 0 200 255 0 0)
      = [[0x05, 0xff, 0, 0, 0, 200, 255, 0, 0, 0xff, 0x00, 0, 0, 0, 0, 0, 0, 0, 0, 0, 0, 0, 0,
          0, 0, 0, 0, 0, 0, 0, 0]] :=
  ⟨rfl, (c13_ds4_output_report { handle := some device_never_matching } device_never_matching
    0 200 255 0 0 rfl).1⟩

/-! ### Rolling counters -/

theorem next_timing_byte_mod (t : Int) (h0 : 0 ≤ t) (h15 : t ≤ 0xF) :
    next_timing_byte t = (t + 1) % 16 := by
  unfold next_timing_byte
  split <;> omega

theorem next_global_count_mod (c : Int) (h0 : 0 ≤ c) (h15 : c ≤ 0xF) :
    next_global_count c = (c + 1) % 16 := by
  unfold next_global_count
  split <;> omega

theorem iterate_next_timing_byte (n : Nat) (t : Int) (h0 : 0 ≤ t) (h15 : t ≤ 0xF) :
    next_timing_byte^[n] t = (t + n) % 16 := by
  induction n with
  | zero => simp; omega
  | succ n ih =>
    rw [Function.iterate_succ_apply', ih, next_timing_byte_mod _ (by omega) (by omega)]
    push_cast
    omega

theorem iterate_next_global_count (n : Nat) (c : Int) (h0 : 0 ≤ c) (h15 : c ≤ 0xF) :
    next_global_count^[n] c = (c + n) % 16 := by
  induction n with
  | zero => simp; omega
  | succ n ih =>
    rw [Function.iterate_succ_apply', ih, next_global_count_mod _ (by omega) (by omega)]
    push_cast
    omega

theorem send_subcommand_calls_count
    (calls : List (Int × Int × Option Bytes × Nat)) :
    ∀ s : JoyShock,
      (calls.foldl (fun s a => (send_subcommand s a.1 a.2.1 a.2.2.1 a.2.2.2).1) s).global_count
        = next_global_count^[calls.length] s.global_count := by
  induction calls with
  | nil => intro s; rfl
  | cons a rest ih =>
    intro s
    rw [List.foldl_cons, ih, List.length_cons, Function.iterate_succ_apply]
    rfl

theorem get_loop_timing (offset read_len : Nat) :
    ∀ (fuel : Nat) (s : JoyShock) (d : hid_device) (res : Int) (buf : Bytes) (s' : JoyShock),
      s.handle = some d →
      get_spi_data_loop offset read_len fuel s = some (res, buf, s') →
      ∃ d' n, s'.handle = some d' ∧ d'.reads = d.reads + (n + 1) ∧
        s'.timing_byte = next_timing_byte^[n + 1] s.timing_byte := by
  intro fuel
  induction fuel with
  | zero => intro s d res buf s' _ hr; simp [get_spi_data_loop] at hr
  | succ f ih =>
    intro s d res buf s' h hr
    rw [get_loop_step offset read_len f s d h] at hr
    split at hr
    · simp only [Option.some.injEq, Prod.mk.injEq] at hr
      obtain ⟨_, _, rfl⟩ := hr
      exact ⟨_, 0, rfl, rfl, rfl⟩
    · obtain ⟨d', n, hh, hrd, ht⟩ := ih _ _ res buf s' rfl hr
      refine ⟨d', n + 1, hh, ?_, ?_⟩
      · rw [hrd]; show d.reads + 1 + (n + 1) = _; omega
      · rw [ht, Function.iterate_succ_apply (f := next_timing_byte) (n := n + 1)]
        rfl

theorem write_loop_timing (offset write_len : Nat) (test_buf : Bytes) :
    ∀ (fuel : Nat) (s : JoyShock) (d : hid_device) (e r : Int) (s' : JoyShock),
      s.handle = some d →
      write_spi_data_loop offset write_len test_buf fuel s e = some (r, s') →
      ∃ d' n, s'.handle = some d' ∧ d'.reads = d.reads + (n + 1) ∧
        s'.timing_byte = next_timing_byte^[n + 1] s.timing_byte := by
  intro fuel
  induction fuel with
  | zero => intro s d e r s' _ hr; simp [write_spi_data_loop] at hr
  | succ f ih =>
    intro s d e r s' h hr
    rw [write_loop_step offset write_len test_buf f s e d h] at hr
    split at hr
    · simp only [Option.some.injEq, Prod.mk.injEq] at hr
      obtain ⟨_, rfl⟩ := hr
      exact ⟨_, 0, rfl, rfl, rfl⟩
    · split at hr
      · simp only [Option.some.injEq, Prod.mk.injEq] at hr
        obtain ⟨_, rfl⟩ := hr
        exact ⟨_, 0, rfl, rfl, rfl⟩
      · obtain ⟨d', n, hh, hrd, ht⟩ := ih _ _ (e + 1) r s' rfl hr
        refine ⟨d', n + 1, hh, ?_, ?_⟩
        · rw [hrd]; show d.reads + 1 + (n + 1) = _; omega
        · rw [ht, Function.iterate_succ_apply (f := next_timing_byte) (n := n + 1)]
          rfl

/-- C14: for a session on an open device whose counters are at most 0xF (and
not negative): every `send_subcommand` call takes `global_count` from `c` to
`(c+1) mod 16`, so any `n` calls take it to `(c+n) mod 16`; a `get_spi_data` or
`write_spi_data` call that returns after `n` attempts (reads) has taken
`timing_byte` from `t` to `(t+n) mod 16`.  Under either step a counter never
leaves 0..0xF, is back at its start after 16 steps and at no smaller positive
number of steps. -/
theorem c14_rolling_counters (s : JoyShock) (d : hid_device) (h : s.handle = some d)
    (hc0 : 0 ≤ s.global_count) (hc15 : s.global_count ≤ 0xF)
    (ht0 : 0 ≤ s.timing_byte) (ht15 : s.timing_byte ≤ 0xF) :
    (∀ command subcommand data len,
      (send_subcommand s command subcommand data len).1.global_count
        = (s.global_count + 1) % 16) ∧
    (∀ calls : List (Int × Int × Option Bytes × Nat),
      (calls.foldl (fun s a => (send_subcommand s a.1 a.2.1 a.2.2.1 a.2.2.2).1) s).global_count
        = (s.global_count + calls.length) % 16) ∧
    (∀ fuel offset read_len test_buf r out s',
      get_spi_data fuel s offset read_len test_buf = some (r, out, s') →
      ∃ d' n, s'.handle = some d' ∧ d'.reads = d.reads + n ∧ 1 ≤ n ∧
        s'.timing_byte = (s.timing_byte + n) % 16) ∧
    (∀ fuel offset write_len test_buf r s',
      write_spi_data fuel s offset write_len test_buf = some (r, s') →
      ∃ d' n, s'.handle = some d' ∧ d'.reads = d.reads + n ∧ 1 ≤ n ∧
        s'.timing_byte = (s.timing_byte + n) % 16) ∧
    (∀ n : Nat, 0 ≤ next_global_count^[n] s.global_count ∧
      next_global_count^[n] s.global_count ≤ 0xF) ∧
    next_global_count^[16] s.global_count = s.global_count ∧
    (∀ n : Nat, 0 < n → n < 16 → next_global_count^[n] s.global_count ≠ s.global_count) ∧
    (∀ n : Nat, 0 ≤ next_timing_byte^[n] s.timing_byte ∧
      next_timing_byte^[n] s.timing_byte ≤ 0xF) ∧
    next_timing_byte^[16] s.timing_byte = s.timing_byte ∧
    (∀ n : Nat, 0 < n → n < 16 → next_timing_byte^[n] s.timing_byte ≠ s.timing_byte) := by
  refine ⟨?_, ?_, ?_, ?_, ?_, ?_, ?_, ?_, ?_, ?_⟩
  · intro command subcommand data len
    exact next_global_count_mod _ hc0 hc15
  · intro calls
    rw [send_subcommand_calls_count, iterate_next_global_count _ _ hc0 hc15]
  · intro fuel offset read_len test_buf r out s' hr
    unfold get_spi_data at hr
    split at hr
    · exact absurd hr (by simp)
    · rename_i res buf s1 hloop
      simp only [Option.some.injEq, Prod.mk.injEq] at hr
      obtain ⟨_, _, rfl⟩ := hr
      obtain ⟨d', n, hh, hrd, ht⟩ := get_loop_timing offset read_len fuel s d res buf s1 h hloop
      refine ⟨d', n + 1, hh, hrd, by omega, ?_⟩
      rw [ht, iterate_next_timing_byte _ _ ht0 ht15]
  · intro fuel offset write_len test_buf r s' hr
    obtain ⟨d', n, hh, hrd, ht⟩ :=
      write_loop_timing offset write_len test_buf fuel s d 0 r s' h hr
    refine ⟨d', n + 1, hh, hrd, by omega, ?_⟩
    rw [ht, iterate_next_timing_byte _ _ ht0 ht15]
  · intro n
    rw [iterate_next_global_count _ _ hc0 hc15]
    omega
  · rw [iterate_next_global_count _ _ hc0 hc15]
    omega
  · intro n hn0 hn16
    rw [iterate_next_global_count _ _ hc0 hc15]
    omega
  · intro n
    rw [iterate_next_timing_byte _ _ ht0 ht15]
    omega
  · rw [iterate_next_timing_byte _ _ ht0 ht15]
    omega
  · intro n hn0 hn16
    rw [iterate_next_timing_byte _ _ ht0 ht15]
    omega

/-- Witness of C14: both counters at 15; one subcommand wraps `global_count` to
0. -/
theorem c14_rolling_counters_witness :
    (({ handle := some device_never_matching, global_count := 15, timing_byte := 15 }
        : JoyShock).handle = some device_never_matching ∧
      (0 : Int) ≤ 15 ∧ (15 : Int) ≤ 0xF ∧ (0 : Int) ≤ 15 ∧ (15 : Int) ≤ 0xF) ∧
    (send_subcommand
        { handle := some device_never_matching, global_count := 15, timing_byte := 15 }
        0x01 0x48 none 0).1.global_count = (15 + 1) % 16 :=
  ⟨⟨rfl, by decide, by decide, by decide, by decide⟩,
    (c14_rolling_counters
      { handle := some device_never_matching, global_count := 15, timing_byte := 15 }
      device_never_matching rfl (by decide) (by decide) (by decide) (by decide)).1
      0x01 0x48 none 0⟩

/-! ### Gyro averaging engine: empty engine, reset, invariant -/

theorem window_at_neg (ws : List GYRO_AVERAGE_WINDOW) (j : Int) (hj : j < 0) :
    window_at ws j = {} := by
  unfold window_at
  rw [if_neg (by omega)]

theorem window_at_beyond (ws : List GYRO_AVERAGE_WINDOW) (j : Int) (hj : ws.length ≤ j.toNat) :
    window_at ws j = {} := by
  unfold window_at
  split
  · exact List.getD_eq_default _ _ hj
  · rfl

theorem window_at_reset_loop :
    ∀ (fuel : Nat) (i : Int) (ws : List GYRO_AVERAGE_WINDOW), 0 ≤ i → i + fuel = 16 →
      ∀ j : Int, window_at (reset_loop fuel i ws) j =
        if i ≤ j ∧ j < 16 ∧ j.toNat < ws.length then {} else window_at ws j := by
  intro fuel
  induction fuel with
  | zero =>
    intro i ws _ hi j
    have : ¬ (i ≤ j ∧ j < 16 ∧ j.toNat < ws.length) := by push_cast at hi; omega
    rw [if_neg this]
    rfl
  | succ f ih =>
    intro i ws h0 hi j
    have hlt : i < num_gyro_average_windows := by
      unfold num_gyro_average_windows; push_cast at hi; omega
    unfold reset_loop
    rw [if_pos hlt, ih (i + 1) _ (by omega) (by push_cast at hi ⊢; omega) j,
      window_set_length, window_at_window_set]
    by_cases hc : i ≤ j ∧ j < 16 ∧ j.toNat < ws.length
    · rw [if_pos hc]
      by_cases hij : i = j
      · rw [if_neg (by omega), if_pos ⟨hij, h0, by rw [hij]; exact hc.2.2⟩]
      · rw [if_pos (by omega)]
    · rw [if_neg hc, if_neg (by omega), if_neg (by omega)]

theorem reset_windows_empty (s : JoyShock) (j : Int) (hj : j < 16) :
    window_at (reset_continuous_calibration s).gyro_average_window j = {} := by
  unfold reset_continuous_calibration
  show window_at (reset_loop 16 0 s.gyro_average_window) j = _
  rw [window_at_reset_loop 16 0 _ (by omega) (by norm_num) j]
  by_cases h0 : 0 ≤ j
  · by_cases hl : j.toNat < s.gyro_average_window.length
    · rw [if_pos ⟨h0, hj, hl⟩]
    · rw [if_neg (by omega)]
      exact window_at_beyond _ _ (by omega)
  · rw [if_neg (by omega)]
    exact window_at_neg _ _ (by omega)

theorem loop_of_empty (s : JoyShock)
    (hempty : ∀ j : Int, 0 ≤ j → j < 16 → (window_at s.gyro_average_window j).numSamples = 0) :
    ∀ (fuel : Nat) (i : Int) (a : GyroAcc), get_average_gyro_loop s fuel i a = a := by
  have hall : ∀ j : Int, j < 16 → (window_at s.gyro_average_window j).numSamples = 0 := by
    intro j hj
    by_cases h0 : 0 ≤ j
    · exact hempty j h0 hj
    · rw [window_at_neg _ _ (by omega)]
  intro fuel
  induction fuel with
  | zero => intro i a; rfl
  | succ f ih =>
    intro i a
    unfold get_average_gyro_loop
    split
    · have hb : get_average_gyro_body s i a = a := by
        simp only [get_average_gyro_body]
        have hz : (window_at s.gyro_average_window
            ((i + s.gyro_average_window_front_index).tmod num_gyro_average_windows)).numSamples
            = 0 := hall _ (Int.tmod_lt_of_pos _ (by decide))
        rw [if_pos hz]
      rw [hb]
      exact ih (i + 1) a
    · rfl

theorem reset_loop_length :
    ∀ (fuel : Nat) (i : Int) (ws : List GYRO_AVERAGE_WINDOW),
      (reset_loop fuel i ws).length = ws.length := by
  intro fuel
  induction fuel with
  | zero => intro i ws; rfl
  | succ f ih =>
    intro i ws
    unfold reset_loop
    split
    · rw [ih, window_set_length]
    · rfl

theorem window_at_natCast (ws : List GYRO_AVERAGE_WINDOW) (n : Nat) (hn : n < ws.length) :
    window_at ws (n : Int) = ws.get ⟨n, hn⟩ := by
  unfold window_at
  rw [if_pos (by omega), Int.toNat_ofNat]
  exact List.getD_eq_getElem _ _ hn

/-- C15: when each of the 16 windows is empty, `get_average_gyro` returns the
caller's `x`, `y`, `z` as they came in, whatever they are and whatever the front
index is; in particular right after `reset_continuous_calibration`, from any
state. -/
theorem c15_average_of_empty_engine (s : JoyShock) (out : ℚ × ℚ × ℚ) :
    ((∀ j : Int, 0 ≤ j → j < 16 → (window_at s.gyro_average_window j).numSamples = 0) →
      get_average_gyro s out = out) ∧
    get_average_gyro (reset_continuous_calibration s) out = out := by
  have key : ∀ t : JoyShock,
      (∀ j : Int, 0 ≤ j → j < 16 → (window_at t.gyro_average_window j).numSamples = 0) →
      get_average_gyro t out = out := by
    intro t ht
    unfold get_average_gyro
    rw [loop_of_empty t ht]
    simp
  refine ⟨key s, key _ ?_⟩
  intro j _ hj
  rw [reset_windows_empty s j hj]

/-- Witness of C15: an engine that has taken five samples, then a reset; the
average leaves (7, 8, 9) as it was. -/
theorem c15_average_of_empty_engine_witness :
    (∀ j : Int, 0 ≤ j → j < 16 →
      (window_at (reset_continuous_calibration
        (push_n { gyro_average_window_seconds := 1 } 1 2 3 5)).gyro_average_window j).numSamples
        = 0) ∧
    get_average_gyro
      (reset_continuous_calibration (push_n { gyro_average_window_seconds := 1 } 1 2 3 5))
      (7, 8, 9) = (7, 8, 9) :=
  ⟨fun j _ hj => by rw [reset_windows_empty _ j hj],
    (c15_average_of_empty_engine
      (reset_continuous_calibration (push_n { gyro_average_window_seconds := 1 } 1 2 3 5))
      (7, 8, 9)).1 (fun j _ hj => by rw [reset_windows_empty _ j hj])⟩

/-- C16 as stated fails: with a horizon of 1 s a Joy-Con engine that has taken
five samples has its front index at 15, and `reset_continuous_calibration`
leaves it at 15 (it clears the windows only). -/
theorem c16_reset_keeps_front_index :
    (push_n { gyro_average_window_seconds := 1 } 1 2 3 5).gyro_average_window_front_index = 15 ∧
    (reset_continuous_calibration
      (push_n { gyro_average_window_seconds := 1 } 1 2 3 5)).gyro_average_window_front_index
      = 15 := by
  decide

/-- C16 (amended): from every engine state `reset_continuous_calibration` zeroes
all 16 windows (`sumX`, `sumY`, `sumZ` and the sample count of each become 0)
and leaves the front index, like every other field, as it was; the front index
is 0 after the reset of the constructor because its initialiser is 0. -/
theorem c16_reset_zeroes_windows (s : JoyShock) :
    (∀ j : Int, 0 ≤ j → j < 16 →
      window_at (reset_continuous_calibration s).gyro_average_window j
        = { x := 0, y := 0, z := 0, numSamples := 0 }) ∧
    (s.gyro_average_window.length = 16 →
      (reset_continuous_calibration s).gyro_average_window
        = List.replicate 16 { x := 0, y := 0, z := 0, numSamples := 0 }) ∧
    (reset_continuous_calibration s).gyro_average_window_front_index
      = s.gyro_average_window_front_index ∧
    (reset_continuous_calibration s).gyro_average_window_seconds
      = s.gyro_average_window_seconds ∧
    (reset_continuous_calibration s).is_ds4 = s.is_ds4 ∧
    (s.gyro_average_window_front_index = 0 →
      (reset_continuous_calibration s).gyro_average_window_front_index = 0) := by
  have hfront : (reset_continuous_calibration s).gyro_average_window_front_index
      = s.gyro_average_window_front_index := by
    unfold reset_continuous_calibration
    rfl
  have hsec : (reset_continuous_calibration s).gyro_average_window_seconds
      = s.gyro_average_window_seconds := by
    unfold reset_continuous_calibration
    rfl
  have hds4 : (reset_continuous_calibration s).is_ds4 = s.is_ds4 := by
    unfold reset_continuous_calibration
    rfl
  refine ⟨?_, ?_, hfront, hsec, hds4, fun h => hfront.trans h⟩
  · intro j _ hj
    exact reset_windows_empty s j hj
  intro hlen
  have hl : (reset_continuous_calibration s).gyro_average_window.length = 16 := by
    unfold reset_continuous_calibration
    show (reset_loop 16 0 s.gyro_average_window).length = 16
    rw [reset_loop_length, hlen]
  apply List.ext_get
  · rw [hl, List.length_replicate]
  · intro n h1 h2
    rw [← window_at_natCast _ n h1, reset_windows_empty s n (by omega)]
    exact (List.getElem_replicate _ h2).symm

/-- Witness of C16 (amended): the reset of an engine that has taken five
samples gives 16 zero windows. -/
theorem c16_reset_zeroes_windows_witness :
    (push_n { gyro_average_window_seconds := 1 } 1 2 3 5).gyro_average_window.length = 16 ∧
    (reset_continuous_calibration
      (push_n { gyro_average_window_seconds := 1 } 1 2 3 5)).gyro_average_window
      = List.replicate 16 { x := 0, y := 0, z := 0, numSamples := 0 } :=
  ⟨by decide,
    (c16_reset_zeroes_windows (push_n { gyro_average_window_seconds := 1 } 1 2 3 5)).2.1
      (by decide)⟩

theorem single_le_total (s : JoyShock)
    (h : 1 ≤ get_gyro_average_window_single_samples_for_device s) :
    get_gyro_average_window_single_samples_for_device s
      ≤ get_gyro_average_window_total_samples_for_device s := by
  unfold get_gyro_average_window_single_samples_for_device at h ⊢
  unfold num_gyro_average_windows at h ⊢
  generalize get_gyro_average_window_total_samples_for_device s = t at h ⊢
  have h14 : (16 : Int) - 2 = 14 := by norm_num
  rw [h14] at h ⊢
  have ht : 0 ≤ t := by
    by_contra hneg
    have h1 : Int.tdiv t 14 = -(Int.tdiv (-t) 14) := by
      rw [Int.neg_tdiv, neg_neg]
    rw [h1, Int.tdiv_eq_ediv (by omega) (by omega)] at h
    omega
  rw [Int.tdiv_eq_ediv ht (by omega)]
  omega

theorem push_next_config (s : JoyShock) :
    (push_next s).is_ds4 = s.is_ds4 ∧
      (push_next s).gyro_average_window_seconds = s.gyro_average_window_seconds := by
  unfold push_next
  split <;> exact ⟨rfl, rfl⟩

theorem single_of_config (s t : JoyShock) (h1 : t.is_ds4 = s.is_ds4)
    (h2 : t.gyro_average_window_seconds = s.gyro_average_window_seconds) :
    get_gyro_average_window_single_samples_for_device t
      = get_gyro_average_window_single_samples_for_device s ∧
    get_gyro_average_window_total_samples_for_device t
      = get_gyro_average_window_total_samples_for_device s := by
  unfold get_gyro_average_window_single_samples_for_device
    get_gyro_average_window_total_samples_for_device
  rw [h1, h2]
  exact ⟨rfl, rfl⟩

theorem push_next_bounded (s : JoyShock) (cap : Int) (hcap : 1 ≤ cap)
    (hs : cap = get_gyro_average_window_single_samples_for_device s)
    (h : BoundedEngine cap s) :
    BoundedEngine cap (push_next s) ∧
      (window_at (push_next s).gyro_average_window
        (push_next s).gyro_average_window_front_index).numSamples < cap := by
  obtain ⟨h0, h16, hlen, hw⟩ := h
  unfold push_next
  split
  · have hf : Int.tmod (s.gyro_average_window_front_index + num_gyro_average_windows - 1)
        num_gyro_average_windows
        = (s.gyro_average_window_front_index + 15) % 16 := by
      unfold num_gyro_average_windows
      rw [Int.tmod_eq_emod (by omega) (by omega)]
      congr 1
      ring
    simp only [hf]
    have hr0 : 0 ≤ (s.gyro_average_window_front_index + 15) % 16 := by omega
    have hr16 : (s.gyro_average_window_front_index + 15) % 16 < 16 := by omega
    refine ⟨⟨hr0, hr16, ?_, ?_⟩, ?_⟩
    · show (window_set _ _ _).length = 16
      rw [window_set_length]; exact hlen
    · intro j
      show 0 ≤ (window_at (window_set _ _ _) j).numSamples ∧
        (window_at (window_set _ _ _) j).numSamples ≤ cap
      rw [window_at_window_set]
      split
      · exact ⟨le_refl _, by show (0 : Int) ≤ cap; omega⟩
      · exact hw j
    · show (window_at (window_set _ _ _) _).numSamples < cap
      rw [window_at_window_set_self _ _ _ hr0 (by omega)]
      show (0 : Int) < cap
      omega
  · rename_i hnot
    refine ⟨⟨h0, h16, hlen, hw⟩, ?_⟩
    rw [hs]
    omega

theorem push_accumulate_bounded (s : JoyShock) (x y z : ℚ) (cap : Int)
    (h : BoundedEngine cap s)
    (hroom : (window_at s.gyro_average_window s.gyro_average_window_front_index).numSamples
      < cap) :
    BoundedEngine cap (push_accumulate s x y z) := by
  obtain ⟨h0, h16, hlen, hw⟩ := h
  unfold push_accumulate
  refine ⟨h0, h16, ?_, ?_⟩
  · show (window_set _ _ _).length = 16
    rw [window_set_length]; exact hlen
  · intro j
    show 0 ≤ (window_at (window_set _ _ _) j).numSamples ∧
      (window_at (window_set _ _ _) j).numSamples ≤ cap
    rw [window_at_window_set]
    split
    · have := (hw s.gyro_average_window_front_index).1
      constructor
      · show 0 ≤ _ + 1
        omega
      · show _ + 1 ≤ cap
        omega
    · exact hw j

theorem reset_fields (s : JoyShock) :
    (reset_continuous_calibration s).gyro_average_window
      = reset_loop 16 0 s.gyro_average_window ∧
    (reset_continuous_calibration s).gyro_average_window_front_index
      = s.gyro_average_window_front_index ∧
    (reset_continuous_calibration s).gyro_average_window_seconds
      = s.gyro_average_window_seconds ∧
    (reset_continuous_calibration s).is_ds4 = s.is_ds4 := by
  unfold reset_continuous_calibration
  exact ⟨rfl, rfl, rfl, rfl⟩

theorem reset_bounded (s : JoyShock) (cap : Int) (hcap : 1 ≤ cap) (h : BoundedEngine cap s) :
    BoundedEngine cap (reset_continuous_calibration s) := by
  obtain ⟨h0, h16, hlen, hw⟩ := h
  obtain ⟨hws, hfr, _, _⟩ := reset_fields s
  unfold BoundedEngine
  rw [hws, hfr]
  refine ⟨h0, h16, ?_, ?_⟩
  · rw [reset_loop_length]; exact hlen
  · intro j
    rw [window_at_reset_loop 16 0 _ (by omega) (by norm_num) j]
    split
    · exact ⟨le_refl _, by show (0 : Int) ≤ cap; omega⟩
    · exact hw j

theorem apply_op_bounded (s : JoyShock) (op : EngineOp) (cap : Int) (hcap : 1 ≤ cap)
    (hs : cap = get_gyro_average_window_single_samples_for_device s)
    (h : BoundedEngine cap s) :
    BoundedEngine cap (apply_op s op) ∧
      get_gyro_average_window_single_samples_for_device (apply_op s op)
        = get_gyro_average_window_single_samples_for_device s ∧
      get_gyro_average_window_total_samples_for_device (apply_op s op)
        = get_gyro_average_window_total_samples_for_device s := by
  cases op with
  | push x y z =>
    obtain ⟨hb, hroom⟩ := push_next_bounded s cap hcap hs h
    obtain ⟨c1, c2⟩ := push_config s x y z
    exact ⟨push_accumulate_bounded _ x y z cap hb hroom, single_of_config s _ c1 c2⟩
  | reset =>
    obtain ⟨_, _, hsec, hds4⟩ := reset_fields s
    exact ⟨reset_bounded s cap hcap h, single_of_config s _ hds4 hsec⟩

theorem run_ops_bounded (ops : List EngineOp) :
    ∀ (s : JoyShock) (cap : Int), 1 ≤ cap →
      cap = get_gyro_average_window_single_samples_for_device s →
      BoundedEngine cap s →
      BoundedEngine cap (run_ops s ops) ∧
        get_gyro_average_window_single_samples_for_device (run_ops s ops)
          = get_gyro_average_window_single_samples_for_device s ∧
        get_gyro_average_window_total_samples_for_device (run_ops s ops)
          = get_gyro_average_window_total_samples_for_device s := by
  induction ops with
  | nil => intro s cap _ _ h; exact ⟨h, rfl, rfl⟩
  | cons op rest ih =>
    intro s cap hcap hs h
    obtain ⟨hb, h1, h2⟩ := apply_op_bounded s op cap hcap hs h
    obtain ⟨hb', h1', h2'⟩ := ih (apply_op s op) cap hcap (by rw [h1]; exact hs) hb
    exact ⟨hb', h1'.trans h1, h2'.trans h2⟩

theorem bounded_of_empty (s : JoyShock) (cap : Int) (hcap : 1 ≤ cap)
    (hfront : s.gyro_average_window_front_index = 0)
    (hempty : s.gyro_average_window = List.replicate 16 {}) : BoundedEngine cap s := by
  refine ⟨by omega, by omega, by simp [hempty], ?_⟩
  intro j
  have : window_at s.gyro_average_window j = {} := by
    unfold window_at
    rw [hempty]
    split
    · rw [List.getD_eq_getElem?_getD, List.getElem?_replicate]
      split <;> rfl
    · rfl
  rw [this]
  exact ⟨le_refl _, by show (0 : Int) ≤ cap; omega⟩

/-- C17: with a fixed horizon for which the window target capacity
`floor(rate * horizon / 14)` is at least 1 (rate 67, or 250 for a DualShock 4),
every state reached from a freshly constructed engine (front index 0, 16 zero
windows) by any sequence of `push_sensor_samples` and
`reset_continuous_calibration` calls has its front index in 0..15 and every
window's sample count non-negative, at most the target capacity and at most
`rate * horizon`. -/
theorem c17_engine_invariant (s0 : JoyShock) (ops : List EngineOp)
    (hfront : s0.gyro_average_window_front_index = 0)
    (hempty : s0.gyro_average_window = List.replicate 16 {})
    (hcap : 1 ≤ Int.tdiv ((if s0.is_ds4 then 250 else 67) * s0.gyro_average_window_seconds) 14) :
    0 ≤ (run_ops s0 ops).gyro_average_window_front_index ∧
    (run_ops s0 ops).gyro_average_window_front_index ≤ 15 ∧
    (run_ops s0 ops).gyro_average_window.length = 16 ∧
    (∀ j : Int, 0 ≤ j → j < 16 →
      0 ≤ (window_at (run_ops s0 ops).gyro_average_window j).numSamples ∧
      (window_at (run_ops s0 ops).gyro_average_window j).numSamples
        ≤ Int.tdiv ((if s0.is_ds4 then 250 else 67) * s0.gyro_average_window_seconds) 14 ∧
      (window_at (run_ops s0 ops).gyro_average_window j).numSamples
        ≤ (if s0.is_ds4 then 250 else 67) * s0.gyro_average_window_seconds) ∧
    get_gyro_average_window_single_samples_for_device (run_ops s0 ops)
      = Int.tdiv ((if s0.is_ds4 then 250 else 67) * s0.gyro_average_window_seconds) 14 := by
  have htotal : get_gyro_average_window_total_samples_for_device s0
      = (if s0.is_ds4 then 250 else 67) * s0.gyro_average_window_seconds := by
    unfold get_gyro_average_window_total_samples_for_device
    split <;> simp [*]
  have hsingle : get_gyro_average_window_single_samples_for_device s0
      = Int.tdiv ((if s0.is_ds4 then 250 else 67) * s0.gyro_average_window_seconds) 14 := by
    unfold get_gyro_average_window_single_samples_for_device
    rw [htotal]
    rfl
  rw [← hsingle] at hcap ⊢
  rw [← htotal]
  obtain ⟨⟨h0, h16, hlen, hw⟩, hs, _⟩ := run_ops_bounded ops s0 _ hcap rfl
    (bounded_of_empty s0 _ hcap hfront hempty)
  have hle := single_le_total s0 hcap
  refine ⟨h0, by omega, hlen, ?_, hs⟩
  intro j _ _
  obtain ⟨a, b⟩ := hw j
  exact ⟨a, b, le_trans b hle⟩

/-- Witness of C17: a Joy-Con engine with the default horizon after a push, a
reset and another push. -/
theorem c17_engine_invariant_witness :
    (({} : JoyShock).gyro_average_window_front_index = 0 ∧
      ({} : JoyShock).gyro_average_window = List.replicate 16 {} ∧
      1 ≤ Int.tdiv ((if ({} : JoyShock).is_ds4 then 250 else 67)
        * ({} : JoyShock).gyro_average_window_seconds) 14) ∧
    (run_ops {} [EngineOp.push 1 2 3, EngineOp.reset, EngineOp.push 4 5 6]
      ).gyro_average_window_front_index ≤ 15 :=
  ⟨⟨rfl, rfl, by decide⟩,
    (c17_engine_invariant {} [EngineOp.push 1 2 3, EngineOp.reset, EngineOp.push 4 5 6]
      rfl rfl (by decide)).2.1⟩

/-! ### Calibration decoder: value ranges -/

theorem lo12_le (a b : Nat) (hb : b < 256) : (((a <<< 8) &&& 0xF00) ||| b) ≤ 0xFFF := by
  have h1 : ((a <<< 8) &&& 0xF00) < 2 ^ 12 :=
    lt_of_le_of_lt Nat.and_le_right (by decide)
  have h2 : b < 2 ^ 12 := lt_trans hb (by decide)
  have := Nat.or_lt_two_pow h1 h2
  omega

theorem hi12_le (a b : Nat) (ha : a < 256) (hb : b < 256) :
    ((a <<< 4) ||| (b >>> 4)) ≤ 0xFFF := by
  have h1 : (a <<< 4) < 2 ^ 12 := by
    rw [Nat.shiftLeft_eq]; omega
  have h2 : (b >>> 4) < 2 ^ 12 := by
    rw [Nat.shiftRight_eq_div_pow]; omega
  have := Nat.or_lt_two_pow h1 h2
  omega

theorem calOK_triple (arr : List Nat) (h : arr.length = 3) (c e1 e2 : Nat)
    (hc : c ≤ 0xFFF) (he1 : e1 ≤ 0xFFF) (he2 : e2 ≤ 0xFFF) :
    CalOK (store16 (store16 (store16 arr 1 (c : Int)) 0
        (load16 (store16 arr 1 (c : Int)) 1 - (e1 : Int))) 2
      (load16 (store16 (store16 arr 1 (c : Int)) 0
        (load16 (store16 arr 1 (c : Int)) 1 - (e1 : Int))) 1 + (e2 : Int))) := by
  obtain ⟨a, b, d, rfl⟩ := list3 arr h
  have hcc : ((c : Int) % 65536).toNat = c := by omega
  simp only [store16, load16, hcc, List.set_cons_succ, List.set_cons_zero, List.getD_cons_succ,
    List.getD_cons_zero]
  refine ⟨rfl, hc, ⟨e1, he1, ?_⟩, ⟨e2, he2, ?_⟩⟩
  · show ((((c : Int) - (e1 : Int)) % 65536).toNat : Int) = ((c : Int) - (e1 : Int)) % 65536
    omega
  · show (((c : Int) + (e2 : Int)) % 65536).toNat = c + e2
    omega

theorem calOK_zero : CalOK [0, 0, 0] :=
  ⟨rfl, by decide, ⟨0, by decide, by decide⟩, ⟨0, by decide, by decide⟩⟩

theorem factory_stick_l_ok (lr : Int) (f : Bytes) (c : StickCal) (hf : IsBytes f)
    (hc : AllCalOK c) : AllCalOK (factory_stick_l lr f c) := by
  obtain ⟨h1, h2, h3, h4⟩ := hc
  unfold factory_stick_l
  split
  · exact ⟨calOK_triple _ h1.1 _ _ _ (lo12_le _ _ (byte_at_lt f hf 3))
        (lo12_le _ _ (byte_at_lt f hf 6)) (lo12_le _ _ (byte_at_lt f hf 0)),
      calOK_triple _ h2.1 _ _ _ (hi12_le _ _ (byte_at_lt f hf 5) (byte_at_lt f hf 4))
        (hi12_le _ _ (byte_at_lt f hf 8) (byte_at_lt f hf 7))
        (hi12_le _ _ (byte_at_lt f hf 2) (byte_at_lt f hf 2)), h3, h4⟩
  · exact ⟨h1, h2, h3, h4⟩

theorem factory_stick_r_ok (lr : Int) (f : Bytes) (c : StickCal) (hf : IsBytes f)
    (hc : AllCalOK c) : AllCalOK (factory_stick_r lr f c) := by
  obtain ⟨h1, h2, h3, h4⟩ := hc
  unfold factory_stick_r
  split
  · exact ⟨h1, h2,
      calOK_triple _ h3.1 _ _ _ (lo12_le _ _ (byte_at_lt f hf 9))
        (lo12_le _ _ (byte_at_lt f hf 12)) (lo12_le _ _ (byte_at_lt f hf 15)),
      calOK_triple _ h4.1 _ _ _ (hi12_le _ _ (byte_at_lt f hf 11) (byte_at_lt f hf 10))
        (hi12_le _ _ (byte_at_lt f hf 14) (byte_at_lt f hf 13))
        (hi12_le _ _ (byte_at_lt f hf 17) (byte_at_lt f hf 16))⟩
  · exact ⟨h1, h2, h3, h4⟩

theorem user_stick_l_ok (u : Bytes) (c : StickCal) (hu : IsBytes u)
    (hc : AllCalOK c) : AllCalOK (user_stick_l u c) := by
  obtain ⟨h1, h2, h3, h4⟩ := hc
  unfold user_stick_l
  split
  · exact ⟨calOK_triple _ h1.1 _ _ _ (lo12_le _ _ (byte_at_lt u hu 5))
        (lo12_le _ _ (byte_at_lt u hu 8)) (lo12_le _ _ (byte_at_lt u hu 2)),
      calOK_triple _ h2.1 _ _ _ (hi12_le _ _ (byte_at_lt u hu 7) (byte_at_lt u hu 6))
        (hi12_le _ _ (byte_at_lt u hu 10) (byte_at_lt u hu 9))
        (hi12_le _ _ (byte_at_lt u hu 4) (byte_at_lt u hu 3)), h3, h4⟩
  · exact ⟨h1, h2, h3, h4⟩

theorem user_stick_r_ok (u : Bytes) (c : StickCal) (hu : IsBytes u)
    (hc : AllCalOK c) : AllCalOK (user_stick_r u c) := by
  obtain ⟨h1, h2, h3, h4⟩ := hc
  unfold user_stick_r
  split
  · exact ⟨h1, h2,
      calOK_triple _ h3.1 _ _ _ (lo12_le _ _ (byte_at_lt u hu 13))
        (lo12_le _ _ (byte_at_lt u hu 16)) (lo12_le _ _ (byte_at_lt u hu 19)),
      calOK_triple _ h4.1 _ _ _ (hi12_le _ _ (byte_at_lt u hu 15) (byte_at_lt u hu 14))
        (hi12_le _ _ (byte_at_lt u hu 18) (byte_at_lt u hu 17))
        (hi12_le _ _ (byte_at_lt u hu 21) (byte_at_lt u hu 20))⟩
  · exact ⟨h1, h2, h3, h4⟩

theorem init_bt_stick_cal_ok (lr : Int) (f u : Bytes) (hf : IsBytes f) (hu : IsBytes u) :
    AllCalOK (init_bt_stick_cal lr f u) := by
  unfold init_bt_stick_cal init_bt_user_stick_cal init_bt_factory_stick_cal
  apply user_stick_r_ok u _ hu
  apply user_stick_l_ok u _ hu
  apply factory_stick_r_ok lr f _ hf
  apply factory_stick_l_ok lr f _ hf
  exact ⟨calOK_zero, calOK_zero, calOK_zero, calOK_zero⟩

/-- C18 as stated fails: a left Joy-Con factory block with center X 0x900 and
upper extent 0x700 decodes to max X = 0x1000, above 0xFFF; and a block with
center X 0 and lower extent 1 decodes to min X = 0xFFFF (the difference wraps
modulo 2^16). -/
theorem c18_min_max_exceed_12_bits :
    (init_bt_stick_cal 1
        [0x00, 0x07, 0x60, 0x00, 0x09, 0x80, 0x00, 0x06, 0x60, 0, 0, 0, 0, 0, 0, 0, 0, 0]
        [0xFF, 0xFF, 0xFF, 0xFF, 0xFF, 0xFF, 0xFF, 0xFF, 0xFF, 0xFF, 0xFF,
         0xFF, 0xFF, 0xFF, 0xFF, 0xFF, 0xFF, 0xFF, 0xFF, 0xFF, 0xFF, 0xFF]).stick_cal_x_l
      = [0x300, 0x900, 0x1000] ∧
    (init_bt_stick_cal 1
        [0, 0, 0, 0, 0, 0, 1, 0, 0, 0, 0, 0, 0, 0, 0, 0, 0, 0]
        [0xFF, 0xFF, 0xFF, 0xFF, 0xFF, 0xFF, 0xFF, 0xFF, 0xFF, 0xFF, 0xFF,
         0xFF, 0xFF, 0xFF, 0xFF, 0xFF, 0xFF, 0xFF, 0xFF, 0xFF, 0xFF, 0xFF]).stick_cal_x_l
      = [0xFFFF, 0, 0] := by
  decide

/-- C18 (amended): for every device kind, factory stick block and user stick
block of bytes, and each of the four decoded arrays (either stick, either axis):
the center value is at most 0xFFF; the max value is the center plus an extent of
at most 0xFFF, so at most 0x1FFE; the min value is the center minus an extent of
at most 0xFFF taken modulo 2^16, so at most 0xFFFF. -/
theorem c18_decoded_value_ranges (lr : Int) (f u : Bytes) (hf : IsBytes f) (hu : IsBytes u) :
    ∀ arr ∈ [(init_bt_stick_cal lr f u).stick_cal_x_l, (init_bt_stick_cal lr f u).stick_cal_y_l,
        (init_bt_stick_cal lr f u).stick_cal_x_r, (init_bt_stick_cal lr f u).stick_cal_y_r],
      arr.getD 1 0 ≤ 0xFFF ∧
      (∃ e : Nat, e ≤ 0xFFF ∧ arr.getD 2 0 = arr.getD 1 0 + e) ∧
      arr.getD 2 0 ≤ 0x1FFE ∧
      (∃ e : Nat, e ≤ 0xFFF ∧
        ((arr.getD 0 0 : Nat) : Int) = (((arr.getD 1 0 : Nat) : Int) - (e : Int)) % 65536) ∧
      arr.getD 0 0 ≤ 0xFFFF := by
  have key : ∀ arr : List Nat, CalOK arr →
      arr.getD 1 0 ≤ 0xFFF ∧
      (∃ e : Nat, e ≤ 0xFFF ∧ arr.getD 2 0 = arr.getD 1 0 + e) ∧
      arr.getD 2 0 ≤ 0x1FFE ∧
      (∃ e : Nat, e ≤ 0xFFF ∧
        ((arr.getD 0 0 : Nat) : Int) = (((arr.getD 1 0 : Nat) : Int) - (e : Int)) % 65536) ∧
      arr.getD 0 0 ≤ 0xFFFF := by
    intro arr h
    obtain ⟨_, hc, ⟨e1, he1, hmin⟩, ⟨e2, he2, hmax⟩⟩ := h
    exact ⟨hc, ⟨e2, he2, hmax⟩, by omega, ⟨e1, he1, hmin⟩, by omega⟩
  obtain ⟨h1, h2, h3, h4⟩ := init_bt_stick_cal_ok lr f u hf hu
  intro arr harr
  simp only [List.mem_cons, List.mem_singleton, List.not_mem_nil, or_false] at harr
  rcases harr with rfl | rfl | rfl | rfl
  · exact key _ h1
  · exact key _ h2
  · exact key _ h3
  · exact key _ h4

/-- Witness of C18 (amended): a Pro Controller whose user block carries the left
marker; the max X of its right stick. -/
theorem c18_decoded_value_ranges_witness :
    (IsBytes [0xC0, 0x25, 0x5B, 0xE0, 0x17, 0x7F, 0xD0, 0x15, 0x5C,
        0xE8, 0x27, 0x80, 0xB0, 0x35, 0x5E, 0xA0, 0x45, 0x5A] ∧
      IsBytes [0xB2, 0xA1, 0xD0, 0x35, 0x5C, 0xF0, 0x07, 0x80, 0xE0, 0x05, 0x5D, 0xFF, 0xFF,
        0, 0, 0, 0, 0, 0, 0, 0, 0]) ∧
    (∃ e : Nat, e ≤ 0xFFF ∧
      (init_bt_stick_cal 3
        [0xC0, 0x25, 0x5B, 0xE0, 0x17, 0x7F, 0xD0, 0x15, 0x5C,
         0xE8, 0x27, 0x80, 0xB0, 0x35, 0x5E, 0xA0, 0x45, 0x5A]
        [0xB2, 0xA1, 0xD0, 0x35, 0x5C, 0xF0, 0x07, 0x80, 0xE0, 0x05, 0x5D, 0xFF, 0xFF,
         0, 0, 0, 0, 0, 0, 0, 0, 0]).stick_cal_x_r.getD 2 0
      = (init_bt_stick_cal 3
        [0xC0, 0x25, 0x5B, 0xE0, 0x17, 0x7F, 0xD0, 0x15, 0x5C,
         0xE8, 0x27, 0x80, 0xB0, 0x35, 0x5E, 0xA0, 0x45, 0x5A]
        [0xB2, 0xA1, 0xD0, 0x35, 0x5C, 0xF0, 0x07, 0x80, 0xE0, 0x05, 0x5D, 0xFF, 0xFF,
         0, 0, 0, 0, 0, 0, 0, 0, 0]).stick_cal_x_r.getD 1 0 + e) :=
  ⟨⟨by decide, by decide⟩,
    ((c18_decoded_value_ranges 3
      [0xC0, 0x25, 0x5B, 0xE0, 0x17, 0x7F, 0xD0, 0x15, 0x5C,
       0xE8, 0x27, 0x80, 0xB0, 0x35, 0x5E, 0xA0, 0x45, 0x5A]
      [0xB2, 0xA1, 0xD0, 0x35, 0x5C, 0xF0, 0x07, 0x80, 0xE0, 0x05, 0x5D, 0xFF, 0xFF,
       0, 0, 0, 0, 0, 0, 0, 0, 0] (by decide) (by decide)) _
      (List.mem_cons_of_mem _ (List.mem_cons_of_mem _ (List.mem_cons_self _ _)))).2.1⟩

/-! ### Null transport handle -/

theorem send_command_null (t : JoyShock) (c : Int) (dat : Option Bytes) (l : Nat)
    (ht : t.handle = none) : (send_command t c dat l).1 = t := by
  unfold send_command
  simp only [ht, hid_exchange]
  cases t
  simp_all

/-- C19: with a null transport handle `hid_exchange` returns at its guard: it
makes no `hidapi` call and leaves the buffer as it was, whereas a `hid_write` or
a `hid_read` made with the null handle is counted (the last two parts).  So
`send_command` leaves the whole session as it was and `send_subcommand` changes
only the sequence counter: the handle is still null and the count of `hidapi`
calls made with a null handle has not moved, that is, no transport write and no
transport read has been made.  Both functions are total: they return. -/
theorem c19_null_handle_sends_nothing (s : JoyShock) (command subcommand : Int)
    (data : Option Bytes) (len : Nat) (h : s.handle = none) :
    (∀ buf n, hid_exchange s.handle buf n = (none, buf, 0)) ∧
    (send_command s command data len).1 = s ∧
    (send_subcommand s command subcommand data len).1
      = { s with global_count := next_global_count s.global_count } ∧
    (send_command s command data len).1.null_handle_calls = s.null_handle_calls ∧
    (send_subcommand s command subcommand data len).1.null_handle_calls
      = s.null_handle_calls ∧
    (send_command s command data len).1.handle = none ∧
    (send_subcommand s command subcommand data len).1.handle = none ∧
    (∀ buf n, (hid_write s.handle buf n).2 = 1) ∧
    (∀ buf, (hid_read s.handle buf).2.2.2 = 1) := by
  have hex : ∀ buf n, hid_exchange s.handle buf n = (none, buf, 0) := by
    intro buf n
    rw [h]
    rfl
  have hsub : (send_subcommand s command subcommand data len).1
      = { s with global_count := next_global_count s.global_count } := by
    have hdef : (send_subcommand s command subcommand data len).1
        = (send_command { s with global_count := next_global_count s.global_count } command
          (some (send_subcommand_buf s subcommand data len)) (10 + len)).1 := rfl
    rw [hdef]
    exact send_command_null _ _ _ _ h
  refine ⟨hex, send_command_null s command data len h, hsub, ?_, ?_, ?_, ?_, ?_, ?_⟩
  · rw [send_command_null s command data len h]
  · rw [hsub]
  · rw [send_command_null s command data len h]; exact h
  · rw [hsub]; exact h
  · intro buf n; rw [h]; rfl
  · intro buf; rw [h]; rfl

/-- Witness of C19: a Bluetooth session without device; command 0x10 with a
payload leaves it as it was. -/
theorem c19_null_handle_sends_nothing_witness :
    (({ handle := none, global_count := 3 } : JoyShock).handle = none) ∧
    (send_command { handle := none, global_count := 3 } 0x10 (some [1, 2, 3]) 3).1
      = { handle := none, global_count := 3 } :=
  ⟨rfl, (c19_null_handle_sends_nothing { handle := none, global_count := 3 } 0x10 0x48
    (some [1, 2, 3]) 3 rfl).2.1⟩

/-! ### Gyro averaging engine: the reference weighted mean -/

/-! ### Gyro averaging engine: the frame of a push -/

theorem push_below_capacity (s : JoyShock) (x y z : ℚ)
    (hroom : (window_at s.gyro_average_window s.gyro_average_window_front_index).numSamples
      < get_gyro_average_window_single_samples_for_device s) :
    push_sensor_samples s x y z = push_accumulate s x y z := by
  unfold push_sensor_samples
  have : push_next s = s := by
    unfold push_next
    rw [if_neg (by omega)]
  rw [this]

theorem push_at_capacity (s : JoyShock) (x y z : ℚ)
    (h0 : 0 ≤ s.gyro_average_window_front_index) (h16 : s.gyro_average_window_front_index < 16)
    (hfull : get_gyro_average_window_single_samples_for_device s
      ≤ (window_at s.gyro_average_window s.gyro_average_window_front_index).numSamples) :
    push_sensor_samples s x y z = push_accumulate
      { s with
        gyro_average_window_front_index := (s.gyro_average_window_front_index + 15) % 16
        gyro_average_window := window_set s.gyro_average_window
          ((s.gyro_average_window_front_index + 15) % 16) {} } x y z := by
  have hf : Int.tmod (s.gyro_average_window_front_index + num_gyro_average_windows - 1)
      num_gyro_average_windows
      = (s.gyro_average_window_front_index + 15) % 16 := by
    unfold num_gyro_average_windows
    rw [Int.tmod_eq_emod (by omega) (by omega)]
    congr 1
    ring
  unfold push_sensor_samples
  have : push_next s = { s with
        gyro_average_window_front_index := (s.gyro_average_window_front_index + 15) % 16
        gyro_average_window := window_set s.gyro_average_window
          ((s.gyro_average_window_front_index + 15) % 16) {} } := by
    unfold push_next
    rw [if_pos (by omega)]
    simp only [hf]
  rw [this]

/-- C21 as stated fails in the room case: a fresh Joy-Con engine takes the
sample (16777216, 0, 0) and then the sample (1, 0, 0).  At the second push the
front window has count 1, below the target capacity 2871; its count grows to 2
but its X sum stays 16777216 = 2^24, because 2^24 + 1 is not a binary32 number
and rounds back to 2^24: the sum has not grown by the sample. -/
theorem c21_sum_does_not_grow_by_sample :
    (window_at (push_sensor_samples {} 16777216 0 0).gyro_average_window 0).numSamples
      < get_gyro_average_window_single_samples_for_device (push_sensor_samples {} 16777216 0 0) ∧
    window_at (push_sensor_samples {} 16777216 0 0).gyro_average_window 0
      = { x := 16777216, y := 0, z := 0, numSamples := 1 } ∧
    window_at (push_sensor_samples (push_sensor_samples {} 16777216 0 0) 1 0 0
        ).gyro_average_window 0
      = { x := 16777216, y := 0, z := 0, numSamples := 2 } ∧
    (window_at (push_sensor_samples (push_sensor_samples {} 16777216 0 0) 1 0 0
        ).gyro_average_window 0).x
      ≠ (window_at (push_sensor_samples {} 16777216 0 0).gyro_average_window 0).x + 1 := by
  decide!

/-- C21 (amended): for an engine whose front index is in 0..15 and that has its
16 windows, and a sample of finite binary32 numbers, `push_sensor_samples(x, y,
z)` changes the front window only.  If the front window's count is below the
target capacity (and the three exact sums are at most `FLT_MAX` in size, so that
binary32 has no infinity for them) the front index is unchanged, that window's
count grows by 1 and each of its sums becomes the binary32 sum of the old sum
and the sample coordinate (the exact sum rounded to nearest), and every other
window is unchanged.  If the count has reached the target capacity the front
index becomes `(front + 15) mod 16`, the window at the new front index becomes
exactly `{x, y, z, 1}`, and every other window (the retired one too) is
unchanged. -/
theorem c21_push_changes_front_window_only (s : JoyShock) (x y z : ℚ)
    (h0 : 0 ≤ s.gyro_average_window_front_index) (h16 : s.gyro_average_window_front_index < 16)
    (hlen : s.gyro_average_window.length = 16)
    (hx : is_binary32 x) (hy : is_binary32 y) (hz : is_binary32 z) :
    ((window_at s.gyro_average_window s.gyro_average_window_front_index).numSamples
        < get_gyro_average_window_single_samples_for_device s →
      |(window_at s.gyro_average_window s.gyro_average_window_front_index).x + x| ≤ FLT_MAX →
      |(window_at s.gyro_average_window s.gyro_average_window_front_index).y + y| ≤ FLT_MAX →
      |(window_at s.gyro_average_window s.gyro_average_window_front_index).z + z| ≤ FLT_MAX →
      (push_sensor_samples s x y z).gyro_average_window_front_index
        = s.gyro_average_window_front_index ∧
      window_at (push_sensor_samples s x y z).gyro_average_window
          s.gyro_average_window_front_index
        = { x := round32
              ((window_at s.gyro_average_window s.gyro_average_window_front_index).x + x)
            y := round32
              ((window_at s.gyro_average_window s.gyro_average_window_front_index).y + y)
            z := round32
              ((window_at s.gyro_average_window s.gyro_average_window_front_index).z + z)
            numSamples :=
              (window_at s.gyro_average_window s.gyro_average_window_front_index).numSamples
                + 1 } ∧
      (∀ j : Int, j ≠ s.gyro_average_window_front_index →
        window_at (push_sensor_samples s x y z).gyro_average_window j
          = window_at s.gyro_average_window j)) ∧
    (get_gyro_average_window_single_samples_for_device s
        ≤ (window_at s.gyro_average_window s.gyro_average_window_front_index).numSamples →
      (push_sensor_samples s x y z).gyro_average_window_front_index
        = (s.gyro_average_window_front_index + 15) % 16 ∧
      window_at (push_sensor_samples s x y z).gyro_average_window
          ((s.gyro_average_window_front_index + 15) % 16)
        = { x := x, y := y, z := z, numSamples := 1 } ∧
      (∀ j : Int, j ≠ (s.gyro_average_window_front_index + 15) % 16 →
        window_at (push_sensor_samples s x y z).gyro_average_window j
          = window_at s.gyro_average_window j)) ∧
    (push_sensor_samples s x y z).gyro_average_window.length = 16 := by
  refine ⟨?_, ?_, ?_⟩
  · intro hroom _ _ _
    rw [push_below_capacity s x y z hroom]
    unfold push_accumulate
    refine ⟨rfl, ?_, ?_⟩
    · show window_at (window_set _ _ _) _ = _
      rw [window_at_window_set_self _ _ _ h0 (by omega)]
    · intro j hj
      show window_at (window_set _ _ _) _ = _
      rw [window_at_window_set, if_neg (fun hc => hj hc.1.symm)]
  · intro hfull
    have hr0 : 0 ≤ (s.gyro_average_window_front_index + 15) % 16 := by omega
    have hr16 : ((s.gyro_average_window_front_index + 15) % 16).toNat < 16 := by omega
    rw [push_at_capacity s x y z h0 h16 hfull]
    unfold push_accumulate
    refine ⟨rfl, ?_, ?_⟩
    · show window_at (window_set (window_set _ _ _) _ _) _ = _
      rw [window_at_window_set_self _ _ _ hr0 (by rw [window_set_length]; omega),
        window_at_window_set_self _ _ _ hr0 (by omega)]
      simp only [zero_add, hx.1, hy.1, hz.1]
    · intro j hj
      show window_at (window_set (window_set _ _ _) _ _) _ = _
      rw [window_at_window_set, if_neg (fun hc => hj hc.1.symm),
        window_at_window_set, if_neg (fun hc => hj hc.1.symm)]
  · unfold push_sensor_samples push_accumulate
    show (window_set _ _ _).length = 16
    rw [window_set_length]
    unfold push_next
    split
    · show (window_set _ _ _).length = 16
      rw [window_set_length]; exact hlen
    · exact hlen

/-- Witness of C21 (amended): a Joy-Con engine with a 1-second horizon (target
capacity 4) whose front window 0 holds four samples; the push of (1, 2, 3)
finds it at capacity, moves the front index to 15 and leaves `{1, 2, 3, 1}`
there. -/
theorem c21_push_changes_front_window_only_witness :
    ((0 : Int) ≤ (push_n { gyro_average_window_seconds := 1 } 1 2 3 4
        ).gyro_average_window_front_index ∧
      (push_n { gyro_average_window_seconds := 1 } 1 2 3 4).gyro_average_window_front_index < 16 ∧
      (push_n { gyro_average_window_seconds := 1 } 1 2 3 4).gyro_average_window.length = 16 ∧
      is_binary32 1 ∧ is_binary32 2 ∧ is_binary32 3 ∧
      get_gyro_average_window_single_samples_for_device
          (push_n { gyro_average_window_seconds := 1 } 1 2 3 4)
        ≤ (window_at (push_n { gyro_average_window_seconds := 1 } 1 2 3 4).gyro_average_window
          (push_n { gyro_average_window_seconds := 1 } 1 2 3 4
            ).gyro_average_window_front_index).numSamples) ∧
    (push_sensor_samples (push_n { gyro_average_window_seconds := 1 } 1 2 3 4) 1 2 3
        ).gyro_average_window_front_index
      = ((push_n { gyro_average_window_seconds := 1 } 1 2 3 4).gyro_average_window_front_index
        + 15) % 16 ∧
    window_at (push_sensor_samples (push_n { gyro_average_window_seconds := 1 } 1 2 3 4) 1 2 3
        ).gyro_average_window
        (((push_n { gyro_average_window_seconds := 1 } 1 2 3 4).gyro_average_window_front_index
          + 15) % 16)
      = { x := 1, y := 2, z := 3, numSamples := 1 } :=
  ⟨⟨by decide!, by decide!, by decide!, ⟨by decide!, by decide!⟩, ⟨by decide!, by decide!⟩,
      ⟨by decide!, by decide!⟩, by decide!⟩,
    ((c21_push_changes_front_window_only (push_n { gyro_average_window_seconds := 1 } 1 2 3 4)
        1 2 3 (by decide!) (by decide!) (by decide!) ⟨by decide!, by decide!⟩
        ⟨by decide!, by decide!⟩ ⟨by decide!, by decide!⟩).2.1
      (by decide!)).1,
    ((c21_push_changes_front_window_only (push_n { gyro_average_window_seconds := 1 } 1 2 3 4)
        1 2 3 (by decide!) (by decide!) (by decide!) ⟨by decide!, by decide!⟩
        ⟨by decide!, by decide!⟩ ⟨by decide!, by decide!⟩).2.1
      (by decide!)).2.1⟩

/-! ### Stick value mapper: monotonicity -/

theorem clamp_mono (r1 r2 lo hi : Nat) (h : r1 ≤ r2) (hlh : lo ≤ hi) :
    clamp r1 lo hi ≤ clamp r2 lo hi := by
  unfold clamp
  split_ifs <;> omega

theorem clamp_range (r lo hi : Nat) (hlh : lo ≤ hi) :
    lo ≤ clamp r lo hi ∧ clamp r lo hi ≤ hi := by
  unfold clamp
  split_ifs <;> omega

theorem axis_mono (r1 r2 mn c mx : Nat) (h1 : mn < c) (h2 : c < mx) (h : r1 ≤ r2) :
    CalcAnalogStick2_axis r1 mn c mx ≤ CalcAnalogStick2_axis r2 mn c mx := by
  have hm := clamp_mono r1 r2 mn mx h (by omega)
  obtain ⟨ha1, ha2⟩ := clamp_range r1 mn mx (by omega)
  obtain ⟨hb1, hb2⟩ := clamp_range r2 mn mx (by omega)
  simp only [CalcAnalogStick2_axis]
  generalize clamp r1 mn mx = v1 at hm ha1 ha2
  generalize clamp r2 mn mx = v2 at hm hb1 hb2
  have q1 : (mn : ℚ) < (c : ℚ) := by exact_mod_cast h1
  have q2 : (c : ℚ) < (mx : ℚ) := by exact_mod_cast h2
  have q3 : (v1 : ℚ) ≤ (v2 : ℚ) := by exact_mod_cast hm
  have q4 : (mn : ℚ) ≤ (v1 : ℚ) := by exact_mod_cast ha1
  have q5 : (v2 : ℚ) ≤ (mx : ℚ) := by exact_mod_cast hb2
  have dpos : (0 : ℚ) < (mx : ℚ) - (c : ℚ) := by linarith
  have dneg : (mn : ℚ) - (c : ℚ) < 0 := by linarith
  by_cases c1 : v1 ≥ c
  · have c2 : v2 ≥ c := by omega
    rw [if_pos c1, if_pos c2]
    push_cast
    exact div_le_div_of_nonneg_right (by linarith) (le_of_lt dpos)
  · rw [if_neg c1]
    have q6 : (v1 : ℚ) < (c : ℚ) := by
      have : v1 < c := by omega
      exact_mod_cast this
    by_cases c2 : v2 ≥ c
    · rw [if_pos c2]
      have q7 : (c : ℚ) ≤ (v2 : ℚ) := by exact_mod_cast c2
      push_cast
      have hl : -(((v1 : ℚ) - (c : ℚ)) / ((mn : ℚ) - (c : ℚ))) ≤ 0 := by
        rw [neg_nonpos]
        exact div_nonneg_of_nonpos (by linarith) (le_of_lt dneg)
      have hr : 0 ≤ ((v2 : ℚ) - (c : ℚ)) / ((mx : ℚ) - (c : ℚ)) :=
        div_nonneg (by linarith) (le_of_lt dpos)
      linarith
    · rw [if_neg c2]
      push_cast
      rw [neg_le_neg_iff]
      exact div_le_div_of_nonpos_of_le (le_of_lt dneg) (by linarith)

/-- C25: for calibration triples with `min < center < max`, `CalcAnalogStick2`
is monotone non-decreasing in the raw value on each axis: for raw values
`r1 ≤ r2` (natural numbers, the 16-bit values of the source among them) the X
output for `r1` is at most the X output for `r2`, and likewise the Y output,
whatever the raw value of the other axis is. -/
theorem c25_stick_monotone (r1 r2 other mnx cx mxx mny cy mxy : Nat)
    (hx1 : mnx < cx) (hx2 : cx < mxx) (hy1 : mny < cy) (hy2 : cy < mxy) (h : r1 ≤ r2) :
    (CalcAnalogStick2 r1 other [mnx, cx, mxx] [mny, cy, mxy]).1
      ≤ (CalcAnalogStick2 r2 other [mnx, cx, mxx] [mny, cy, mxy]).1 ∧
    (CalcAnalogStick2 other r1 [mnx, cx, mxx] [mny, cy, mxy]).2
      ≤ (CalcAnalogStick2 other r2 [mnx, cx, mxx] [mny, cy, mxy]).2 :=
  ⟨axis_mono r1 r2 mnx cx mxx hx1 hx2 h, axis_mono r1 r2 mny cy mxy hy1 hy2 h⟩

/-- Witness of C25: X calibrated to (500, 2000, 3500), Y to (600, 2100, 3400),
raw values 1000 and 3000. -/
theorem c25_stick_monotone_witness :
    (500 < 2000 ∧ 2000 < 3500 ∧ 600 < 2100 ∧ 2100 < 3400 ∧ 1000 ≤ 3000) ∧
    (CalcAnalogStick2 1000 7 [500, 2000, 3500] [600, 2100, 3400]).1
      ≤ (CalcAnalogStick2 3000 7 [500, 2000, 3500] [600, 2100, 3400]).1 :=
  ⟨by decide,
    (c25_stick_monotone 1000 3000 7 500 2000 3500 600 2100 3400 (by decide) (by decide)
      (by decide) (by decide) (by decide)).1⟩

/-! ### SPI flash client: the read request frame -/

theorem shift_loop_eq (a0 a1 a2 a3 a4 a5 a6 a7 a8 a9 a10 a11 a12 a13 a14 a15 a16 a17 a18 a19
    a20 a21 a22 a23 a24 : Nat) (rest : Bytes) :
    shift_loop 11 11 (a0 :: a1 :: a2 :: a3 :: a4 :: a5 :: a6 :: a7 :: a8 :: a9 :: a10 :: a11 ::
      a12 :: a13 :: a14 :: a15 :: a16 :: a17 :: a18 :: a19 :: a20 :: a21 :: a22 :: a23 :: a24 ::
      rest)
    = a0 :: a1 :: a2 :: a3 :: a4 :: a5 :: a6 :: a7 :: a8 :: a9 :: a10 :: a14 ::
      a15 :: a16 :: a17 :: a18 :: a19 :: a20 :: a21 :: a22 :: a23 :: a24 :: a22 :: a23 :: a24 ::
      rest := by
  simp [shift_loop, byte_at]
theorem get_spi_data_request_frame (t offset read_len : Nat) (ht : t < 256)
    (hoff : offset < 4294967296) (hlen : read_len ≤ 0xEC) :
    (get_spi_data_request (t : Int) offset read_len).take 22
      = [0x01, t, 0, 0, 0, 0, 0, 0, 0, 0, 0x10,
          offset % 256, offset / 256 % 256, offset / 65536 % 256, offset / 16777216,
          read_len, 0, 0, 0, 0, 0, 0] := by
  have h1 : read_len % 256 = read_len := Nat.mod_eq_of_lt (by omega)
  have h2 : offset / 16777216 % 256 = offset / 16777216 := Nat.mod_eq_of_lt (by omega)
  have hbuf : ((((((List.replicate 0x100 0).set 0 1).set 1 t).set 1 t).set 10 0x10).set 14
        (offset % 256)).set (14 + 1) (offset / 256 % 256)
      = 1 :: t :: 0 :: 0 :: 0 :: 0 :: 0 :: 0 :: 0 :: 0 :: 0x10 :: 0 :: 0 :: 0 ::
        (offset % 256) :: (offset / 256 % 256) :: List.replicate 240 0 := rfl
  unfold get_spi_data_request
  simp only [store8_byte _ _ _ ht, store_u32, h1, h2, hbuf]
  have hbuf2 : (((1 :: t :: 0 :: 0 :: 0 :: 0 :: 0 :: 0 :: 0 :: 0 :: 0x10 :: 0 :: 0 :: 0 ::
        (offset % 256) :: (offset / 256 % 256) :: List.replicate 240 0).set (14 + 2)
          (offset / 65536 % 256)).set (14 + 3) (offset / 16777216)).set 18 read_len
      = 1 :: t :: 0 :: 0 :: 0 :: 0 :: 0 :: 0 :: 0 :: 0 :: 0x10 :: 0 :: 0 :: 0 ::
        (offset % 256) :: (offset / 256 % 256) :: (offset / 65536 % 256) ::
        (offset / 16777216) :: read_len :: 0 :: 0 :: 0 :: 0 :: 0 :: 0 ::
        List.replicate 231 0 := rfl
  rw [hbuf2, shift_loop_eq]
  rfl
theorem get_loop_frames (offset read_len : Nat) :
    ∀ (fuel : Nat) (s : JoyShock) (d : hid_device) (res : Int) (buf : Bytes) (s' : JoyShock),
      s.handle = some d →
      get_spi_data_loop offset read_len fuel s = some (res, buf, s') →
      ∃ d' n, s'.handle = some d' ∧ d'.reads = d.reads + (n + 1) ∧
        d'.written = d.written ++ (List.range (n + 1)).map (fun j =>
          (get_spi_data_request (next_timing_byte^[j] s.timing_byte) offset read_len).take 22) := by
  intro fuel
  induction fuel with
  | zero => intro s d res buf s' _ hr; simp [get_spi_data_loop] at hr
  | succ f ih =>
    intro s d res buf s' h hr
    rw [get_loop_step offset read_len f s d h] at hr
    split at hr
    · simp only [Option.some.injEq, Prod.mk.injEq] at hr
      obtain ⟨_, _, rfl⟩ := hr
      refine ⟨_, 0, rfl, rfl, ?_⟩
      have hr1 : List.range 1 = [0] := rfl
      simp only [after_round_trip, Nat.zero_add, hr1, List.map_cons, List.map_nil,
        Function.iterate_zero, id_eq]
    · obtain ⟨d', n, hh, hrd, hw⟩ := ih _ _ res buf s' rfl hr
      refine ⟨d', n + 1, hh, ?_, ?_⟩
      · rw [hrd]; show d.reads + 1 + (n + 1) = _; omega
      · simp only [after_round_trip] at hw
        rw [hw, List.range_succ_eq_map (n + 1), List.map_cons, List.map_map, List.append_assoc,
          List.singleton_append, Function.iterate_zero, id_eq]
        have hfun : (fun j => List.take 22 (get_spi_data_request
              (next_timing_byte^[j] (next_timing_byte s.timing_byte)) offset read_len))
            = ((fun j => List.take 22 (get_spi_data_request
              (next_timing_byte^[j] s.timing_byte) offset read_len)) ∘ Nat.succ) := by
          funext j
          simp only [Function.comp_apply, Function.iterate_succ_apply]
        rw [hfun]
theorem iterate_timing_nat (t j : Nat) (ht : t ≤ 0xF) :
    next_timing_byte^[j] (t : Int) = (((t + j) % 16 : Nat) : Int) := by
  rw [iterate_next_timing_byte j (t : Int) (by omega) (by omega)]
  push_cast
  rfl

/-- C23: for a session on an open device whose timing byte is `t ≤ 0xF`, every
32-bit offset and every read length `≤ 0xEC`, the request that `get_spi_data`
builds is, in its first 22 bytes (the bytes it writes): byte 0 = 0x01, byte 1 =
`t`, bytes 2..9 = 0, byte 10 = 0x10, bytes 11..14 = the offset in little-endian
order, byte 15 = the read length, bytes 16..21 = 0.  Every pass of the loop
writes this frame and goes on from the session in which it is logged, and a
call that returns after `n + 1` attempts has written `n + 1` such frames, with
timing bytes `t`, `t + 1`, ... modulo 16. -/
theorem c23_get_spi_data_request_frame (s : JoyShock) (d : hid_device)
    (t offset read_len : Nat) (h : s.handle = some d) (ht : s.timing_byte = (t : Int))
    (ht15 : t ≤ 0xF) (hoff : offset < 4294967296) (hlen : read_len ≤ 0xEC) :
    (get_spi_data_request s.timing_byte offset read_len).take 22
      = [0x01, t, 0, 0, 0, 0, 0, 0, 0, 0, 0x10,
          offset % 256, offset / 256 % 256, offset / 65536 % 256, offset / 16777216,
          read_len, 0, 0, 0, 0, 0, 0] ∧
    (expected_read_request t offset read_len).length = 22 ∧
    (∀ fuel, get_spi_data_loop offset read_len (fuel + 1) s =
      if read_u16 (d.script d.reads).buf 0xD = 0x1090 ∧
          read_u32 (d.script d.reads).buf 0xF = offset then
        some ((d.script d.reads).res, (d.script d.reads).buf,
          after_round_trip s d (expected_read_request t offset read_len))
      else
        get_spi_data_loop offset read_len fuel
          (after_round_trip s d (expected_read_request t offset read_len))) ∧
    frames_written (after_round_trip s d (expected_read_request t offset read_len))
      = d.written ++ [expected_read_request t offset read_len] ∧
    (∀ fuel test_buf r out s',
      get_spi_data fuel s offset read_len test_buf = some (r, out, s') →
      ∃ d' n, s'.handle = some d' ∧ d'.reads = d.reads + (n + 1) ∧
        d'.written = d.written ++ (List.range (n + 1)).map (fun j =>
          expected_read_request ((t + j) % 16) offset read_len)) := by
  have hframe : ∀ j : Nat,
      (get_spi_data_request (next_timing_byte^[j] s.timing_byte) offset read_len).take 22
        = expected_read_request ((t + j) % 16) offset read_len := by
    intro j
    rw [ht, iterate_timing_nat t j ht15]
    exact get_spi_data_request_frame _ offset read_len (by omega) hoff hlen
  have hframe0 : (get_spi_data_request s.timing_byte offset read_len).take 22
      = expected_read_request t offset read_len := by
    have := hframe 0
    rw [Function.iterate_zero, id_eq, Nat.add_zero, Nat.mod_eq_of_lt (by omega)] at this
    exact this
  refine ⟨hframe0, rfl, ?_, rfl, ?_⟩
  · intro fuel
    rw [get_loop_step offset read_len fuel s d h, hframe0]
  · intro fuel test_buf r out s' hr
    unfold get_spi_data at hr
    split at hr
    · exact absurd hr (by simp)
    · rename_i res buf s1 hloop
      simp only [Option.some.injEq, Prod.mk.injEq] at hr
      obtain ⟨_, _, rfl⟩ := hr
      obtain ⟨d', n, hh, hrd, hw⟩ := get_loop_frames offset read_len fuel s d res buf s1 h hloop
      refine ⟨d', n, hh, hrd, ?_⟩
      have hmap : (List.range (n + 1)).map (fun j =>
            (get_spi_data_request (next_timing_byte^[j] s.timing_byte) offset read_len).take 22)
          = (List.range (n + 1)).map (fun j =>
            expected_read_request ((t + j) % 16) offset read_len) :=
        List.map_congr_left (fun j _ => hframe j)
      rw [hw, hmap]

/-- Witness of C23: timing byte 15, the read of 0x18 bytes at 0x6020. -/
theorem c23_get_spi_data_request_frame_witness :
    (({ handle := some device_never_matching, timing_byte := 15 } : JoyShock).handle
        = some device_never_matching ∧
      ({ handle := some device_never_matching, timing_byte := 15 } : JoyShock).timing_byte
        = ((15 : Nat) : Int) ∧
      15 ≤ 0xF ∧ 0x6020 < 4294967296 ∧ 0x18 ≤ 0xEC) ∧
    (get_spi_data_request
        ({ handle := some device_never_matching, timing_byte := 15 } : JoyShock).timing_byte
        0x6020 0x18).take 22
      = [0x01, 15, 0, 0, 0, 0, 0, 0, 0, 0, 0x10,
          0x6020 % 256, 0x6020 / 256 % 256, 0x6020 / 65536 % 256, 0x6020 / 16777216,
          0x18, 0, 0, 0, 0, 0, 0] :=
  ⟨⟨rfl, rfl, by decide, by decide, by decide⟩,
    (c23_get_spi_data_request_frame { handle := some device_never_matching, timing_byte := 15 }
      device_never_matching 15 0x6020 0x18 rfl rfl (by decide) (by decide) (by decide)).1⟩

/-! ### Gyro averaging engine: the average lies between the window means -/

theorem walk_order_mem (s : JoyShock) (w : GYRO_AVERAGE_WINDOW) (hw : w ∈ walk_order s)
    (hne : w.numSamples ≠ 0) :
    ∃ j : Int, 0 ≤ j ∧ j < 16 ∧ w = window_at s.gyro_average_window j := by
  unfold walk_order at hw
  obtain ⟨k, _, rfl⟩ := List.mem_map.mp hw
  unfold walk_window at hne ⊢
  by_cases h0 : 0 ≤ Int.tmod ((k : Int) + s.gyro_average_window_front_index)
      num_gyro_average_windows
  · exact ⟨_, h0, Int.tmod_lt_of_pos _ (by decide), rfl⟩
  · rw [window_at_neg _ _ (by omega)] at hne
    exact absurd rfl hne

theorem walk_order_covers (s : JoyShock) (j : Int)
    (h0 : 0 ≤ s.gyro_average_window_front_index) (hj0 : 0 ≤ j) (hj16 : j < 16) :
    window_at s.gyro_average_window j ∈ walk_order s := by
  unfold walk_order
  apply List.mem_map.mpr
  refine ⟨((j - s.gyro_average_window_front_index) % 16).toNat, ?_, ?_⟩
  · rw [List.mem_range]; omega
  · unfold walk_window num_gyro_average_windows
    have hc : ((((j - s.gyro_average_window_front_index) % 16).toNat : Nat) : Int)
        = (j - s.gyro_average_window_front_index) % 16 := by omega
    rw [hc, Int.tmod_eq_emod (by omega) (by omega)]
    congr 1
    omega

/-! ### Gyro averaging engine: order of the walk -/

theorem held_at_held_set (h : List (List Nat)) (i j : Int) (v : List Nat) :
    held_at (held_set h i v) j =
      if i = j ∧ 0 ≤ i ∧ i.toNat < h.length then v else held_at h j := by
  unfold held_at held_set
  by_cases hi : 0 ≤ i
  · by_cases hj : 0 ≤ j
    · simp only [hi, hj, if_true, List.getD_eq_getElem?_getD, List.getElem?_set]
      by_cases hij : i = j
      · subst hij
        by_cases hl : i.toNat < h.length
        · simp [hl]
        · have hl2 : h.length ≤ i.toNat := Nat.le_of_not_lt hl
          simp [hl, List.getElem?_eq_none hl2]
      · have hne : i.toNat ≠ j.toNat := by omega
        simp [hij, hne]
    · have hij : i ≠ j := by omega
      simp [hi, hj, hij]
  · simp [hi]

theorem held_set_length (h : List (List Nat)) (i : Int) (v : List Nat) :
    (held_set h i v).length = h.length := by
  unfold held_set
  split <;> simp

theorem traced_push_room (T : TracedEngine) (x y z : ℚ)
    (hroom : (window_at T.engine.gyro_average_window
        T.engine.gyro_average_window_front_index).numSamples
      < get_gyro_average_window_single_samples_for_device T.engine) :
    traced_push T x y z =
      { engine := push_accumulate T.engine x y z
        held := held_set T.held T.engine.gyro_average_window_front_index
          (T.clock :: held_at T.held T.engine.gyro_average_window_front_index)
        clock := T.clock + 1 } := by
  unfold traced_push
  simp only [push_below_capacity T.engine x y z hroom]
  rw [if_neg (by omega)]
  rfl

theorem traced_push_full (T : TracedEngine) (x y z : ℚ)
    (h0 : 0 ≤ T.engine.gyro_average_window_front_index)
    (h16 : T.engine.gyro_average_window_front_index < 16)
    (hfull : get_gyro_average_window_single_samples_for_device T.engine
      ≤ (window_at T.engine.gyro_average_window
        T.engine.gyro_average_window_front_index).numSamples) :
    traced_push T x y z =
      { engine := push_accumulate
          { T.engine with
            gyro_average_window_front_index :=
              (T.engine.gyro_average_window_front_index + 15) % 16
            gyro_average_window := window_set T.engine.gyro_average_window
              ((T.engine.gyro_average_window_front_index + 15) % 16) {} } x y z
        held := held_set
          (held_set T.held ((T.engine.gyro_average_window_front_index + 15) % 16) [])
          ((T.engine.gyro_average_window_front_index + 15) % 16)
          (T.clock :: held_at
            (held_set T.held ((T.engine.gyro_average_window_front_index + 15) % 16) [])
            ((T.engine.gyro_average_window_front_index + 15) % 16))
        clock := T.clock + 1 } := by
  unfold traced_push
  simp only [push_at_capacity T.engine x y z h0 h16 hfull]
  rw [if_pos (by omega)]
  rfl

theorem traced_raw_room (f : Int) (ws : List GYRO_AVERAGE_WINDOW) (held : List (List Nat))
    (clock : Nat) (x y z : ℚ) (h : TracedOKRaw f ws held clock) :
    TracedOKRaw f
      (window_set ws f
        { x := round32 ((window_at ws f).x + x), y := round32 ((window_at ws f).y + y),
          z := round32 ((window_at ws f).z + z),
          numSamples := (window_at ws f).numSamples + 1 })
      (held_set held f (clock :: held_at held f)) (clock + 1) := by
  obtain ⟨h0, h16, hlen, hhl, hC, hK, hO⟩ := h
  refine ⟨h0, h16, ?_, ?_, ?_, ?_, ?_⟩
  · rw [window_set_length]; exact hlen
  · rw [held_set_length]; exact hhl
  · intro j
    rw [window_at_window_set, held_at_held_set, hlen, hhl]
    split
    · show (window_at ws f).numSamples + 1 = _
      rw [List.length_cons, hC]
      push_cast
      rfl
    · exact hC j
  · intro j a ha
    rw [held_at_held_set] at ha
    split at ha
    · rcases List.mem_cons.mp ha with e | e
      · omega
      · have := hK _ a e; omega
    · have := hK _ a ha; omega
  · intro p q hpq hq a ha b hb
    rw [held_at_held_set] at ha hb
    rw [if_neg (by omega)] at hb
    split at ha
    · rcases List.mem_cons.mp ha with e | e
      · have := hK _ b hb; omega
      · have hp : p = 0 := by omega
        subst hp
        have hidx : (((0 : Nat) : Int) + f) % 16 = f := by omega
        exact hO 0 q hpq hq a (by rw [hidx]; exact e) b hb
    · exact hO p q hpq hq a ha b hb

theorem traced_raw_full (f : Int) (ws : List GYRO_AVERAGE_WINDOW) (held : List (List Nat))
    (clock : Nat) (x y z : ℚ) (h : TracedOKRaw f ws held clock) :
    TracedOKRaw ((f + 15) % 16)
      (window_set (window_set ws ((f + 15) % 16) {}) ((f + 15) % 16)
        { x := round32 ((window_at (window_set ws ((f + 15) % 16) {}) ((f + 15) % 16)).x + x),
          y := round32 ((window_at (window_set ws ((f + 15) % 16) {}) ((f + 15) % 16)).y + y),
          z := round32 ((window_at (window_set ws ((f + 15) % 16) {}) ((f + 15) % 16)).z + z),
          numSamples :=
            (window_at (window_set ws ((f + 15) % 16) {}) ((f + 15) % 16)).numSamples + 1 })
      (held_set (held_set held ((f + 15) % 16) []) ((f + 15) % 16)
        (clock :: held_at (held_set held ((f + 15) % 16) []) ((f + 15) % 16)))
      (clock + 1) := by
  obtain ⟨h0, h16, hlen, hhl, hC, hK, hO⟩ := h
  have hr0 : 0 ≤ (f + 15) % 16 := by omega
  have hr16 : (f + 15) % 16 < 16 := by omega
  have hw0 : window_at (window_set ws ((f + 15) % 16) {}) ((f + 15) % 16) = {} :=
    window_at_window_set_self _ _ _ hr0 (by omega)
  have hh0 : held_at (held_set held ((f + 15) % 16) []) ((f + 15) % 16) = [] := by
    rw [held_at_held_set, if_pos ⟨rfl, hr0, by omega⟩]
  rw [hw0, hh0]
  refine ⟨hr0, hr16, ?_, ?_, ?_, ?_, ?_⟩
  · rw [window_set_length, window_set_length]; exact hlen
  · rw [held_set_length, held_set_length]; exact hhl
  · intro j
    rw [window_at_window_set, held_at_held_set, window_set_length, held_set_length, hlen, hhl,
      window_at_window_set, held_at_held_set, hlen, hhl]
    split
    · rfl
    · exact hC j
  · intro j a ha
    rw [held_at_held_set, held_set_length, held_at_held_set] at ha
    split at ha
    · have : a = clock := by simpa using ha
      omega
    · have := hK _ a ha; omega
  · intro p q hpq hq a ha b hb
    rw [held_at_held_set, held_set_length, held_at_held_set] at ha hb
    rw [if_neg (by omega), if_neg (by omega)] at hb
    have hqidx : ((q : Int) + (f + 15) % 16) % 16 = (((q - 1 : Nat) : Int) + f) % 16 := by omega
    rw [hqidx] at hb
    split at ha
    · have : a = clock := by simpa using ha
      have := hK _ b hb
      omega
    · have hp1 : 1 ≤ p := by
        by_contra hc
        have hp : p = 0 := by omega
        subst hp
        rename_i hcond
        exact hcond ⟨by omega, hr0, by omega⟩
      have hpidx : ((p : Int) + (f + 15) % 16) % 16 = (((p - 1 : Nat) : Int) + f) % 16 := by
        omega
      rw [hpidx] at ha
      exact hO (p - 1) (q - 1) (by omega) (by omega) a ha b hb

theorem traced_push_ok (T : TracedEngine) (x y z : ℚ) (h : TracedOK T) :
    TracedOK (traced_push T x y z) := by
  by_cases hroom : (window_at T.engine.gyro_average_window
        T.engine.gyro_average_window_front_index).numSamples
      < get_gyro_average_window_single_samples_for_device T.engine
  · rw [traced_push_room T x y z hroom]
    exact traced_raw_room _ _ _ _ x y z h
  · rw [traced_push_full T x y z h.1 h.2.1 (by omega)]
    exact traced_raw_full _ _ _ _ x y z h

theorem traced_run_ok (samples : List (ℚ × ℚ × ℚ)) :
    ∀ T : TracedEngine, TracedOK T → TracedOK (traced_run T samples) := by
  induction samples with
  | nil => intro T h; exact h
  | cons v rest ih =>
    intro T h
    exact ih _ (traced_push_ok T v.1 v.2.1 v.2.2 h)

theorem traced_run_engine (samples : List (ℚ × ℚ × ℚ)) :
    ∀ T : TracedEngine, (traced_run T samples).engine
      = samples.foldl (fun s v => push_sensor_samples s v.1 v.2.1 v.2.2) T.engine := by
  induction samples with
  | nil => intro T; rfl
  | cons v rest ih =>
    intro T
    exact ih _

theorem traced_ok_of_reset (s0 : JoyShock)
    (h0 : 0 ≤ s0.gyro_average_window_front_index)
    (h16 : s0.gyro_average_window_front_index < 16)
    (hlen : s0.gyro_average_window.length = 16) :
    TracedOK { engine := reset_continuous_calibration s0 } := by
  obtain ⟨hws, hfr, _, _⟩ := reset_fields s0
  have hl : (reset_continuous_calibration s0).gyro_average_window.length = 16 := by
    rw [hws, reset_loop_length]; exact hlen
  have hheld : ∀ j : Int, held_at (List.replicate 16 ([] : List Nat)) j = [] := by
    intro j
    unfold held_at
    split
    · rw [List.getD_eq_getElem?_getD, List.getElem?_replicate]
      split <;> rfl
    · rfl
  have hwin : ∀ j : Int,
      window_at (reset_continuous_calibration s0).gyro_average_window j = {} := by
    intro j
    by_cases hj : j < 16
    · exact reset_windows_empty s0 j hj
    · exact window_at_beyond _ _ (by omega)
  show TracedOKRaw (reset_continuous_calibration s0).gyro_average_window_front_index
    (reset_continuous_calibration s0).gyro_average_window (List.replicate 16 []) 0
  refine ⟨by rw [hfr]; exact h0, by rw [hfr]; exact h16, hl, by simp, ?_, ?_, ?_⟩
  · intro j
    rw [hwin j, hheld j]
    rfl
  · intro j a ha
    rw [hheld j] at ha
    cases ha
  · intro p q _ _ a ha
    rw [hheld] at ha
    cases ha

theorem held_walk_eq (T : TracedEngine) (k : Nat)
    (h0 : 0 ≤ T.engine.gyro_average_window_front_index) :
    held_walk T k = held_at T.held ((k + T.engine.gyro_average_window_front_index) % 16) := by
  unfold held_walk num_gyro_average_windows
  rw [Int.tmod_eq_emod (by omega) (by norm_num)]

/-- C22 (counterexample): a reset Joy-Con engine with a 1-second horizon (window
target capacity 4) after five pushes, numbered 0 to 4.  The front index is 15,
the window at the front index (visited first by `get_average_gyro`) holds push 4
alone, the window visited next holds pushes 3, 2, 1, 0, so two windows are
non-empty and the sample of the front window was pushed after, not before, the
samples of the window visited later. -/
theorem c22_front_window_holds_newest_push :
    (traced_run { engine := reset_continuous_calibration { gyro_average_window_seconds := 1 } }
        [(1, 2, 3), (1, 2, 3), (1, 2, 3), (1, 2, 3), (1, 2, 3)]
      ).engine.gyro_average_window_front_index = 15 ∧
    held_walk (traced_run
        { engine := reset_continuous_calibration { gyro_average_window_seconds := 1 } }
        [(1, 2, 3), (1, 2, 3), (1, 2, 3), (1, 2, 3), (1, 2, 3)]) 0 = [4] ∧
    held_walk (traced_run
        { engine := reset_continuous_calibration { gyro_average_window_seconds := 1 } }
        [(1, 2, 3), (1, 2, 3), (1, 2, 3), (1, 2, 3), (1, 2, 3)]) 1 = [3, 2, 1, 0] ∧
    ¬ (∀ a ∈ held_walk (traced_run
          { engine := reset_continuous_calibration { gyro_average_window_seconds := 1 } }
          [(1, 2, 3), (1, 2, 3), (1, 2, 3), (1, 2, 3), (1, 2, 3)]) 0,
        ∀ b ∈ held_walk (traced_run
          { engine := reset_continuous_calibration { gyro_average_window_seconds := 1 } }
          [(1, 2, 3), (1, 2, 3), (1, 2, 3), (1, 2, 3), (1, 2, 3)]) 1, a < b) := by
  decide

/-- C22 (amended): `get_average_gyro` walks the windows newest-to-oldest starting
at the front index.  In every state reached from a reset engine (front index in
0..15, 16 windows) by a sequence of `push_sensor_samples` calls, the traced
engine is the engine the calls produce, each window's count is the number of
pushes it holds, and for walk positions `p < q < 16` every push held in the
window visited at step `p` was made after every push held in the window visited
at step `q`; with `p = 0`: every sample held in the window at the front index
was pushed after every sample held in any window visited later. -/
theorem c22_walk_is_newest_to_oldest (s0 : JoyShock) (samples : List (ℚ × ℚ × ℚ))
    (h0 : 0 ≤ s0.gyro_average_window_front_index)
    (h16 : s0.gyro_average_window_front_index < 16)
    (hlen : s0.gyro_average_window.length = 16) :
    (traced_run { engine := reset_continuous_calibration s0 } samples).engine
      = samples.foldl (fun s v => push_sensor_samples s v.1 v.2.1 v.2.2)
          (reset_continuous_calibration s0) ∧
    (∀ j : Int,
      (window_at (traced_run { engine := reset_continuous_calibration s0 } samples
          ).engine.gyro_average_window j).numSamples
        = ((held_at (traced_run { engine := reset_continuous_calibration s0 } samples).held j
          ).length : Nat)) ∧
    (∀ p q : Nat, p < q → q < 16 →
      ∀ a ∈ held_walk (traced_run { engine := reset_continuous_calibration s0 } samples) p,
      ∀ b ∈ held_walk (traced_run { engine := reset_continuous_calibration s0 } samples) q,
        b < a) := by
  have hok := traced_run_ok samples _ (traced_ok_of_reset s0 h0 h16 hlen)
  obtain ⟨f0, _, _, _, hC, _, hO⟩ := hok
  refine ⟨traced_run_engine samples _, hC, ?_⟩
  intro p q hpq hq a ha b hb
  rw [held_walk_eq _ _ f0] at ha hb
  exact hO p q hpq hq a ha b hb

/-- Witness of C22 (amended): the reset 1-second engine after five pushes; the
push held at walk step 0 is later than the pushes held at walk step 1. -/
theorem c22_walk_is_newest_to_oldest_witness :
    (0 ≤ ({ gyro_average_window_seconds := 1 } : JoyShock).gyro_average_window_front_index ∧
      ({ gyro_average_window_seconds := 1 } : JoyShock).gyro_average_window_front_index < 16 ∧
      ({ gyro_average_window_seconds := 1 } : JoyShock).gyro_average_window.length = 16) ∧
    (∀ a ∈ held_walk (traced_run
          { engine := reset_continuous_calibration { gyro_average_window_seconds := 1 } }
          [(1, 2, 3), (1, 2, 3), (1, 2, 3), (1, 2, 3), (1, 2, 3)]) 0,
      ∀ b ∈ held_walk (traced_run
          { engine := reset_continuous_calibration { gyro_average_window_seconds := 1 } }
          [(1, 2, 3), (1, 2, 3), (1, 2, 3), (1, 2, 3), (1, 2, 3)]) 1, b < a) :=
  ⟨⟨by decide, by decide, by decide⟩,
    (c22_walk_is_newest_to_oldest { gyro_average_window_seconds := 1 }
      [(1, 2, 3), (1, 2, 3), (1, 2, 3), (1, 2, 3), (1, 2, 3)]
      (by decide) (by decide) (by decide)).2.2 0 1 (by decide) (by decide)⟩

/-! ### Binary32 rounding: error of one operation -/

theorem round_half_even_err (q : ℚ) : |((round_half_even q : Int) : ℚ) - q| ≤ 1 / 2 := by
  have h1 : ((⌊q⌋ : Int) : ℚ) ≤ q := Int.floor_le q
  have h2 : q < ((⌊q⌋ : Int) : ℚ) + 1 := Int.lt_floor_add_one q
  unfold round_half_even
  split
  · rw [abs_le]; constructor <;> linarith
  · split
    · push_cast; rw [abs_le]; constructor <;> linarith
    · have h3 : q - ⌊q⌋ = 1 / 2 := by
        rename_i ha hb
        exact le_antisymm (not_lt.mp hb) (not_lt.mp ha)
      split
      · rw [abs_le]; constructor <;> linarith
      · push_cast; rw [abs_le]; constructor <;> linarith

theorem log2_fuel_spec : ∀ (fuel n : Nat), 1 ≤ n → n < 2 ^ fuel →
    2 ^ log2_fuel fuel n ≤ n ∧ n < 2 ^ (log2_fuel fuel n + 1) := by
  intro fuel
  induction fuel with
  | zero =>
    intro n h1 h2
    simp at h2
    omega
  | succ f ih =>
    intro n h1 h2
    unfold log2_fuel
    split
    · rename_i h
      have hlt : n / 2 < 2 ^ f := by
        rw [Nat.div_lt_iff_lt_mul (by decide)]
        rw [pow_succ] at h2
        exact h2
      obtain ⟨a, b⟩ := ih (n / 2) (by omega) hlt
      constructor
      · rw [pow_succ]
        have := Nat.div_mul_le_self n 2
        calc 2 ^ log2_fuel f (n / 2) * 2 ≤ n / 2 * 2 := Nat.mul_le_mul_right 2 a
          _ ≤ n := this
      · rw [pow_succ]
        have : n < (n / 2 + 1) * 2 := by omega
        calc n < (n / 2 + 1) * 2 := this
          _ ≤ 2 ^ (log2_fuel f (n / 2) + 1) * 2 := Nat.mul_le_mul_right 2 b
    · simp
      omega

theorem log2_fuel_self (n : Nat) (h : 1 ≤ n) :
    2 ^ log2_fuel n n ≤ n ∧ n < 2 ^ (log2_fuel n n + 1) :=
  log2_fuel_spec n n h (Nat.lt_two_pow n)

theorem binade_le (v : ℚ) (hv : v ≠ 0) : (2 : ℚ) ^ binade v ≤ |v| := by
  unfold binade
  split
  · rename_i h; exact h
  · have hnum : 1 ≤ v.num.natAbs := by
      have : v.num ≠ 0 := Rat.num_ne_zero.mpr hv
      omega
    have hden : 1 ≤ v.den := v.den_pos
    obtain ⟨a1, _⟩ := log2_fuel_self _ hnum
    obtain ⟨_, b2⟩ := log2_fuel_self _ hden
    have habs : |v| = (v.num.natAbs : ℚ) / (v.den : ℚ) := by
      rw [Rat.abs_def, Rat.divInt_eq_div]
      simp [Nat.cast_natAbs]
    rw [habs]
    have hdpos : (0 : ℚ) < (v.den : ℚ) := by exact_mod_cast hden
    rw [le_div_iff₀ hdpos]
    have a1q : (2 : ℚ) ^ log2_fuel v.num.natAbs v.num.natAbs ≤ (v.num.natAbs : ℚ) := by
      exact_mod_cast a1
    have b2q : (v.den : ℚ) ≤ (2 : ℚ) ^ (log2_fuel v.den v.den + 1) := by
      exact_mod_cast le_of_lt b2
    have hz : (2 : ℚ) ^ ((log2_fuel v.num.natAbs v.num.natAbs : Int) - (log2_fuel v.den v.den : Int) - 1)
        * (2 : ℚ) ^ (log2_fuel v.den v.den + 1) = (2 : ℚ) ^ log2_fuel v.num.natAbs v.num.natAbs := by
      rw [← zpow_natCast, ← zpow_natCast, ← zpow_add₀ (by norm_num)]
      congr 1
      push_cast
      ring
    calc (2 : ℚ) ^ ((log2_fuel v.num.natAbs v.num.natAbs : Int) - (log2_fuel v.den v.den : Int) - 1)
          * (v.den : ℚ)
        ≤ (2 : ℚ) ^ ((log2_fuel v.num.natAbs v.num.natAbs : Int) - (log2_fuel v.den v.den : Int) - 1)
          * (2 : ℚ) ^ (log2_fuel v.den v.den + 1) :=
          mul_le_mul_of_nonneg_left b2q (by positivity)
      _ = (2 : ℚ) ^ log2_fuel v.num.natAbs v.num.natAbs := hz
      _ ≤ (v.num.natAbs : ℚ) := a1q

theorem round32_zero : round32 0 = 0 := by
  unfold round32 round_half_even
  simp

theorem round32_err (v : ℚ) : |round32 v - v| ≤ float_u * |v| + float_eta := by
  by_cases hv : v = 0
  · subst hv
    rw [round32_zero]
    simp [float_u, float_eta]
  have hq : (0 : ℚ) < 2 ^ (float_exponent v - 23) := by positivity
  have hr := round_half_even_err (v / 2 ^ (float_exponent v - 23))
  have hdiff : round32 v - v
      = (((round_half_even (v / 2 ^ (float_exponent v - 23)) : Int) : ℚ)
          - v / 2 ^ (float_exponent v - 23)) * 2 ^ (float_exponent v - 23) := by
    unfold round32
    field_simp
  have hbound : |round32 v - v| ≤ (2 : ℚ) ^ (float_exponent v - 24) := by
    rw [hdiff, abs_mul, abs_of_pos hq]
    have h24 : (2 : ℚ) ^ (float_exponent v - 24) = 1 / 2 * 2 ^ (float_exponent v - 23) := by
      have : float_exponent v - 23 = (float_exponent v - 24) + 1 := by ring
      rw [this, zpow_add₀ (by norm_num), zpow_one]
      ring
    rw [h24]
    exact mul_le_mul_of_nonneg_right hr (le_of_lt hq)
  have habs : (0 : ℚ) ≤ |v| := abs_nonneg v
  by_cases hb : -126 ≤ binade v
  · have he : float_exponent v = binade v := by
      unfold float_exponent
      exact max_eq_left hb
    have h1 : (2 : ℚ) ^ (float_exponent v - 24) = 2 ^ binade v * float_u := by
      rw [he, sub_eq_add_neg, zpow_add₀ (by norm_num)]
      unfold float_u
      norm_num
    have h2 := binade_le v hv
    have hu : (0 : ℚ) ≤ float_u := by unfold float_u; positivity
    have he0 : (0 : ℚ) ≤ float_eta := by unfold float_eta; positivity
    calc |round32 v - v| ≤ 2 ^ binade v * float_u := by rw [← h1]; exact hbound
      _ ≤ |v| * float_u := mul_le_mul_of_nonneg_right h2 hu
      _ = float_u * |v| := mul_comm _ _
      _ ≤ float_u * |v| + float_eta := by linarith
  · have he : float_exponent v = -126 := by
      unfold float_exponent
      exact max_eq_right (by omega)
    have h1 : (2 : ℚ) ^ (float_exponent v - 24) = float_eta := by
      rw [he]
      unfold float_eta
      norm_num
    have hu : (0 : ℚ) ≤ float_u * |v| := by unfold float_u; positivity
    calc |round32 v - v| ≤ float_eta := by rw [← h1]; exact hbound
      _ ≤ float_u * |v| + float_eta := by linarith

theorem round32_ge (v : ℚ) (hv : 0 ≤ v) : v * (1 - float_u) - float_eta ≤ round32 v := by
  have h := round32_err v
  rw [abs_of_nonneg hv, abs_le] at h
  linarith [h.1]

theorem round32_le (v : ℚ) (hv : 0 ≤ v) : round32 v ≤ v * (1 + float_u) + float_eta := by
  have h := round32_err v
  rw [abs_of_nonneg hv, abs_le] at h
  linarith [h.2]

theorem round32_count (n : Int) (h1 : 1 ≤ n) (h2 : n ≤ 2147483647) :
    (1 : ℚ) / 2 ≤ round32 ((n : Int) : ℚ) ∧ ((n : Int) : ℚ) / 2 ≤ round32 ((n : Int) : ℚ) ∧
      round32 ((n : Int) : ℚ) ≤ 4294967296 ∧
      |round32 ((n : Int) : ℚ) - ((n : Int) : ℚ)| ≤ 2 * float_u * ((n : Int) : ℚ) := by
  have hn1 : (1 : ℚ) ≤ ((n : Int) : ℚ) := by exact_mod_cast h1
  have hn2 : ((n : Int) : ℚ) ≤ 2147483647 := by exact_mod_cast h2
  have hlo := round32_ge _ (by linarith : (0 : ℚ) ≤ ((n : Int) : ℚ))
  have hhi := round32_le _ (by linarith : (0 : ℚ) ≤ ((n : Int) : ℚ))
  have herr := round32_err ((n : Int) : ℚ)
  rw [abs_of_nonneg (by linarith : (0 : ℚ) ≤ ((n : Int) : ℚ))] at herr
  unfold float_u float_eta at *
  refine ⟨by nlinarith, by nlinarith, by nlinarith, ?_⟩
  refine le_trans herr ?_
  nlinarith

theorem weight32_lower (a b : ℚ) (ha : 1 / 2 ≤ a) (hb0 : 0 < b) (hb : b ≤ 4294967296) :
    (1 : ℚ) / 2 ^ 34 ≤ round32 (a / b) := by
  have hq : (1 : ℚ) / 2 ^ 33 ≤ a / b := by
    rw [le_div_iff₀ hb0]
    nlinarith
  have h := round32_ge (a / b) (le_trans (by positivity) hq)
  unfold float_u float_eta at h
  nlinarith

theorem reference_weights32_spec (capacity : Int) :
    ∀ (l : List GYRO_AVERAGE_WINDOW) (B : Int), IntCounts capacity l B →
      ∀ p ∈ reference_weights32 capacity l B,
        (1 : ℚ) / 2 ^ 34 ≤ p.1 ∧ p.2 ∈ l ∧ 1 ≤ p.2.numSamples := by
  intro l
  induction l with
  | nil => intro B _ p hp; simp [reference_weights32] at hp
  | cons w rest ih =>
    intro B hc p hp
    obtain ⟨hl, hc1, hc2, hB⟩ := hc
    have hrest : ∀ B2 : Int, B2 ≤ 2147483647 → IntCounts capacity rest B2 :=
      fun B2 h2 => ⟨fun v hv => hl v (List.mem_cons_of_mem _ hv), hc1, hc2, h2⟩
    obtain ⟨hw0, hwmax⟩ := hl w (List.mem_cons_self _ _)
    unfold reference_weights32 at hp
    by_cases hB0 : B > 0
    · rw [if_pos hB0] at hp
      by_cases hz : w.numSamples = 0
      · rw [if_pos hz] at hp
        obtain ⟨a, b, c⟩ := ih B (hrest B hB) p hp
        exact ⟨a, List.mem_cons_of_mem _ b, c⟩
      · rw [if_neg hz] at hp
        have hw1 : 1 ≤ w.numSamples := by omega
        obtain ⟨n1, n2, n3, _⟩ := round32_count w.numSamples hw1 hwmax
        by_cases hgt : w.numSamples > B
        · rw [if_pos hgt] at hp
          rcases List.mem_cons.mp hp with rfl | hp2
          · obtain ⟨b1, _, _, _⟩ := round32_count B (by omega) hB
            exact ⟨weight32_lower _ _ b1 (by linarith) n3, List.mem_cons_self _ _, hw1⟩
          · obtain ⟨a, b, c⟩ := ih 0 (hrest 0 (by norm_num)) p hp2
            exact ⟨a, List.mem_cons_of_mem _ b, c⟩
        · rw [if_neg hgt] at hp
          rcases List.mem_cons.mp hp with rfl | hp2
          · obtain ⟨c1, _, c3, _⟩ := round32_count capacity hc1 hc2
            exact ⟨weight32_lower _ _ n1 (by linarith) c3, List.mem_cons_self _ _, hw1⟩
          · obtain ⟨a, b, c⟩ := ih (B - w.numSamples) (hrest _ (by omega)) p hp2
            exact ⟨a, List.mem_cons_of_mem _ b, c⟩
    · rw [if_neg hB0] at hp
      simp at hp

theorem reference_weights32_nonempty (capacity : Int) :
    ∀ (l : List GYRO_AVERAGE_WINDOW) (B : Int), 0 < B → (∃ w ∈ l, w.numSamples ≠ 0) →
      reference_weights32 capacity l B ≠ [] := by
  intro l
  induction l with
  | nil => intro B _ h; obtain ⟨w, hw, _⟩ := h; simp at hw
  | cons w rest ih =>
    intro B hB h
    unfold reference_weights32
    rw [if_pos hB]
    by_cases hz : w.numSamples = 0
    · rw [if_pos hz]
      apply ih B hB
      obtain ⟨v, hv, hvn⟩ := h
      rcases List.mem_cons.mp hv with rfl | hv2
      · exact absurd hz hvn
      · exact ⟨v, hv2, hvn⟩
    · rw [if_neg hz]
      split <;> simp

theorem reference_weights32_length (capacity : Int) :
    ∀ (l : List GYRO_AVERAGE_WINDOW) (B : Int),
      (reference_weights32 capacity l B).length ≤ l.length := by
  intro l
  induction l with
  | nil => intro B; simp [reference_weights32]
  | cons w rest ih =>
    intro B
    unfold reference_weights32
    split
    · split
      · exact le_trans (ih B) (by simp)
      · split
        · simp only [List.length_cons]; exact Nat.succ_le_succ (ih 0)
        · simp only [List.length_cons]; exact Nat.succ_le_succ (ih _)
    · simp

/-! ### Binary32 rounding: error of a rounded sum and of the final quotient -/

theorem float_u_pos : (0 : ℚ) < float_u := by unfold float_u; positivity
theorem float_eta_pos : (0 : ℚ) < float_eta := by unfold float_eta; positivity

theorem acc_step (acc S t τ M m : ℚ) (k : Nat) (hk : k ≤ 1000)
    (hacc : |acc - S| ≤ 3 * (k : ℚ) * (float_u * M + float_eta)) (hS : |S| ≤ M)
    (ht : |t - τ| ≤ float_u * |τ| + float_eta) (hm : |τ| ≤ m) :
    |round32 (acc + t) - (S + τ)| ≤ 3 * ((k + 1 : Nat) : ℚ) * (float_u * (M + m) + float_eta) ∧
      |S + τ| ≤ M + m := by
  have hu := float_u_pos
  have he := float_eta_pos
  have hM : 0 ≤ M := le_trans (abs_nonneg S) hS
  have hm0 : 0 ≤ m := le_trans (abs_nonneg τ) hm
  have hK : (0 : ℚ) ≤ (k : ℚ) := Nat.cast_nonneg k
  have hK2 : (k : ℚ) ≤ 1000 := by exact_mod_cast hk
  have hST : |S + τ| ≤ M + m := le_trans (abs_add S τ) (add_le_add hS hm)
  refine ⟨?_, hST⟩
  have hX : 0 ≤ float_u * (M + m) + float_eta := by
    have := mul_nonneg (le_of_lt hu) (add_nonneg hM hm0)
    linarith
  have hX0 : float_u * M + float_eta ≤ float_u * (M + m) + float_eta := by nlinarith
  have hτ : float_u * |τ| + float_eta ≤ float_u * (M + m) + float_eta := by nlinarith
  have e1 : |acc + t - (S + τ)| ≤ (3 * (k : ℚ) + 1) * (float_u * (M + m) + float_eta) := by
    have : acc + t - (S + τ) = (acc - S) + (t - τ) := by ring
    rw [this]
    refine le_trans (abs_add _ _) ?_
    have h3 : 3 * (k : ℚ) * (float_u * M + float_eta)
        ≤ 3 * (k : ℚ) * (float_u * (M + m) + float_eta) :=
      mul_le_mul_of_nonneg_left hX0 (mul_nonneg (by norm_num) hK)
    linarith
  have e2 : |acc + t| ≤ M + m + (3 * (k : ℚ) + 1) * (float_u * (M + m) + float_eta) := by
    have : acc + t = (S + τ) + (acc + t - (S + τ)) := by ring
    rw [this]
    refine le_trans (abs_add _ _) ?_
    linarith
  have e3 := round32_err (acc + t)
  have e4 : |round32 (acc + t) - (S + τ)|
      ≤ |round32 (acc + t) - (acc + t)| + |acc + t - (S + τ)| := by
    have : round32 (acc + t) - (S + τ)
        = (round32 (acc + t) - (acc + t)) + (acc + t - (S + τ)) := by ring
    rw [this]
    exact abs_add _ _
  have e5 : float_u * |acc + t|
      ≤ float_u * (M + m + (3 * (k : ℚ) + 1) * (float_u * (M + m) + float_eta)) :=
    mul_le_mul_of_nonneg_left e2 (le_of_lt hu)
  have hfu : float_u * (3 * (k : ℚ) + 1) ≤ 1 := by
    unfold float_u
    nlinarith
  have e6 : float_u * ((3 * (k : ℚ) + 1) * (float_u * (M + m) + float_eta))
      ≤ float_u * (M + m) + float_eta := by
    have := mul_le_mul_of_nonneg_right hfu hX
    linarith
  push_cast
  nlinarith

theorem fold_acc {α : Type} (approx term mag : α → ℚ) :
    ∀ (l : List α), (∀ p ∈ l, |approx p - term p| ≤ float_u * |term p| + float_eta ∧
        |term p| ≤ mag p) →
      ∀ (acc S M : ℚ) (k : Nat), k + l.length ≤ 1000 →
        |acc - S| ≤ 3 * (k : ℚ) * (float_u * M + float_eta) → |S| ≤ M →
        |l.foldl (fun a p => round32 (a + approx p)) acc - (S + (l.map term).sum)|
          ≤ 3 * ((k + l.length : Nat) : ℚ) * (float_u * (M + (l.map mag).sum) + float_eta) := by
  intro l
  induction l with
  | nil =>
    intro _ acc S M k _ hacc _
    simpa using hacc
  | cons p rest ih =>
    intro h acc S M k hk hacc hS
    obtain ⟨hp1, hp2⟩ := h p (List.mem_cons_self _ _)
    simp only [List.length_cons] at hk
    obtain ⟨s1, s2⟩ := acc_step acc S (approx p) (term p) M (mag p) k (by omega) hacc hS hp1 hp2
    have := ih (fun q hq => h q (List.mem_cons_of_mem _ hq)) (round32 (acc + approx p))
      (S + term p) (M + mag p) (k + 1) (by omega) s1 s2
    simp only [List.foldl_cons, List.map_cons, List.sum_cons, List.length_cons]
    have e1 : S + (term p + (List.map term rest).sum) = S + term p + (List.map term rest).sum := by
      ring
    have e2 : M + (mag p + (List.map mag rest).sum) = M + mag p + (List.map mag rest).sum := by
      ring
    have e3 : k + (rest.length + 1) = k + 1 + rest.length := by omega
    rw [e1, e2, e3]
    exact this

theorem quotient32_bounds (T W P Sg a b A : ℚ) (hSg : 1 / 2 ^ 34 ≤ Sg)
    (hW : |W - Sg| ≤ 48 * (float_u * Sg + float_eta))
    (hT : |T - P| ≤ 48 * (float_u * (A * Sg) + float_eta))
    (hPa : a * Sg ≤ P) (hPb : P ≤ b * Sg) (ha : |a| ≤ A) (hb : |b| ≤ A) :
    0 < W ∧ a - (1 / 2 ^ 16 * A + 1 / 2 ^ 100) ≤ round32 (T / W) ∧
      round32 (T / W) ≤ b + (1 / 2 ^ 16 * A + 1 / 2 ^ 100) := by
  have hA : 0 ≤ A := le_trans (abs_nonneg a) ha
  have hSg0 : 0 < Sg := lt_of_lt_of_le (by positivity) hSg
  rw [abs_le] at hW hT ha hb
  obtain ⟨hW1, hW2⟩ := hW
  obtain ⟨hT1, hT2⟩ := hT
  have hAS : 0 ≤ A * Sg := mul_nonneg hA (le_of_lt hSg0)
  have hAS2 : 0 ≤ A * (Sg - 1 / 2 ^ 34) := mul_nonneg hA (by linarith)
  unfold float_u float_eta at *
  have hWhalf : Sg / 2 ≤ W := by linarith
  have hWpos : 0 < W := by linarith
  -- the quotient before the last rounding
  have hup : T / W ≤ b + (193 / 2 ^ 24 * A + 1 / 2 ^ 109) := by
    rw [div_le_iff₀ hWpos]
    have h1 : b * Sg - A * (48 * (1 / 2 ^ 24 * Sg + 1 / 2 ^ 150)) ≤ b * W := by
      nlinarith [mul_nonneg hA (by linarith : (0:ℚ) ≤ 48 * (1 / 2 ^ 24 * Sg + 1 / 2 ^ 150) - (Sg - W)),
        mul_nonneg hA (by linarith : (0:ℚ) ≤ 48 * (1 / 2 ^ 24 * Sg + 1 / 2 ^ 150) - (W - Sg)),
        mul_nonneg (by linarith : (0:ℚ) ≤ A - b) (by linarith : (0:ℚ) ≤ 48 * (1 / 2 ^ 24 * Sg + 1 / 2 ^ 150) - (W - Sg)),
        mul_nonneg (by linarith : (0:ℚ) ≤ A + b) (by linarith : (0:ℚ) ≤ 48 * (1 / 2 ^ 24 * Sg + 1 / 2 ^ 150) - (Sg - W))]
    have h2 : (193 / 2 ^ 24 * A + 1 / 2 ^ 109) * (Sg / 2) ≤ (193 / 2 ^ 24 * A + 1 / 2 ^ 109) * W :=
      mul_le_mul_of_nonneg_left hWhalf (by positivity)
    linarith
  have hlo : a - (193 / 2 ^ 24 * A + 1 / 2 ^ 109) ≤ T / W := by
    rw [le_div_iff₀ hWpos]
    have h1 : a * W ≤ a * Sg + A * (48 * (1 / 2 ^ 24 * Sg + 1 / 2 ^ 150)) := by
      nlinarith [mul_nonneg hA (by linarith : (0:ℚ) ≤ 48 * (1 / 2 ^ 24 * Sg + 1 / 2 ^ 150) - (Sg - W)),
        mul_nonneg hA (by linarith : (0:ℚ) ≤ 48 * (1 / 2 ^ 24 * Sg + 1 / 2 ^ 150) - (W - Sg)),
        mul_nonneg (by linarith : (0:ℚ) ≤ A - a) (by linarith : (0:ℚ) ≤ 48 * (1 / 2 ^ 24 * Sg + 1 / 2 ^ 150) - (Sg - W)),
        mul_nonneg (by linarith : (0:ℚ) ≤ A + a) (by linarith : (0:ℚ) ≤ 48 * (1 / 2 ^ 24 * Sg + 1 / 2 ^ 150) - (W - Sg))]
    have h2 : (193 / 2 ^ 24 * A + 1 / 2 ^ 109) * (Sg / 2) ≤ (193 / 2 ^ 24 * A + 1 / 2 ^ 109) * W :=
      mul_le_mul_of_nonneg_left hWhalf (by positivity)
    linarith
  have habs : |T / W| ≤ A + (193 / 2 ^ 24 * A + 1 / 2 ^ 109) := by
    rw [abs_le]
    constructor <;> linarith
  have herr := round32_err (T / W)
  unfold float_u float_eta at herr
  rw [abs_le] at herr
  have hmul : 1 / 2 ^ 24 * |T / W| ≤ 1 / 2 ^ 24 * (A + (193 / 2 ^ 24 * A + 1 / 2 ^ 109)) :=
    mul_le_mul_of_nonneg_left habs (by positivity)
  refine ⟨hWpos, ?_, ?_⟩
  · linarith [herr.1]
  · linarith [herr.2]

/-! ### Gyro averaging engine: the walk in binary32 -/

theorem loop_reference32 (s : JoyShock) :
    ∀ (fuel i : Nat) (a : GyroAcc), i + fuel = 16 →
      (get_average_gyro_loop s fuel (i : Int) a).weight
        = (reference_weights32 (get_gyro_average_window_single_samples_for_device s)
            ((List.range' i fuel).map (walk_window s)) a.samplesWanted).foldl
          (fun acc p => round32 (acc + p.1)) a.weight ∧
      (get_average_gyro_loop s fuel (i : Int) a).totalX
        = (reference_weights32 (get_gyro_average_window_single_samples_for_device s)
            ((List.range' i fuel).map (walk_window s)) a.samplesWanted).foldl
          (fun acc p => round32 (acc + round32 (window_mean32 (fun w => w.x) p.2 * p.1)))
          a.totalX ∧
      (get_average_gyro_loop s fuel (i : Int) a).totalY
        = (reference_weights32 (get_gyro_average_window_single_samples_for_device s)
            ((List.range' i fuel).map (walk_window s)) a.samplesWanted).foldl
          (fun acc p => round32 (acc + round32 (window_mean32 (fun w => w.y) p.2 * p.1)))
          a.totalY ∧
      (get_average_gyro_loop s fuel (i : Int) a).totalZ
        = (reference_weights32 (get_gyro_average_window_single_samples_for_device s)
            ((List.range' i fuel).map (walk_window s)) a.samplesWanted).foldl
          (fun acc p => round32 (acc + round32 (window_mean32 (fun w => w.z) p.2 * p.1)))
          a.totalZ := by
  intro fuel
  induction fuel with
  | zero =>
    intro i a _
    simp [get_average_gyro_loop, reference_weights32]
  | succ f ih =>
    intro i a hi
    have hi16 : (i : Int) < num_gyro_average_windows := by
      unfold num_gyro_average_windows; omega
    rw [List.range'_succ, List.map_cons]
    unfold get_average_gyro_loop
    by_cases hB : a.samplesWanted > 0
    · rw [if_pos ⟨hi16, hB⟩]
      have hcast : ((i : Int) + 1) = ((i + 1 : Nat) : Int) := by push_cast; rfl
      rw [hcast]
      obtain ⟨e1, e2, e3, e4⟩ := ih (i + 1) (get_average_gyro_body s (i : Int) a) (by omega)
      rw [e1, e2, e3, e4]
      simp only [get_average_gyro_body, reference_weights32, if_pos hB, walk_window]
      generalize window_at s.gyro_average_window
        (Int.tmod ((i : Int) + s.gyro_average_window_front_index) num_gyro_average_windows) = w
      by_cases h0 : w.numSamples = 0
      · simp [h0]
      · simp only [h0, if_false]
        by_cases hlt : a.samplesWanted < w.numSamples
        · have hgt : w.numSamples > a.samplesWanted := hlt
          simp only [hlt, hgt, if_true, List.foldl_cons, window_mean32]
          exact ⟨trivial, trivial, trivial, trivial⟩
        · have hgt : ¬ w.numSamples > a.samplesWanted := hlt
          simp only [hlt, hgt, if_false, List.foldl_cons, window_mean32]
          exact ⟨trivial, trivial, trivial, trivial⟩
    · rw [if_neg (fun hc => hB hc.2)]
      simp [reference_weights32, hB]

theorem average_fields32 (s : JoyShock) :
    (get_average_gyro_loop s 16 0
        { samplesWanted := get_gyro_average_window_total_samples_for_device s }).weight
      = weight_sum32 (reference_visit32 s) ∧
    (get_average_gyro_loop s 16 0
        { samplesWanted := get_gyro_average_window_total_samples_for_device s }).totalX
      = weighted_mean_sum32 (fun w => w.x) (reference_visit32 s) ∧
    (get_average_gyro_loop s 16 0
        { samplesWanted := get_gyro_average_window_total_samples_for_device s }).totalY
      = weighted_mean_sum32 (fun w => w.y) (reference_visit32 s) ∧
    (get_average_gyro_loop s 16 0
        { samplesWanted := get_gyro_average_window_total_samples_for_device s }).totalZ
      = weighted_mean_sum32 (fun w => w.z) (reference_visit32 s) := by
  obtain ⟨e1, e2, e3, e4⟩ := loop_reference32 s 16 0
    { samplesWanted := get_gyro_average_window_total_samples_for_device s } (by norm_num)
  rw [Nat.cast_zero] at e1 e2 e3 e4
  unfold reference_visit32 walk_order weight_sum32 weighted_mean_sum32
  rw [List.range_eq_range']
  exact ⟨e1, e2, e3, e4⟩

theorem average_eq_reference32 (s : JoyShock) (out : ℚ × ℚ × ℚ) :
    get_average_gyro s out = reference_average32 s out := by
  obtain ⟨e1, e2, e3, e4⟩ := average_fields32 s
  unfold get_average_gyro reference_average32
  simp only [e1, e2, e3, e4]

theorem window_mean32_err (coord : GYRO_AVERAGE_WINDOW → ℚ) (w : GYRO_AVERAGE_WINDOW)
    (h1 : 1 ≤ w.numSamples) (h2 : w.numSamples ≤ 2147483647) :
    |window_mean32 coord w - coord w / ((w.numSamples : Int) : ℚ)|
      ≤ 6 * float_u * |coord w / ((w.numSamples : Int) : ℚ)| + float_eta := by
  obtain ⟨_, c2, _, c4⟩ := round32_count w.numSamples h1 h2
  have hn : (1 : ℚ) ≤ ((w.numSamples : Int) : ℚ) := by exact_mod_cast h1
  have hn0 : (0 : ℚ) < ((w.numSamples : Int) : ℚ) := by linarith
  have hF0 : (0 : ℚ) < round32 ((w.numSamples : Int) : ℚ) := by linarith
  have hu := float_u_pos
  have he := float_eta_pos
  generalize hF : round32 ((w.numSamples : Int) : ℚ) = F at *
  generalize hN : ((w.numSamples : Int) : ℚ) = n at *
  generalize hS : coord w = S at *
  unfold window_mean32
  rw [hS, hN, hF]
  -- the quotient by the converted count against the exact mean
  have hq : |S / F - S / n| ≤ 4 * float_u * |S / n| := by
    have e : S / F - S / n = (S / n) * ((n - F) / F) := by
      field_simp
      ring
    rw [e, abs_mul, mul_comm (4 * float_u)]
    apply mul_le_mul_of_nonneg_left _ (abs_nonneg _)
    rw [abs_div, abs_of_pos hF0, div_le_iff₀ hF0, abs_sub_comm]
    calc |F - n| ≤ 2 * float_u * n := c4
      _ ≤ 4 * float_u * F := by nlinarith
  have hr := round32_err (S / F)
  have hSF : |S / F| ≤ (1 + 4 * float_u) * |S / n| := by
    have : S / F = S / n + (S / F - S / n) := by ring
    rw [this]
    refine le_trans (abs_add _ _) ?_
    linarith
  have hfin : |round32 (S / F) - S / n| ≤ |round32 (S / F) - S / F| + |S / F - S / n| := by
    have : round32 (S / F) - S / n = (round32 (S / F) - S / F) + (S / F - S / n) := by ring
    rw [this]
    exact abs_add _ _
  have hmul : float_u * |S / F| ≤ float_u * ((1 + 4 * float_u) * |S / n|) :=
    mul_le_mul_of_nonneg_left hSF (le_of_lt hu)
  have hsmall : float_u * (4 * float_u) * |S / n| ≤ float_u * |S / n| := by
    apply mul_le_mul_of_nonneg_right _ (abs_nonneg _)
    unfold float_u
    norm_num
  nlinarith [abs_nonneg (S / n)]

theorem walk_order_counts (s : JoyShock)
    (hcount : ∀ j : Int, 0 ≤ j → j < 16 →
      0 ≤ (window_at s.gyro_average_window j).numSamples ∧
        (window_at s.gyro_average_window j).numSamples ≤ 2147483647) :
    ∀ w ∈ walk_order s, 0 ≤ w.numSamples ∧ w.numSamples ≤ 2147483647 := by
  intro w hw
  by_cases hz : w.numSamples = 0
  · rw [hz]; exact ⟨le_refl _, by norm_num⟩
  · obtain ⟨j, h0, h16, rfl⟩ := walk_order_mem s w hw hz
    exact hcount j h0 h16

theorem weight_sum_lower :
    ∀ (l : List (ℚ × GYRO_AVERAGE_WINDOW)), l ≠ [] → (∀ p ∈ l, (1 : ℚ) / 2 ^ 34 ≤ p.1) →
      (1 : ℚ) / 2 ^ 34 ≤ weight_sum l := by
  intro l hne h
  cases l with
  | nil => exact absurd rfl hne
  | cons p rest =>
    unfold weight_sum
    rw [List.map_cons, List.sum_cons]
    have h1 := h p (List.mem_cons_self _ _)
    have h2 : 0 ≤ (rest.map (fun p => p.1)).sum := by
      apply List.sum_nonneg
      intro x hx
      obtain ⟨q, hq, rfl⟩ := List.mem_map.mp hx
      exact le_trans (by positivity) (h q (List.mem_cons_of_mem _ hq))
    linarith

theorem convex_sum (m : GYRO_AVERAGE_WINDOW → ℚ) (a b : ℚ) :
    ∀ (l : List (ℚ × GYRO_AVERAGE_WINDOW)),
      (∀ p ∈ l, 0 ≤ p.1 ∧ a ≤ m p.2 ∧ m p.2 ≤ b) →
      a * weight_sum l ≤ (l.map (fun p => m p.2 * p.1)).sum ∧
        (l.map (fun p => m p.2 * p.1)).sum ≤ b * weight_sum l := by
  intro l
  induction l with
  | nil => intro _; simp [weight_sum]
  | cons p rest ih =>
    intro h
    obtain ⟨h0, ha, hb⟩ := h p (List.mem_cons_self _ _)
    obtain ⟨i1, i2⟩ := ih (fun q hq => h q (List.mem_cons_of_mem _ hq))
    unfold weight_sum at *
    simp only [List.map_cons, List.sum_cons]
    have e1 : a * p.1 ≤ m p.2 * p.1 := mul_le_mul_of_nonneg_right ha h0
    have e2 : m p.2 * p.1 ≤ b * p.1 := mul_le_mul_of_nonneg_right hb h0
    constructor
    · rw [mul_add]; linarith
    · rw [mul_add]; linarith

theorem weight_sum32_err (l : List (ℚ × GYRO_AVERAGE_WINDOW)) (hlen : l.length ≤ 16)
    (hpos : ∀ p ∈ l, 0 ≤ p.1) :
    |weight_sum32 l - weight_sum l| ≤ 48 * (float_u * weight_sum l + float_eta) := by
  have hu := float_u_pos
  have he := float_eta_pos
  have h := fold_acc (fun p : ℚ × GYRO_AVERAGE_WINDOW => p.1) (fun p => p.1) (fun p => p.1) l
    (fun p hp => by
      constructor
      · rw [sub_self, abs_zero]
        have := abs_nonneg p.1
        nlinarith
      · rw [abs_of_nonneg (hpos p hp)])
    0 0 0 0 (by simp; omega) (by simp) (by simp)
  simp only [zero_add, Nat.cast_zero] at h
  have hS : 0 ≤ weight_sum l := by
    unfold weight_sum
    apply List.sum_nonneg
    intro x hx
    obtain ⟨q, hq, rfl⟩ := List.mem_map.mp hx
    exact hpos q hq
  have hL : ((l.length : Nat) : ℚ) ≤ 16 := by exact_mod_cast hlen
  have hX : 0 ≤ float_u * weight_sum l + float_eta := by nlinarith
  unfold weight_sum32
  unfold weight_sum at *
  refine le_trans h ?_
  nlinarith

theorem weighted_mean_sum32_err (m : GYRO_AVERAGE_WINDOW → ℚ) (A : ℚ)
    (l : List (ℚ × GYRO_AVERAGE_WINDOW)) (hlen : l.length ≤ 16)
    (hpos : ∀ p ∈ l, 0 ≤ p.1 ∧ |m p.2| ≤ A) :
    |l.foldl (fun acc p => round32 (acc + round32 (m p.2 * p.1))) 0
        - (l.map (fun p => m p.2 * p.1)).sum|
      ≤ 48 * (float_u * (A * weight_sum l) + float_eta) := by
  have hu := float_u_pos
  have he := float_eta_pos
  have h := fold_acc (fun p : ℚ × GYRO_AVERAGE_WINDOW => round32 (m p.2 * p.1))
    (fun p => m p.2 * p.1) (fun p => A * p.1) l
    (fun p hp => by
      obtain ⟨h0, hA⟩ := hpos p hp
      constructor
      · exact round32_err _
      · rw [abs_mul, abs_of_nonneg h0]
        exact mul_le_mul_of_nonneg_right hA h0)
    0 0 0 0 (by simp; omega) (by simp) (by simp)
  simp only [zero_add, Nat.cast_zero] at h
  have hsum : (l.map (fun p => A * p.1)).sum = A * weight_sum l := by
    unfold weight_sum
    rw [← List.sum_map_mul_left]
  rw [hsum] at h
  have hS : 0 ≤ A * weight_sum l := by
    rw [← hsum]
    apply List.sum_nonneg
    intro x hx
    obtain ⟨q, hq, rfl⟩ := List.mem_map.mp hx
    obtain ⟨h0, hA⟩ := hpos q hq
    exact mul_nonneg (le_trans (abs_nonneg _) hA) h0
  have hL : ((l.length : Nat) : ℚ) ≤ 16 := by exact_mod_cast hlen
  have hX : 0 ≤ float_u * (A * weight_sum l) + float_eta := by nlinarith
  refine le_trans h ?_
  nlinarith

theorem visit32_spec (s : JoyShock)
    (h0 : 0 ≤ s.gyro_average_window_front_index)
    (hcount : ∀ j : Int, 0 ≤ j → j < 16 →
      0 ≤ (window_at s.gyro_average_window j).numSamples ∧
        (window_at s.gyro_average_window j).numSamples ≤ 2147483647)
    (hcap : 1 ≤ get_gyro_average_window_single_samples_for_device s)
    (htotal : get_gyro_average_window_total_samples_for_device s ≤ 2147483647) :
    (∀ p ∈ reference_visit32 s, (1 : ℚ) / 2 ^ 34 ≤ p.1 ∧ 1 ≤ p.2.numSamples ∧
      p.2.numSamples ≤ 2147483647 ∧
      ∃ j : Int, 0 ≤ j ∧ j < 16 ∧ p.2 = window_at s.gyro_average_window j) ∧
    (reference_visit32 s).length ≤ 16 ∧
    ((∃ j : Int, 0 ≤ j ∧ j < 16 ∧ (window_at s.gyro_average_window j).numSamples ≠ 0) →
      reference_visit32 s ≠ []) := by
  have hle := single_le_total s hcap
  have hwo := walk_order_counts s hcount
  refine ⟨?_, ?_, ?_⟩
  · intro p hp
    obtain ⟨a, b, c⟩ := reference_weights32_spec _ (walk_order s) _
      ⟨hwo, hcap, by omega, htotal⟩ p hp
    exact ⟨a, c, (hwo p.2 b).2, walk_order_mem s p.2 b (by omega)⟩
  · refine le_trans (reference_weights32_length _ _ _) ?_
    simp [walk_order]
  · intro hne
    obtain ⟨j, hj0, hj16, hjn⟩ := hne
    exact reference_weights32_nonempty _ _ _ (by omega)
      ⟨_, walk_order_covers s j h0 hj0 hj16, hjn⟩

theorem coord_between (coord : GYRO_AVERAGE_WINDOW → ℚ) (s : JoyShock) (lo hi A : ℚ)
    (h0 : 0 ≤ s.gyro_average_window_front_index)
    (hcount : ∀ j : Int, 0 ≤ j → j < 16 →
      0 ≤ (window_at s.gyro_average_window j).numSamples ∧
        (window_at s.gyro_average_window j).numSamples ≤ 2147483647)
    (hcap : 1 ≤ get_gyro_average_window_single_samples_for_device s)
    (htotal : get_gyro_average_window_total_samples_for_device s ≤ 2147483647)
    (hne : ∃ j : Int, 0 ≤ j ∧ j < 16 ∧ (window_at s.gyro_average_window j).numSamples ≠ 0)
    (hmean : ∀ j : Int, 0 ≤ j → j < 16 → (window_at s.gyro_average_window j).numSamples ≠ 0 →
      lo ≤ coord (window_at s.gyro_average_window j)
          / (((window_at s.gyro_average_window j).numSamples : Int) : ℚ) ∧
      coord (window_at s.gyro_average_window j)
          / (((window_at s.gyro_average_window j).numSamples : Int) : ℚ) ≤ hi)
    (hlo : |lo| ≤ A) (hhi : |hi| ≤ A) :
    0 < weight_sum32 (reference_visit32 s) ∧
    lo - (1 / 2 ^ 15 * A + 1 / 2 ^ 99)
      ≤ round32 (weighted_mean_sum32 coord (reference_visit32 s)
          / weight_sum32 (reference_visit32 s)) ∧
    round32 (weighted_mean_sum32 coord (reference_visit32 s)
          / weight_sum32 (reference_visit32 s))
      ≤ hi + (1 / 2 ^ 15 * A + 1 / 2 ^ 99) := by
  obtain ⟨hspec, hlen, hnonempty⟩ := visit32_spec s h0 hcount hcap htotal
  have hA : 0 ≤ A := le_trans (abs_nonneg lo) hlo
  have hu := float_u_pos
  have he := float_eta_pos
  -- the rounded window means stay near the exact ones
  have hm : ∀ p ∈ reference_visit32 s, 0 ≤ p.1 ∧
      lo - (6 * float_u * A + float_eta) ≤ window_mean32 coord p.2 ∧
      window_mean32 coord p.2 ≤ hi + (6 * float_u * A + float_eta) ∧
      |window_mean32 coord p.2| ≤ (1 + 6 * float_u) * A + float_eta := by
    intro p hp
    obtain ⟨w1, n1, n2, j, hj0, hj16, hj⟩ := hspec p hp
    have herr := window_mean32_err coord p.2 n1 n2
    have hb := hmean j hj0 hj16 (by rw [← hj]; omega)
    rw [← hj] at hb
    generalize coord p.2 / ((p.2.numSamples : Int) : ℚ) = μ at herr hb
    have hμ : |μ| ≤ A := by
      rw [abs_le] at hlo hhi ⊢
      constructor <;> linarith [hb.1, hb.2]
    have h6 : 6 * float_u * |μ| ≤ 6 * float_u * A :=
      mul_le_mul_of_nonneg_left hμ (by linarith)
    rw [abs_le] at herr
    refine ⟨le_trans (by positivity) w1, by linarith [herr.1, hb.1], by linarith [herr.2, hb.2],
      ?_⟩
    rw [abs_le] at hμ ⊢
    constructor <;> linarith [herr.1, herr.2]
  have hSg := weight_sum_lower (reference_visit32 s) (hnonempty hne)
    (fun p hp => (hspec p hp).1)
  have hW := weight_sum32_err (reference_visit32 s) hlen (fun p hp => (hm p hp).1)
  have hT := weighted_mean_sum32_err (window_mean32 coord) ((1 + 6 * float_u) * A + float_eta)
    (reference_visit32 s) hlen (fun p hp => ⟨(hm p hp).1, (hm p hp).2.2.2⟩)
  obtain ⟨hPa, hPb⟩ := convex_sum (window_mean32 coord) (lo - (6 * float_u * A + float_eta))
    (hi + (6 * float_u * A + float_eta)) (reference_visit32 s)
    (fun p hp => ⟨(hm p hp).1, (hm p hp).2.1, (hm p hp).2.2.1⟩)
  have ha : |lo - (6 * float_u * A + float_eta)| ≤ (1 + 6 * float_u) * A + float_eta := by
    rw [abs_le] at hlo ⊢
    constructor <;> nlinarith
  have hb : |hi + (6 * float_u * A + float_eta)| ≤ (1 + 6 * float_u) * A + float_eta := by
    rw [abs_le] at hhi ⊢
    constructor <;> nlinarith
  have hT2 : |weighted_mean_sum32 coord (reference_visit32 s)
        - ((reference_visit32 s).map (fun p => window_mean32 coord p.2 * p.1)).sum|
      ≤ 48 * (float_u * (((1 + 6 * float_u) * A + float_eta) * weight_sum (reference_visit32 s))
        + float_eta) := hT
  obtain ⟨q1, q2, q3⟩ := quotient32_bounds
    (weighted_mean_sum32 coord (reference_visit32 s)) (weight_sum32 (reference_visit32 s))
    (((reference_visit32 s).map (fun p => window_mean32 coord p.2 * p.1)).sum)
    (weight_sum (reference_visit32 s)) (lo - (6 * float_u * A + float_eta))
    (hi + (6 * float_u * A + float_eta)) ((1 + 6 * float_u) * A + float_eta)
    hSg hW hT2 hPa hPb ha hb
  refine ⟨q1, ?_, ?_⟩
  · refine le_trans ?_ q2
    unfold float_u float_eta
    linarith
  · refine le_trans q3 ?_
    unfold float_u float_eta
    linarith

/-! ### Gyro averaging engine: windows of identical samples -/

theorem nearSum_step (c S : ℚ) (n : Int) (h0 : 0 ≤ n) (hn : n ≤ 4194304) (h : NearSum c S n) :
    NearSum c (round32 (S + c)) (n + 1) := by
  unfold NearSum at *
  have hu := float_u_pos
  have he := float_eta_pos
  have hN0 : (0 : ℚ) ≤ (n : ℚ) := by exact_mod_cast h0
  have hN : (n : ℚ) ≤ 4194304 := by exact_mod_cast hn
  have hc := abs_nonneg c
  have herr := round32_err (S + c)
  have e1 : |S + c| ≤ ((n : ℚ) + 1) * |c|
      + ((n : ℚ) * (n : ℚ) * float_u * |c| + 2 * (n : ℚ) * float_eta) := by
    have : S + c = (S - (n : ℚ) * c) + ((n : ℚ) + 1) * c := by ring
    rw [this]
    refine le_trans (abs_add _ _) ?_
    rw [abs_mul, abs_of_nonneg (by linarith : (0 : ℚ) ≤ (n : ℚ) + 1)]
    linarith
  have e2 : |round32 (S + c) - ((n : ℚ) + 1) * c|
      ≤ |round32 (S + c) - (S + c)| + |S - (n : ℚ) * c| := by
    have : round32 (S + c) - ((n : ℚ) + 1) * c
        = (round32 (S + c) - (S + c)) + (S - (n : ℚ) * c) := by ring
    rw [this]
    exact abs_add _ _
  have e3 : float_u * |S + c| ≤ float_u * (((n : ℚ) + 1) * |c|
      + ((n : ℚ) * (n : ℚ) * float_u * |c| + 2 * (n : ℚ) * float_eta)) :=
    mul_le_mul_of_nonneg_left e1 (le_of_lt hu)
  have hun : float_u * (n : ℚ) ≤ 1 / 2 := by
    unfold float_u
    nlinarith
  have p1 : float_u * (n : ℚ) * ((n : ℚ) * float_u * |c|) ≤ 1 / 2 * ((n : ℚ) * float_u * |c|) :=
    mul_le_mul_of_nonneg_right hun (mul_nonneg (mul_nonneg hN0 (le_of_lt hu)) hc)
  have p2 : float_u * (n : ℚ) * (2 * float_eta) ≤ 1 / 2 * (2 * float_eta) :=
    mul_le_mul_of_nonneg_right hun (by linarith)
  push_cast
  nlinarith

theorem nearWindow_zero (x y z : ℚ) : NearWindow x y z {} := by
  refine ⟨le_refl _, ?_, ?_, ?_⟩ <;> simp [NearSum]

theorem nearWindow_step (x y z : ℚ) (w : GYRO_AVERAGE_WINDOW) (hn : w.numSamples ≤ 4194304)
    (h : NearWindow x y z w) :
    NearWindow x y z
      { x := round32 (w.x + x), y := round32 (w.y + y), z := round32 (w.z + z),
        numSamples := w.numSamples + 1 } := by
  obtain ⟨h0, hx, hy, hz⟩ := h
  exact ⟨by show 0 ≤ w.numSamples + 1; omega, nearSum_step x w.x _ h0 hn hx,
    nearSum_step y w.y _ h0 hn hy, nearSum_step z w.z _ h0 hn hz⟩

theorem push_near (x y z : ℚ) (s : JoyShock) (cap : Int) (hcap : 1 ≤ cap) (hcap2 : cap ≤ 4194304)
    (hs : cap = get_gyro_average_window_single_samples_for_device s)
    (hb : BoundedEngine cap s)
    (h : ∀ j : Int, NearWindow x y z (window_at s.gyro_average_window j)) :
    (∀ j : Int, NearWindow x y z (window_at (push_sensor_samples s x y z).gyro_average_window j)) ∧
    1 ≤ (window_at (push_sensor_samples s x y z).gyro_average_window
      (push_sensor_samples s x y z).gyro_average_window_front_index).numSamples := by
  obtain ⟨h0, h16, hlen, hw⟩ := hb
  by_cases hroom : (window_at s.gyro_average_window
      s.gyro_average_window_front_index).numSamples
      < get_gyro_average_window_single_samples_for_device s
  · rw [push_below_capacity s x y z hroom]
    unfold push_accumulate
    constructor
    · intro j
      show NearWindow x y z (window_at (window_set _ _ _) j)
      rw [window_at_window_set]
      split
      · have := (hw s.gyro_average_window_front_index).2
        exact nearWindow_step x y z _ (by omega) (h s.gyro_average_window_front_index)
      · exact h j
    · show 1 ≤ (window_at (window_set _ _ _) _).numSamples
      rw [window_at_window_set_self _ _ _ h0 (by omega)]
      have := (hw s.gyro_average_window_front_index).1
      show 1 ≤ _ + 1
      omega
  · have hr0 : 0 ≤ (s.gyro_average_window_front_index + 15) % 16 := by omega
    have hr16 : (s.gyro_average_window_front_index + 15) % 16 < 16 := by omega
    rw [push_at_capacity s x y z h0 h16 (by omega)]
    unfold push_accumulate
    have hz : window_at (window_set s.gyro_average_window
        ((s.gyro_average_window_front_index + 15) % 16) {})
        ((s.gyro_average_window_front_index + 15) % 16) = {} :=
      window_at_window_set_self _ _ _ hr0 (by omega)
    constructor
    · intro j
      show NearWindow x y z (window_at (window_set (window_set _ _ _) _ _) j)
      rw [window_at_window_set]
      split
      · simp only [hz]
        exact nearWindow_step x y z {} (by decide) (nearWindow_zero x y z)
      · rw [window_at_window_set]
        split
        · exact nearWindow_zero x y z
        · exact h j
    · show 1 ≤ (window_at (window_set (window_set _ _ _) _ _) _).numSamples
      rw [window_at_window_set_self _ _ _ hr0 (by rw [window_set_length]; omega)]
      simp only [hz]
      decide

theorem push_n_near (x y z : ℚ) (s : JoyShock) (cap : Int) (hcap : 1 ≤ cap)
    (hcap2 : cap ≤ 4194304)
    (hs : cap = get_gyro_average_window_single_samples_for_device s)
    (hfront : s.gyro_average_window_front_index = 0)
    (hempty : s.gyro_average_window = List.replicate 16 {}) :
    ∀ n : Nat, BoundedEngine cap (push_n s x y z n) ∧
      get_gyro_average_window_single_samples_for_device (push_n s x y z n) = cap ∧
      get_gyro_average_window_total_samples_for_device (push_n s x y z n)
        = get_gyro_average_window_total_samples_for_device s ∧
      (∀ j : Int, NearWindow x y z (window_at (push_n s x y z n).gyro_average_window j)) ∧
      (1 ≤ n → 1 ≤ (window_at (push_n s x y z n).gyro_average_window
        (push_n s x y z n).gyro_average_window_front_index).numSamples) := by
  intro n
  induction n with
  | zero =>
    refine ⟨bounded_of_empty s cap hcap hfront hempty, hs.symm, rfl, ?_, by omega⟩
    intro j
    have : window_at s.gyro_average_window j = {} := by
      unfold window_at
      rw [hempty]
      split
      · rw [List.getD_eq_getElem?_getD, List.getElem?_replicate]
        split <;> rfl
      · rfl
    show NearWindow x y z (window_at s.gyro_average_window j)
    rw [this]
    exact nearWindow_zero x y z
  | succ k ih =>
    obtain ⟨hb, h1, h2, hnear, _⟩ := ih
    obtain ⟨hb2, g1, g2⟩ := apply_op_bounded (push_n s x y z k) (EngineOp.push x y z) cap hcap
      h1.symm hb
    obtain ⟨n1, n2⟩ := push_near x y z (push_n s x y z k) cap hcap hcap2 h1.symm hb hnear
    exact ⟨hb2, g1.trans h1, g2.trans h2, n1, fun _ => n2⟩

theorem nearSum_mean (c S : ℚ) (n cap : Int) (h1 : 1 ≤ n) (hcap : n ≤ cap)
    (h : NearSum c S n) :
    c - ((cap : ℚ) * float_u * |c| + 2 * float_eta) ≤ S / (n : ℚ) ∧
      S / (n : ℚ) ≤ c + ((cap : ℚ) * float_u * |c| + 2 * float_eta) := by
  unfold NearSum at h
  have hu := float_u_pos
  have he := float_eta_pos
  have hN : (1 : ℚ) ≤ (n : ℚ) := by exact_mod_cast h1
  have hN0 : (0 : ℚ) < (n : ℚ) := by linarith
  have hC : (n : ℚ) ≤ (cap : ℚ) := by exact_mod_cast hcap
  have hc := abs_nonneg c
  rw [abs_le] at h
  have hm : (n : ℚ) * float_u * |c| ≤ (cap : ℚ) * float_u * |c| := by
    apply mul_le_mul_of_nonneg_right _ hc
    exact mul_le_mul_of_nonneg_right hC (le_of_lt hu)
  constructor
  · rw [le_div_iff₀ hN0]
    nlinarith [h.1]
  · rw [div_le_iff₀ hN0]
    nlinarith [h.2]

/-! ### Gyro averaging engine: the reference weighted mean in binary32 -/

theorem average_components (s : JoyShock) (out : ℚ × ℚ × ℚ)
    (h : 0 < weight_sum32 (reference_visit32 s)) :
    get_average_gyro s out =
      (round32 (weighted_mean_sum32 (fun w => w.x) (reference_visit32 s)
          / weight_sum32 (reference_visit32 s)),
       round32 (weighted_mean_sum32 (fun w => w.y) (reference_visit32 s)
          / weight_sum32 (reference_visit32 s)),
       round32 (weighted_mean_sum32 (fun w => w.z) (reference_visit32 s)
          / weight_sum32 (reference_visit32 s))) := by
  rw [average_eq_reference32]
  unfold reference_average32
  rw [if_pos h]

theorem counts_of_bounded (s : JoyShock) (cap : Int) (hcap : cap ≤ 2147483647)
    (hb : BoundedEngine cap s) :
    ∀ j : Int, 0 ≤ j → j < 16 →
      0 ≤ (window_at s.gyro_average_window j).numSamples ∧
        (window_at s.gyro_average_window j).numSamples ≤ 2147483647 := by
  intro j _ _
  obtain ⟨a, b⟩ := hb.2.2.2 j
  exact ⟨a, by omega⟩

/-- C24 as stated fails: a DualShock 4 engine with the default horizon that has
taken the sample (1, 2, 3) twice has one non-empty window, with count 2 and Z
sum 6, so the smallest and the largest per-window mean of Z are both 3; but
`get_average_gyro` returns Z = 12582913 / 4194304 (the binary32 number
0x40400001), above 3. -/
theorem c24_average_above_largest_mean :
    (∀ k ∈ List.range 16,
      (window_at (push_n { is_ds4 := true } 1 2 3 2).gyro_average_window (k : Int)).numSamples ≠ 0 →
      (window_at (push_n { is_ds4 := true } 1 2 3 2).gyro_average_window (k : Int)).z
        / (((window_at (push_n { is_ds4 := true } 1 2 3 2).gyro_average_window
          (k : Int)).numSamples : Int) : ℚ) = 3) ∧
    window_at (push_n { is_ds4 := true } 1 2 3 2).gyro_average_window 0
      = { x := 2, y := 4, z := 6, numSamples := 2 } ∧
    (get_average_gyro (push_n { is_ds4 := true } 1 2 3 2) (0, 0, 0)).2.2 = 12582913 / 4194304 ∧
    3 < (get_average_gyro (push_n { is_ds4 := true } 1 2 3 2) (0, 0, 0)).2.2 := by
  decide!

/-- C24 (amended): for every engine state with a non-negative front index,
counts that are non-negative `int` values, target capacity at least 1, an `int`
budget and at least one non-empty window among the 16, every window that
`get_average_gyro` visits and counts receives a strictly positive weight, and
each coordinate it returns lies between the smallest and the largest per-window
mean `windowSum / count` of the non-empty windows up to the rounding of the
binary32 operations: if `lo` and `hi` bound those means, the coordinate is at
least `lo - E` and at most `hi + E` with `E = 2^-15 * max(|lo|, |hi|) + 2^-99`,
and is at most `FLT_MAX` in size.  The means are taken to be at most 2^64 in
size, which keeps every intermediate result a finite binary32 number. -/
theorem c24_average_between_window_means (s : JoyShock) (out : ℚ × ℚ × ℚ)
    (lox hix loy hiy loz hiz : ℚ)
    (h0 : 0 ≤ s.gyro_average_window_front_index)
    (hcount : ∀ j : Int, 0 ≤ j → j < 16 →
      0 ≤ (window_at s.gyro_average_window j).numSamples ∧
        (window_at s.gyro_average_window j).numSamples ≤ 2147483647)
    (hcap : 1 ≤ get_gyro_average_window_single_samples_for_device s)
    (htotal : get_gyro_average_window_total_samples_for_device s ≤ 2147483647)
    (hne : ∃ j : Int, 0 ≤ j ∧ j < 16 ∧ (window_at s.gyro_average_window j).numSamples ≠ 0)
    (hx : ∀ j : Int, 0 ≤ j → j < 16 → (window_at s.gyro_average_window j).numSamples ≠ 0 →
      lox ≤ (window_at s.gyro_average_window j).x
          / (((window_at s.gyro_average_window j).numSamples : Int) : ℚ) ∧
      (window_at s.gyro_average_window j).x
          / (((window_at s.gyro_average_window j).numSamples : Int) : ℚ) ≤ hix)
    (hy : ∀ j : Int, 0 ≤ j → j < 16 → (window_at s.gyro_average_window j).numSamples ≠ 0 →
      loy ≤ (window_at s.gyro_average_window j).y
          / (((window_at s.gyro_average_window j).numSamples : Int) : ℚ) ∧
      (window_at s.gyro_average_window j).y
          / (((window_at s.gyro_average_window j).numSamples : Int) : ℚ) ≤ hiy)
    (hz : ∀ j : Int, 0 ≤ j → j < 16 → (window_at s.gyro_average_window j).numSamples ≠ 0 →
      loz ≤ (window_at s.gyro_average_window j).z
          / (((window_at s.gyro_average_window j).numSamples : Int) : ℚ) ∧
      (window_at s.gyro_average_window j).z
          / (((window_at s.gyro_average_window j).numSamples : Int) : ℚ) ≤ hiz)
    (hsize : max |lox| |hix| ≤ 2 ^ 64 ∧ max |loy| |hiy| ≤ 2 ^ 64 ∧ max |loz| |hiz| ≤ 2 ^ 64) :
    (∀ p ∈ reference_visit32 s, 0 < p.1) ∧
    (lox - (1 / 2 ^ 15 * max |lox| |hix| + 1 / 2 ^ 99) ≤ (get_average_gyro s out).1 ∧
      (get_average_gyro s out).1 ≤ hix + (1 / 2 ^ 15 * max |lox| |hix| + 1 / 2 ^ 99)) ∧
    (loy - (1 / 2 ^ 15 * max |loy| |hiy| + 1 / 2 ^ 99) ≤ (get_average_gyro s out).2.1 ∧
      (get_average_gyro s out).2.1 ≤ hiy + (1 / 2 ^ 15 * max |loy| |hiy| + 1 / 2 ^ 99)) ∧
    (loz - (1 / 2 ^ 15 * max |loz| |hiz| + 1 / 2 ^ 99) ≤ (get_average_gyro s out).2.2 ∧
      (get_average_gyro s out).2.2 ≤ hiz + (1 / 2 ^ 15 * max |loz| |hiz| + 1 / 2 ^ 99)) ∧
    (|(get_average_gyro s out).1| ≤ FLT_MAX ∧ |(get_average_gyro s out).2.1| ≤ FLT_MAX ∧
      |(get_average_gyro s out).2.2| ≤ FLT_MAX) := by
  obtain ⟨wx, x1, x2⟩ := coord_between (fun w => w.x) s lox hix (max |lox| |hix|) h0 hcount hcap
    htotal hne hx (le_max_left _ _) (le_max_right _ _)
  obtain ⟨_, y1, y2⟩ := coord_between (fun w => w.y) s loy hiy (max |loy| |hiy|) h0 hcount hcap
    htotal hne hy (le_max_left _ _) (le_max_right _ _)
  obtain ⟨_, z1, z2⟩ := coord_between (fun w => w.z) s loz hiz (max |loz| |hiz|) h0 hcount hcap
    htotal hne hz (le_max_left _ _) (le_max_right _ _)
  have hpos : ∀ p ∈ reference_visit32 s, 0 < p.1 := fun p hp =>
    lt_of_lt_of_le (by positivity) ((visit32_spec s h0 hcount hcap htotal).1 p hp).1
  rw [average_components s out wx]
  have fin : ∀ lo hi r : ℚ, max |lo| |hi| ≤ 2 ^ 64 →
      lo - (1 / 2 ^ 15 * max |lo| |hi| + 1 / 2 ^ 99) ≤ r →
      r ≤ hi + (1 / 2 ^ 15 * max |lo| |hi| + 1 / 2 ^ 99) → |r| ≤ FLT_MAX := by
    intro lo hi r hm h1 h2
    have a1 := le_max_left |lo| |hi|
    have a2 := le_max_right |lo| |hi|
    have b1 := neg_abs_le lo
    have b2 := le_abs_self hi
    unfold FLT_MAX
    rw [abs_le]
    constructor <;> norm_num <;> linarith
  exact ⟨hpos, ⟨x1, x2⟩, ⟨y1, y2⟩, ⟨z1, z2⟩, fin _ _ _ hsize.1 x1 x2, fin _ _ _ hsize.2.1 y1 y2,
    fin _ _ _ hsize.2.2 z1 z2⟩

/-- Witness of C24 (amended): a Joy-Con engine with a 1-second horizon (target
capacity 4) that has taken (1, 2, 3) four times and then (2, 2, 2): window 0
has the means (1, 2, 3) and window 15 the means (2, 2, 2). -/
theorem c24_average_between_window_means_witness :
    (0 ≤ (run_ops { gyro_average_window_seconds := 1 }
        [EngineOp.push 1 2 3, EngineOp.push 1 2 3, EngineOp.push 1 2 3, EngineOp.push 1 2 3,
          EngineOp.push 2 2 2]).gyro_average_window_front_index ∧
      1 ≤ get_gyro_average_window_single_samples_for_device
        (run_ops { gyro_average_window_seconds := 1 }
          [EngineOp.push 1 2 3, EngineOp.push 1 2 3, EngineOp.push 1 2 3, EngineOp.push 1 2 3,
            EngineOp.push 2 2 2]) ∧
      window_at (run_ops { gyro_average_window_seconds := 1 }
          [EngineOp.push 1 2 3, EngineOp.push 1 2 3, EngineOp.push 1 2 3, EngineOp.push 1 2 3,
            EngineOp.push 2 2 2]).gyro_average_window 0
        = { x := 4, y := 8, z := 12, numSamples := 4 } ∧
      window_at (run_ops { gyro_average_window_seconds := 1 }
          [EngineOp.push 1 2 3, EngineOp.push 1 2 3, EngineOp.push 1 2 3, EngineOp.push 1 2 3,
            EngineOp.push 2 2 2]).gyro_average_window 15
        = { x := 2, y := 2, z := 2, numSamples := 1 }) ∧
    (2 - (1 / 2 ^ 15 * max |(2 : ℚ)| |3| + 1 / 2 ^ 99)
        ≤ (get_average_gyro (run_ops { gyro_average_window_seconds := 1 }
          [EngineOp.push 1 2 3, EngineOp.push 1 2 3, EngineOp.push 1 2 3, EngineOp.push 1 2 3,
            EngineOp.push 2 2 2]) (0, 0, 0)).2.2 ∧
      (get_average_gyro (run_ops { gyro_average_window_seconds := 1 }
          [EngineOp.push 1 2 3, EngineOp.push 1 2 3, EngineOp.push 1 2 3, EngineOp.push 1 2 3,
            EngineOp.push 2 2 2]) (0, 0, 0)).2.2
        ≤ 3 + (1 / 2 ^ 15 * max |(2 : ℚ)| |3| + 1 / 2 ^ 99)) := by
  have hmeans : ∀ (lo hi : ℚ) (coord : GYRO_AVERAGE_WINDOW → ℚ),
      (∀ k ∈ List.range 16,
        (window_at (run_ops { gyro_average_window_seconds := 1 }
          [EngineOp.push 1 2 3, EngineOp.push 1 2 3, EngineOp.push 1 2 3, EngineOp.push 1 2 3,
            EngineOp.push 2 2 2]).gyro_average_window (k : Int)).numSamples ≠ 0 →
        lo ≤ coord (window_at (run_ops { gyro_average_window_seconds := 1 }
            [EngineOp.push 1 2 3, EngineOp.push 1 2 3, EngineOp.push 1 2 3, EngineOp.push 1 2 3,
              EngineOp.push 2 2 2]).gyro_average_window (k : Int))
          / (((window_at (run_ops { gyro_average_window_seconds := 1 }
            [EngineOp.push 1 2 3, EngineOp.push 1 2 3, EngineOp.push 1 2 3, EngineOp.push 1 2 3,
              EngineOp.push 2 2 2]).gyro_average_window (k : Int)).numSamples : Int) : ℚ) ∧
        coord (window_at (run_ops { gyro_average_window_seconds := 1 }
            [EngineOp.push 1 2 3, EngineOp.push 1 2 3, EngineOp.push 1 2 3, EngineOp.push 1 2 3,
              EngineOp.push 2 2 2]).gyro_average_window (k : Int))
          / (((window_at (run_ops { gyro_average_window_seconds := 1 }
            [EngineOp.push 1 2 3, EngineOp.push 1 2 3, EngineOp.push 1 2 3, EngineOp.push 1 2 3,
              EngineOp.push 2 2 2]).gyro_average_window (k : Int)).numSamples : Int) : ℚ) ≤ hi) →
      ∀ j : Int, 0 ≤ j → j < 16 →
        (window_at (run_ops { gyro_average_window_seconds := 1 }
          [EngineOp.push 1 2 3, EngineOp.push 1 2 3, EngineOp.push 1 2 3, EngineOp.push 1 2 3,
            EngineOp.push 2 2 2]).gyro_average_window j).numSamples ≠ 0 →
        lo ≤ coord (window_at (run_ops { gyro_average_window_seconds := 1 }
            [EngineOp.push 1 2 3, EngineOp.push 1 2 3, EngineOp.push 1 2 3, EngineOp.push 1 2 3,
              EngineOp.push 2 2 2]).gyro_average_window j)
          / (((window_at (run_ops { gyro_average_window_seconds := 1 }
            [EngineOp.push 1 2 3, EngineOp.push 1 2 3, EngineOp.push 1 2 3, EngineOp.push 1 2 3,
              EngineOp.push 2 2 2]).gyro_average_window j).numSamples : Int) : ℚ) ∧
        coord (window_at (run_ops { gyro_average_window_seconds := 1 }
            [EngineOp.push 1 2 3, EngineOp.push 1 2 3, EngineOp.push 1 2 3, EngineOp.push 1 2 3,
              EngineOp.push 2 2 2]).gyro_average_window j)
          / (((window_at (run_ops { gyro_average_window_seconds := 1 }
            [EngineOp.push 1 2 3, EngineOp.push 1 2 3, EngineOp.push 1 2 3, EngineOp.push 1 2 3,
              EngineOp.push 2 2 2]).gyro_average_window j).numSamples : Int) : ℚ) ≤ hi := by
    intro lo hi coord h j hj0 hj16
    have := h j.toNat (List.mem_range.mpr (by omega))
    rw [Int.toNat_of_nonneg hj0] at this
    exact this
  have hb := (run_ops_bounded
    [EngineOp.push 1 2 3, EngineOp.push 1 2 3, EngineOp.push 1 2 3, EngineOp.push 1 2 3,
      EngineOp.push 2 2 2] { gyro_average_window_seconds := 1 } 4 (by decide) (by decide)
    (bounded_of_empty _ 4 (by decide) rfl rfl)).1
  exact ⟨⟨by decide!, by decide!, by decide!, by decide!⟩,
    (c24_average_between_window_means _ (0, 0, 0) 1 2 2 2 2 3 (by decide!)
      (counts_of_bounded _ 4 (by decide) hb) (by decide!) (by decide!)
      ⟨0, by decide, by decide, by decide!⟩
      (hmeans 1 2 (fun w => w.x) (by decide!)) (hmeans 2 2 (fun w => w.y) (by decide!))
      (hmeans 2 3 (fun w => w.z) (by decide!)) (by decide!)).2.2.2.1⟩

/-! ### Gyro averaging engine: the average of identical samples -/

theorem near_sample (c lo hi r A : ℚ) (hlo : lo = c - (10714 * float_u * |c| + 2 * float_eta))
    (hhi : hi = c + (10714 * float_u * |c| + 2 * float_eta))
    (hA : A = |c| + (10714 * float_u * |c| + 2 * float_eta))
    (h1 : lo - (1 / 2 ^ 15 * A + 1 / 2 ^ 99) ≤ r) (h2 : r ≤ hi + (1 / 2 ^ 15 * A + 1 / 2 ^ 99)) :
    |r - c| ≤ 1 / 2 ^ 10 * |c| + 1 / 2 ^ 98 := by
  have hc := abs_nonneg c
  subst hlo hhi hA
  unfold float_u float_eta at *
  rw [abs_le]
  constructor <;> linarith

theorem identical_samples_near (s : JoyShock) (x y z : ℚ) (out : ℚ × ℚ × ℚ) (n : Nat)
    (hfront : s.gyro_average_window_front_index = 0)
    (hsec : s.gyro_average_window_seconds = 600)
    (hempty : s.gyro_average_window = List.replicate 16 {})
    (hn : 1 ≤ n) :
    |(get_average_gyro (push_n s x y z n) out).1 - x| ≤ 1 / 2 ^ 10 * |x| + 1 / 2 ^ 98 ∧
    |(get_average_gyro (push_n s x y z n) out).2.1 - y| ≤ 1 / 2 ^ 10 * |y| + 1 / 2 ^ 98 ∧
    |(get_average_gyro (push_n s x y z n) out).2.2 - z| ≤ 1 / 2 ^ 10 * |z| + 1 / 2 ^ 98 := by
  have hsingle : 1 ≤ get_gyro_average_window_single_samples_for_device s ∧
      get_gyro_average_window_single_samples_for_device s ≤ 10714 ∧
      get_gyro_average_window_total_samples_for_device s ≤ 2147483647 := by
    unfold get_gyro_average_window_single_samples_for_device
      get_gyro_average_window_total_samples_for_device num_gyro_average_windows
    rw [hsec]
    cases s.is_ds4 <;> decide
  obtain ⟨c1, c2, c3⟩ := hsingle
  obtain ⟨hb, hs1, hs2, hnear, hfrontne⟩ := push_n_near x y z s
    (get_gyro_average_window_single_samples_for_device s) c1 (by omega) rfl hfront hempty n
  have hcount := counts_of_bounded _ _ (by omega) hb
  have h0 := hb.1
  have h16 := hb.2.1
  have hne : ∃ j : Int, 0 ≤ j ∧ j < 16 ∧
      (window_at (push_n s x y z n).gyro_average_window j).numSamples ≠ 0 :=
    ⟨_, h0, h16, by have := hfrontne hn; omega⟩
  have hmean : ∀ (coord : GYRO_AVERAGE_WINDOW → ℚ) (c : ℚ),
      (∀ w, NearWindow x y z w → NearSum c (coord w) w.numSamples) →
      ∀ j : Int, 0 ≤ j → j < 16 →
      (window_at (push_n s x y z n).gyro_average_window j).numSamples ≠ 0 →
      c - (10714 * float_u * |c| + 2 * float_eta)
        ≤ coord (window_at (push_n s x y z n).gyro_average_window j)
          / (((window_at (push_n s x y z n).gyro_average_window j).numSamples : Int) : ℚ) ∧
      coord (window_at (push_n s x y z n).gyro_average_window j)
          / (((window_at (push_n s x y z n).gyro_average_window j).numSamples : Int) : ℚ)
        ≤ c + (10714 * float_u * |c| + 2 * float_eta) := by
    intro coord c hc j _ _ hjn
    obtain ⟨b1, b2⟩ := hb.2.2.2 j
    obtain ⟨m1, m2⟩ := nearSum_mean c _ _ 10714 (by omega) (by omega) (hc _ (hnear j))
    push_cast at m1 m2
    exact ⟨m1, m2⟩
  have habs : ∀ c : ℚ,
      |c - (10714 * float_u * |c| + 2 * float_eta)|
        ≤ |c| + (10714 * float_u * |c| + 2 * float_eta) ∧
      |c + (10714 * float_u * |c| + 2 * float_eta)|
        ≤ |c| + (10714 * float_u * |c| + 2 * float_eta) := by
    intro c
    have hu := float_u_pos
    have he := float_eta_pos
    have hc := abs_nonneg c
    have h1 := neg_abs_le c
    have h2 := le_abs_self c
    have hp : 0 ≤ 10714 * float_u * |c| + 2 * float_eta := by
      have := mul_nonneg (le_of_lt hu) hc
      linarith
    constructor <;> rw [abs_le] <;> constructor <;> linarith
  have hcapn : 1 ≤ get_gyro_average_window_single_samples_for_device (push_n s x y z n) := by
    rw [hs1]; exact c1
  have htot : get_gyro_average_window_total_samples_for_device (push_n s x y z n)
      ≤ 2147483647 := by
    rw [hs2]; exact c3
  obtain ⟨wx, x1, x2⟩ := coord_between (fun w => w.x) (push_n s x y z n) _ _ _ h0 hcount hcapn
    htot hne (hmean (fun w => w.x) x (fun w hw => hw.2.1)) (habs x).1 (habs x).2
  obtain ⟨_, y1, y2⟩ := coord_between (fun w => w.y) (push_n s x y z n) _ _ _ h0 hcount hcapn
    htot hne (hmean (fun w => w.y) y (fun w hw => hw.2.2.1)) (habs y).1 (habs y).2
  obtain ⟨_, z1, z2⟩ := coord_between (fun w => w.z) (push_n s x y z n) _ _ _ h0 hcount hcapn
    htot hne (hmean (fun w => w.z) z (fun w hw => hw.2.2.2)) (habs z).1 (habs z).2
  rw [average_components _ out wx]
  exact ⟨near_sample x _ _ _ _ rfl rfl rfl x1 x2, near_sample y _ _ _ _ rfl rfl rfl y1 y2,
    near_sample z _ _ _ _ rfl rfl rfl z1 z2⟩

/-- C1 as stated fails: a fresh Joy-Con engine with the default horizon takes the
sample (1, 2, 3) five times; `get_average_gyro` returns Z = 12582911 / 4194304
(the binary32 number 0x403fffff, next below 3), not 3: the weight 5/2871 is
rounded, and so are its product with the mean 3 and the final quotient. -/
theorem c1_average_is_not_exactly_the_sample :
    get_average_gyro (push_n {} 1 2 3 5) (0, 0, 0) = (1, 2, 12582911 / 4194304) ∧
    get_average_gyro (push_n {} 1 2 3 5) (0, 0, 0) ≠ (1, 2, 3) := by
  decide!

/-- C1 (amended): from a freshly reset gyro engine (16 empty windows, front
index 0) with the default horizon of 600 s, after `n ≥ 1` pushes of the same
sample `(x, y, z)` (each coordinate at most 2^64 in size) `get_average_gyro`
returns the sample up to the rounding of the binary32 operations, for both
sample rates: each coordinate of the result differs from the sample's by at
most `2^-10` of its size plus `2^-98`, and is at most `FLT_MAX` in size; in
particular after exactly one window's target capacity
`get_gyro_average_window_single_samples_for_device` of pushes. -/
theorem c1_average_of_identical_samples (s : JoyShock) (x y z : ℚ) (out : ℚ × ℚ × ℚ) (n : Nat)
    (hfront : s.gyro_average_window_front_index = 0)
    (hsec : s.gyro_average_window_seconds = 600)
    (hempty : s.gyro_average_window = List.replicate 16 {})
    (hn : 1 ≤ n)
    (hsize : |x| ≤ 2 ^ 64 ∧ |y| ≤ 2 ^ 64 ∧ |z| ≤ 2 ^ 64) :
    (|(get_average_gyro (push_n s x y z n) out).1 - x| ≤ 1 / 2 ^ 10 * |x| + 1 / 2 ^ 98 ∧
      |(get_average_gyro (push_n s x y z n) out).2.1 - y| ≤ 1 / 2 ^ 10 * |y| + 1 / 2 ^ 98 ∧
      |(get_average_gyro (push_n s x y z n) out).2.2 - z| ≤ 1 / 2 ^ 10 * |z| + 1 / 2 ^ 98) ∧
    (|(get_average_gyro (push_n s x y z n) out).1| ≤ FLT_MAX ∧
      |(get_average_gyro (push_n s x y z n) out).2.1| ≤ FLT_MAX ∧
      |(get_average_gyro (push_n s x y z n) out).2.2| ≤ FLT_MAX) ∧
    get_gyro_average_window_single_samples_for_device s
      = Int.tdiv ((if s.is_ds4 then 250 else 67) * 600) 14 ∧
    (|(get_average_gyro (push_n s x y z
          (get_gyro_average_window_single_samples_for_device s).toNat) out).1 - x|
        ≤ 1 / 2 ^ 10 * |x| + 1 / 2 ^ 98 ∧
      |(get_average_gyro (push_n s x y z
          (get_gyro_average_window_single_samples_for_device s).toNat) out).2.1 - y|
        ≤ 1 / 2 ^ 10 * |y| + 1 / 2 ^ 98 ∧
      |(get_average_gyro (push_n s x y z
          (get_gyro_average_window_single_samples_for_device s).toNat) out).2.2 - z|
        ≤ 1 / 2 ^ 10 * |z| + 1 / 2 ^ 98) := by
  have hsingle : get_gyro_average_window_single_samples_for_device s
      = Int.tdiv ((if s.is_ds4 then 250 else 67) * 600) 14 := by
    unfold get_gyro_average_window_single_samples_for_device
      get_gyro_average_window_total_samples_for_device num_gyro_average_windows
    rw [hsec]
    cases s.is_ds4 <;> rfl
  have hcap : 1 ≤ (get_gyro_average_window_single_samples_for_device s).toNat := by
    rw [hsingle]
    cases s.is_ds4 <;> decide
  have fin : ∀ c r : ℚ, |c| ≤ 2 ^ 64 → |r - c| ≤ 1 / 2 ^ 10 * |c| + 1 / 2 ^ 98 →
      |r| ≤ FLT_MAX := by
    intro c r hc hr
    have h1 : |r| ≤ |r - c| + |c| := by
      have : r = (r - c) + c := by ring
      nth_rewrite 1 [this]
      exact abs_add _ _
    unfold FLT_MAX
    norm_num at hc ⊢
    linarith
  obtain ⟨a1, a2, a3⟩ := identical_samples_near s x y z out n hfront hsec hempty hn
  exact ⟨⟨a1, a2, a3⟩, ⟨fin x _ hsize.1 a1, fin y _ hsize.2.1 a2, fin z _ hsize.2.2 a3⟩, hsingle,
    identical_samples_near s x y z out _ hfront hsec hempty hcap⟩

/-- Witness of C1 (amended): a Joy-Con engine, five pushes of the sample
`(1, 2, 3)`; the Z coordinate of the average is within `2^-10 * 3 + 2^-98` of 3. -/
theorem c1_average_of_identical_samples_witness :
    (({} : JoyShock).gyro_average_window_front_index = 0 ∧
      ({} : JoyShock).gyro_average_window_seconds = 600 ∧
      ({} : JoyShock).gyro_average_window = List.replicate 16 {} ∧ 1 ≤ 5 ∧
      |(1 : ℚ)| ≤ 2 ^ 64 ∧ |(2 : ℚ)| ≤ 2 ^ 64 ∧ |(3 : ℚ)| ≤ 2 ^ 64) ∧
    |(get_average_gyro (push_n {} 1 2 3 5) (0, 0, 0)).2.2 - 3| ≤ 1 / 2 ^ 10 * |(3 : ℚ)| + 1 / 2 ^ 98 :=
  ⟨⟨rfl, rfl, rfl, by decide, by decide!, by decide!, by decide!⟩,
    (c1_average_of_identical_samples {} 1 2 3 (0, 0, 0) 5 rfl rfl rfl (by decide)
      ⟨by decide!, by decide!, by decide!⟩).1.2.2⟩

end JSL
